import Mathlib

/-!
# Airfield-Maintenance: role/shift synchronisation, admin override, data-access helpers

A shallow embedding of the parts of the repository that its specification makes claims
about:

* the serverless request handlers under `supabase/functions/*/index.ts`,
* the client libraries `src/lib/userManagement.js`, `src/lib/userRoleSync.js`,
  `src/lib/adminOverride.js`, `src/lib/supabaseUtils.js`, `src/lib/supabaseAuth.js` and
  `src/lib/supabaseStorage.js`,
* the form validation of `src/components/UserManagement.jsx` and the CSV export of
  `src/components/Reports.jsx`,
* the entry of the migration scripts `migrate-to-supabase.js` and `fix-migration.js`.

JavaScript values are modelled by the type `Val`; an `async` function becomes a computation in
the monad `Eff`, which threads the history of remote calls and carries a thrown exception in an
`Except`.  The backend (auth service, tables, HTTP endpoints) is an arbitrary `World`: every
theorem quantifies over all its possible answers.
-/

set_option autoImplicit false

namespace Airfield

/-! ## JavaScript values -/

/-- JavaScript values as far as the program inspects them.  Numbers are integers (no program
path modelled here does arithmetic); objects are association lists of their own properties in
insertion order; `fn` is a built-in function, which the program can only meet as a member
inherited from `Object.prototype`, with its `name` and its `length`. -/
inductive Val where
  | undefined
  | null
  | bool (b : Bool)
  | num (n : Int)
  | str (s : String)
  | arr (items : List Val)
  | obj (fields : List (String × Val))
  | fn (name : String) (arity : Nat)
  deriving Inhabited

/-- A thrown exception or an error object reported by the backend client; only its `message`
and its `code` (absent on a plain `Error`) are ever read by the program. -/
structure JSErr where
  message : String
  code : Option String
  deriving DecidableEq, Inhabited

/-- JavaScript truthiness (`if (v)`, `!v`, `v || w`). -/
def truthy : Val → Bool
  | .undefined => false
  | .null => false
  | .bool b => b
  | .num n => n != 0
  | .str s => s != ""
  | .arr _ => true
  | .obj _ => true
  | .fn _ _ => true

/-- The test `v === null || v === undefined`. -/
def nullish : Val → Bool
  | .undefined => true
  | .null => true
  | _ => false

/-- The expression `a || b`. -/
def orElse (a b : Val) : Val := if truthy a then a else b

/-- Look a key up in an object's fields; a missing key reads as `undefined`. -/
def lookupField : List (String × Val) → String → Val
  | [], _ => .undefined
  | (k, v) :: rest, key => if k = key then v else lookupField rest key

/-- A `TypeError` raised by the runtime. -/
def typeError (what : String) : JSErr := ⟨"TypeError: " ++ what, none⟩

/-- A property of a built-in function: its `name` and its `length`; every other key used by
this program reads as `undefined`. -/
def fnProp (name : String) (arity : Nat) (key : String) : Val :=
  if key = "name" then .str name
  else if key = "length" then .num arity
  else .undefined

/-- Property read `v.key`.  Reading a property of `null` or `undefined` throws a `TypeError`;
a key that an object does not have, and any of the keys used by this program on a primitive or
an array, reads as `undefined`. -/
def getProp (v : Val) (key : String) : Except JSErr Val :=
  match v with
  | .undefined => .error (typeError "cannot read properties of undefined")
  | .null => .error (typeError "cannot read properties of null")
  | .obj fields => .ok (lookupField fields key)
  | .fn name arity => .ok (fnProp name arity key)
  | _ => .ok .undefined

/-- A default parameter value `(p = dflt)`: used when the argument is `undefined`. -/
def withDefault (v dflt : Val) : Val :=
  match v with
  | .undefined => dflt
  | _ => v

/-- Optional chaining `v?.key`. -/
def optProp (v : Val) (key : String) : Val :=
  match v with
  | .obj fields => lookupField fields key
  | .fn name arity => fnProp name arity key
  | _ => .undefined

/-- Strict equality with a string literal, `v === 's'`. -/
def isStr (v : Val) (s : String) : Bool :=
  match v with
  | .str t => t = s
  | _ => false

/-- The call `list.includes(v)` for a list of string literals. -/
def includesStr (list : List String) (v : Val) : Bool :=
  match v with
  | .str t => list.contains t
  | _ => false

/-- Write `key` in an object's fields: an existing key keeps its place, a new key is appended. -/
def setField : List (String × Val) → String → Val → List (String × Val)
  | [], key, v => [(key, v)]
  | (k, w) :: rest, key, v => if k = key then (k, v) :: rest else (k, w) :: setField rest key v

mutual
/-- String conversion of a value, as done by template literals and property keys. -/
def Val.toJSString : Val → String
  | .undefined => "undefined"
  | .null => "null"
  | .bool b => if b then "true" else "false"
  | .num n => toString n
  | .str s => s
  | .arr items => joinItems items
  | .obj _ => "[object Object]"
  | .fn name _ => "function " ++ name ++ "() { [native code] }"
/-- The call `items.join(',')` underlying the string conversion of an array. -/
def joinItems : List Val → String
  | [] => ""
  | [x] =>
    match x with
    | .undefined => ""
    | .null => ""
    | y => y.toJSString
  | x :: y :: rest =>
    (match x with
      | .undefined => ""
      | .null => ""
      | z => z.toJSString) ++ "," ++ joinItems (y :: rest)
end

/-- Strict equality `a === b`.  Two objects or arrays coming from different sources are never
the same reference; a built-in function is the same reference every time it is read. -/
def strictEq : Val → Val → Bool
  | .undefined, .undefined => true
  | .null, .null => true
  | .bool a, .bool b => a = b
  | .num a, .num b => a = b
  | .str a, .str b => a = b
  | .fn a m, .fn b n => a = b && m = n
  | _, _ => false

/-- The characters that `String.prototype.trim` removes and that the class `\s` of a regular
expression matches: the white space and line terminator code points of ECMAScript. -/
def isJSSpace (c : Char) : Bool :=
  let n := c.toNat
  n = 0x09 || n = 0x0A || n = 0x0B || n = 0x0C || n = 0x0D || n = 0x20 || n = 0xA0 ||
    n = 0x1680 || (0x2000 ≤ n && n ≤ 0x200A) || n = 0x2028 || n = 0x2029 || n = 0x202F ||
    n = 0x205F || n = 0x3000 || n = 0xFEFF

/-- The call `s.trim()`. -/
def jsTrim (s : String) : String :=
  ⟨((s.data.dropWhile isJSSpace).reverse.dropWhile isJSSpace).reverse⟩

/-- The value of a run of decimal digits. -/
def digitsValue (digits : List Char) : Nat :=
  digits.foldl (fun n c => 10 * n + (c.toNat - 48)) 0

/-- The exponent part of a decimal literal, `e` or `E`, an optional sign and digits, when it
is all that is left of the text; `none` when the text is not an exponent part. -/
def exponentOf (rest : List Char) : Option Int :=
  match rest with
  | [] => some 0
  | c :: more =>
    if c = 'e' || c = 'E' then
      match more with
      | '+' :: digits =>
        if !digits.isEmpty && digits.all Char.isDigit then some (digitsValue digits) else none
      | '-' :: digits =>
        if !digits.isEmpty && digits.all Char.isDigit then some (-(digitsValue digits : Int))
        else none
      | digits =>
        if !digits.isEmpty && digits.all Char.isDigit then some (digitsValue digits) else none
    else none

/-- Whether an unsigned decimal literal (`Infinity`, `12`, `1.5`, `.5`, `2e3`) converts to a
number greater than 0.  The value `m * 10 ^ e` is rounded to the nearest double, so it is
positive exactly when it exceeds half of the least positive double, `2 ^ -1075`. -/
def unsignedDecimalPositive (text : List Char) : Bool :=
  if text = "Infinity".data then true
  else
    let whole := text.takeWhile Char.isDigit
    let rest := text.dropWhile Char.isDigit
    let fraction := match rest with
      | '.' :: more => more.takeWhile Char.isDigit
      | _ => []
    let rest := match rest with
      | '.' :: more => more.dropWhile Char.isDigit
      | more => more
    if whole.isEmpty && fraction.isEmpty then false
    else
      match exponentOf rest with
      | none => false
      | some e =>
        let m := digitsValue (whole ++ fraction)
        let e10 : Int := e - fraction.length
        if 0 ≤ e10 then decide (0 < m)
        else decide (10 ^ (-e10).toNat < m * 2 ^ 1075)

/-- Whether a binary, octal or hexadecimal literal (`0b101`, `0o17`, `0xff`) converts to a
number greater than 0; `none` when the text is not such a literal. -/
def nonDecimalPositive (text : List Char) : Option Bool :=
  match text with
  | '0' :: c :: digits =>
    if (c = 'x' || c = 'X') && !digits.isEmpty &&
        digits.all (fun d => d.isDigit || ('a' ≤ d && d ≤ 'f') || ('A' ≤ d && d ≤ 'F')) then
      some (digits.any fun d => d != '0')
    else if (c = 'o' || c = 'O') && !digits.isEmpty &&
        digits.all (fun d => '0' ≤ d && d ≤ '7') then
      some (digits.any fun d => d != '0')
    else if (c = 'b' || c = 'B') && !digits.isEmpty &&
        digits.all (fun d => d = '0' || d = '1') then
      some (digits.any fun d => d != '0')
    else none
  | _ => none

/-- The comparison `s > 0` for a string: the string is converted to a number (surrounding
white space is ignored, the empty string is 0, a text that is no numeric literal is `NaN`). -/
def stringPositive (s : String) : Bool :=
  let text := (jsTrim s).data
  match nonDecimalPositive text with
  | some positive => positive
  | none =>
    match text with
    | '+' :: rest => unsignedDecimalPositive rest
    | '-' :: _ => false
    | rest => unsignedDecimalPositive rest

/-- The receiver of an array method (`forEach`, `map`, `find`): an array gives its items,
anything else has no such method. -/
def asArray (v : Val) : Except JSErr (List Val) :=
  match v with
  | .arr items => .ok items
  | .undefined => .error (typeError "cannot read properties of undefined")
  | .null => .error (typeError "cannot read properties of null")
  | _ => .error (typeError "not a function")

/-- The own enumerable properties copied by an object spread `{ ...v }`. -/
def ownFields : Val → List (String × Val)
  | .obj fields => fields
  | .arr items => items.enum.map fun p => (toString p.1, p.2)
  | .str s => s.data.enum.map fun p => (toString p.1, .str (String.singleton p.2))
  | _ => []

/-- The text before the first `@`: `s.split('@')[0]`. -/
def beforeAt (s : String) : String := ⟨s.data.takeWhile fun c => c != '@'⟩

/-- The expression `email?.split('@')[0]`. -/
def emailLocal (email : Val) : Except JSErr Val :=
  match email with
  | .undefined => .ok .undefined
  | .null => .ok .undefined
  | .str s => .ok (.str (beforeAt s))
  | _ => .error (typeError "split is not a function")

/-- The expression `a || b` where evaluating `b` may throw. -/
def orElseM (a : Val) (b : Except JSErr Val) : Except JSErr Val :=
  if truthy a then .ok a else b

/-- Replace the first occurrence of `pat` in a list of characters. -/
def replaceFirstChars (pat rep : List Char) : List Char → List Char
  | [] => []
  | c :: cs =>
    if pat.isPrefixOf (c :: cs) then rep ++ (c :: cs).drop pat.length
    else c :: replaceFirstChars pat rep cs

/-- The call `s.replace(pat, rep)` with a non-empty string pattern: first occurrence only. -/
def replaceFirst (s pat rep : String) : String :=
  ⟨replaceFirstChars pat.data rep.data s.data⟩

/-! ## The backend and the effect monad -/

/-- One step of a query built with the table client (`supabase.from(table)...`). -/
inductive QOp where
  | select (cols : String)
  | order (col : String) (ascending : Bool)
  | eq (col : String) (v : Val)
  | gte (col : String) (v : Val)
  | lte (col : String) (v : Val)
  | limit (n : Val)
  | single
  | insert (rows : Val)
  | update (values : Val)
  | upsert (row : Val) (onConflict : String)
  | delete

/-- A request made through the backend client. -/
inductive Call where
  | getSession
  | getUser (token : Option String)
  | adminGetUserById (id : Val)
  | adminUpdateUserById (id : Val) (attrs : Val)
  | adminListUsers
  | query (table : String) (ops : List QOp)
  | rpc (fn : String) (args : Val)
  | signInWithPassword (email password : Val)
  | storagePublicUrl (bucket path : String)

/-- What awaiting a client request gives: a rejected promise, or the object
`{ data, error }`. -/
inductive Outcome where
  | rejected (e : JSErr)
  | resolved (data : Val) (error : Option JSErr)

/-- An HTTP request as sent by `fetch(url, { method, headers, body })`; `body` is the value
handed to `JSON.stringify`. -/
structure HttpRequest where
  url : String
  method : String
  authorization : Option String
  body : Val

/-- What awaiting `fetch` gives: a rejected promise, or a response with its `ok` flag and the
result of `response.json()`. -/
inductive FetchOutcome where
  | rejected (e : JSErr)
  | response (ok : Bool) (json : Except JSErr Val)

/-- An entry of the history of remote interactions, with the answer received. -/
inductive Event where
  | call (c : Call) (o : Outcome)
  | fetch (r : HttpRequest) (o : FetchOutcome)

/-- The environment of a run: how the backend answers each request (possibly depending on
everything that happened before), and the ambient clock and identifier source. -/
structure World where
  remote : List Event → Call → Outcome
  http : List Event → HttpRequest → FetchOutcome
  isoNow : Nat → String
  millisNow : Nat → Nat
  uuid : Nat → String

/-- The state threaded through a run: the history of remote interactions, the number of
ambient reads (clock, identifiers) made so far, the browser's `localStorage` and the heap of
mutable client-side objects (addressed by position). -/
structure St where
  trace : List Event
  draws : Nat
  storage : List (String × String)
  heap : List (List (String × Val))

/-- The state at the start of a server-side run. -/
def St.init : St := ⟨[], 0, [], []⟩

/-- The state at the start of a client-side run in a browser with the given `localStorage`
and heap. -/
def St.browser (storage : List (String × String)) (heap : List (List (String × Val))) : St :=
  ⟨[], 0, storage, heap⟩

/-- An `async` computation: it may throw, and it records its remote interactions. -/
def Eff (α : Type) : Type := World → St → Except JSErr α × St

/-- Continue a run after a step: a thrown exception skips the continuation. -/
def bindR {α β : Type} (r : Except JSErr α × St) (f : α → Eff β) (w : World) :
    Except JSErr β × St :=
  match r with
  | (.ok a, s1) => f a w s1
  | (.error e, s1) => (.error e, s1)

/-- Sequencing of two computations. -/
def Eff.bind {α β : Type} (m : Eff α) (f : α → Eff β) : Eff β := fun w s =>
  bindR (m w s) f w

instance : Monad Eff where
  pure a := fun _ s => (.ok a, s)
  bind := Eff.bind

/-- The statement `throw e`. -/
def throwJS {α : Type} (e : JSErr) : Eff α := fun _ s => (.error e, s)

/-- Leave a `try` block: a thrown exception enters the handler. -/
def catchR {α : Type} (r : Except JSErr α × St) (handler : JSErr → Eff α) (w : World) :
    Except JSErr α × St :=
  match r with
  | (.ok a, s1) => (.ok a, s1)
  | (.error e, s1) => handler e w s1

/-- The block `try { body } catch (e) { handler e }`. -/
def tryCatchJS {α : Type} (body : Eff α) (handler : JSErr → Eff α) : Eff α := fun w s =>
  catchR (body w s) handler w

/-- Run a pure step that may throw. -/
def liftE {α : Type} (x : Except JSErr α) : Eff α := fun _ s => (x, s)

/-- Await a client request: a rejected promise throws, otherwise `{ data, error }` is
returned; either way the interaction is recorded. -/
def await (c : Call) : Eff (Val × Option JSErr) := fun w s =>
  match w.remote s.trace c with
  | .rejected e => (.error e, { s with trace := s.trace ++ [.call c (.rejected e)] })
  | .resolved d e => (.ok (d, e), { s with trace := s.trace ++ [.call c (.resolved d e)] })

/-- Await `fetch(...)`: a rejected promise throws, otherwise the response is returned. -/
def awaitFetch (r : HttpRequest) : Eff (Bool × Except JSErr Val) := fun w s =>
  match w.http s.trace r with
  | .rejected e => (.error e, { s with trace := s.trace ++ [.fetch r (.rejected e)] })
  | .response ok j => (.ok (ok, j), { s with trace := s.trace ++ [.fetch r (.response ok j)] })

/-- The expression `new Date().toISOString()`. -/
def isoNow : Eff String := fun w s => (.ok (w.isoNow s.draws), { s with draws := s.draws + 1 })

/-- The expression `Date.now()`. -/
def millisNow : Eff Nat := fun w s => (.ok (w.millisNow s.draws), { s with draws := s.draws + 1 })

/-- The call `uuidv4()`. -/
def uuidv4 : Eff String := fun w s => (.ok (w.uuid s.draws), { s with draws := s.draws + 1 })

/-- Run a computation from the initial state. -/
def run {α : Type} (m : Eff α) (w : World) : Except JSErr α × St := m w St.init

/-! ## Requests and responses of the serverless handlers -/

/-- An incoming request as the handlers read it: the method, the `Authorization` header
(`headers.get` gives `null` when absent) and the result of `req.json()`. -/
structure Req where
  method : String
  authorization : Option String
  json : Except JSErr Val

/-- A response: status code and the value serialised as its body. -/
structure Response where
  status : Nat
  body : Val

/-- The JSON body `{ success: false, error: msg }`. -/
def failure (msg : String) : Val := .obj [("success", .bool false), ("error", .str msg)]

/-- The test `!authHeader` on the result of `headers.get`. -/
def headerMissing : Option String → Bool
  | none => true
  | some h => h = ""

/-- The token `authHeader.replace('Bearer ', '')`. -/
def bearerToken (authHeader : String) : String := replaceFirst authHeader "Bearer " ""

/-- The five role names accepted by `update_user_role`. -/
def validRoles : List String := ["admin", "shift_leader", "engineer", "technician", "viewer"]

/-- The five shift names accepted by the server. -/
def validShifts : List String := ["A", "B", "C", "D", "Regular"]

/-- The expression `new Response('ok', { headers, status: 204 })`: a response with the
null-body status 204 cannot be given a body, so the constructor throws. -/
def bodyWithNullBodyStatus : JSErr := typeError "Response with null body status cannot have body"

/-- Handler of `app_de8b393e2913418682a1f3ac5249efa2_update_user_role/index.ts`.  The preflight
branch stands before the `try` block, so what it throws leaves the handler. -/
def updateUserRoleHandler (req : Req) : Eff Response :=
  if req.method = "OPTIONS" then throwJS bodyWithNullBodyStatus
  else tryCatchJS (do
    if headerMissing req.authorization then
      pure ⟨401, failure "No authorization header provided"⟩
    else do
    let token := bearerToken (req.authorization.getD "")
    let (data, userError) ← await (.getUser (some token))
    let user ← liftE (getProp data "user")
    if userError.isSome || !truthy user then pure ⟨401, failure "Unauthorized access"⟩
    else do
    let meta ← liftE (getProp user "user_metadata")
    let isAdmin := isStr (optProp meta "role") "admin"
    if !isAdmin then pure ⟨403, failure "Only admins can update user roles"⟩
    else do
    match req.json with
    | .error _ => pure ⟨400, failure "Invalid request format"⟩
    | .ok requestData => do
    let userId ← liftE (getProp requestData "userId")
    let role ← liftE (getProp requestData "role")
    let shift ← liftE (getProp requestData "shift")
    if !truthy userId || !truthy role then
      pure ⟨400, failure "Missing required fields: userId and role"⟩
    else if !includesStr validRoles role then pure ⟨400, failure "Invalid role value"⟩
    else if truthy shift && !includesStr validShifts shift then
      pure ⟨400, failure "Invalid shift value"⟩
    else do
    let (userData, fetchError) ← await (.adminGetUserById userId)
    if fetchError.isSome || !truthy userData then
      pure ⟨500, failure ("Failed to fetch user: " ++
        (match fetchError with | some e => e.message | none => "undefined"))⟩
    else do
    let targetUser ← liftE (getProp userData "user")
    let existingMeta := orElse (optProp targetUser "user_metadata") (.obj [])
    let existingShift ← liftE (getProp existingMeta "shift")
    let newShift := if truthy shift then shift
      else if truthy existingShift then existingShift else .str "Regular"
    let userMetadata := Val.obj [("role", role), ("shift", newShift)]
    let (_, updateError) ← await
      (.adminUpdateUserById userId (.obj [("user_metadata", userMetadata)]))
    match updateError with
    | some e => pure ⟨500, failure ("Failed to update user: " ++ e.message)⟩
    | none => do
    let stamp ← isoNow
    let updateData := [("role", role), ("updated_at", Val.str stamp)]
    let updateData := if truthy shift then updateData ++ [("shift", shift)] else updateData
    let _ ← await (.query "users" [.update (.obj updateData), .eq "id" userId])
    pure ⟨200, .obj [("success", .bool true), ("message", .str "User role updated successfully"),
      ("userId", userId), ("role", role), ("shift", newShift)]⟩)
  (fun _ => pure ⟨500, failure "Internal server error"⟩)

/-- The spread-and-override `{ ...base, key: v }`. -/
def spreadWith (base : Val) (key : String) (v : Val) : Val :=
  .obj (setField (ownFields base) key v)

/-- Handler of `app_cb8217b8f2_update_user_shift/index.ts`. -/
def updateUserShiftHandler (req : Req) : Eff Response :=
  if req.method = "OPTIONS" then pure ⟨204, .null⟩
  else if req.method ≠ "POST" then pure ⟨405, failure "Method not allowed"⟩
  else tryCatchJS (do
    if headerMissing req.authorization then
      pure ⟨401, failure "Missing Authorization header"⟩
    else do
    let token := bearerToken (req.authorization.getD "")
    let (data, authError) ← await (.getUser (some token))
    let user ← liftE (getProp data "user")
    if authError.isSome || !truthy user then pure ⟨401, failure "Unauthorized access"⟩
    else do
    let callerId ← liftE (getProp user "id")
    let (userData, userError) ← await
      (.query "users" [.select "role", .eq "id" callerId, .single])
    if userError.isSome || !truthy userData then pure ⟨404, failure "User not found"⟩
    else do
    let callerRole ← liftE (getProp userData "role")
    if !isStr callerRole "admin" then pure ⟨403, failure "Only admin users can update shifts"⟩
    else do
    match req.json with
    | .error _ => pure ⟨400, failure "Invalid JSON payload"⟩
    | .ok body => do
    let userId ← liftE (getProp body "userId")
    let shift ← liftE (getProp body "shift")
    if !truthy userId || !truthy shift then
      pure ⟨400, failure "userId and shift are required"⟩
    else if !includesStr validShifts shift then
      pure ⟨400, failure "Invalid shift. Valid shifts are: A, B, C, D, Regular"⟩
    else do
    let (targetUser, targetUserError) ← await (.adminGetUserById userId)
    if targetUserError.isSome || !truthy targetUser then
      pure ⟨404, failure "Target user not found"⟩
    else do
    let stamp ← isoNow
    let (_, shiftUpdateError) ← await (.query "app_cb8217b8f2_user_shifts"
      [.upsert (.obj [("user_id", userId), ("shift", shift), ("updated_at", .str stamp)])
        "user_id"])
    match shiftUpdateError with
    | some e => pure ⟨500, failure ("Failed to update user shift: " ++ e.message)⟩
    | none => do
    let target ← liftE (getProp targetUser "user")
    let targetMeta ← liftE (getProp target "user_metadata")
    let existingMetadata := orElse targetMeta (.obj [])
    let updatedMetadata := spreadWith existingMetadata "shift" shift
    let (_, metadataUpdateError) ← await
      (.adminUpdateUserById userId (.obj [("user_metadata", updatedMetadata)]))
    match metadataUpdateError with
    | some e => pure ⟨500, failure
        ("Updated shift in database but failed to update user metadata: " ++ e.message)⟩
    | none => pure ⟨200, .obj [("success", .bool true),
        ("message", .str "User shift updated successfully")]⟩)
  (fun error => pure ⟨500, failure ("An unexpected error occurred: " ++ error.message)⟩)

/-- The member of `Object.prototype` named `key`, which a plain object inherits: a built-in
function, or `undefined` when there is none.  (The runtime of the handlers removes the
accessor `__proto__`, so that name is an ordinary key.) -/
def objectPrototype (key : String) : Val :=
  if key = "constructor" then .fn "Object" 1
  else if key = "hasOwnProperty" then .fn "hasOwnProperty" 1
  else if key = "isPrototypeOf" then .fn "isPrototypeOf" 1
  else if key = "propertyIsEnumerable" then .fn "propertyIsEnumerable" 1
  else if key = "toString" then .fn "toString" 0
  else if key = "toLocaleString" then .fn "toLocaleString" 0
  else if key = "valueOf" then .fn "valueOf" 0
  else if key = "__defineGetter__" then .fn "__defineGetter__" 2
  else if key = "__defineSetter__" then .fn "__defineSetter__" 2
  else if key = "__lookupGetter__" then .fn "__lookupGetter__" 1
  else if key = "__lookupSetter__" then .fn "__lookupSetter__" 1
  else .undefined

/-- The read `map[key]` of a lookup map built as a plain object `{}`: an own property, else
the member inherited from `Object.prototype`. -/
def mapLookup (map : List (String × Val)) (key : String) : Val :=
  match map.lookup key with
  | some v => v
  | none => objectPrototype key

/-- The loop `rows.forEach(u => { map[u.id] = u; })`, keys converted to strings. -/
def indexById : List Val → List (String × Val) → Except JSErr (List (String × Val))
  | [], map => .ok map
  | u :: rest, map => do
    let id ← getProp u "id"
    indexById rest (setField map id.toJSString u)

/-- The loop `rows.forEach(s => { map[s.user_id] = s.shift; })`. -/
def indexShifts : List Val → List (String × Val) → Except JSErr (List (String × Val))
  | [], map => .ok map
  | s :: rest, map => do
    let userId ← getProp s "user_id"
    let shift ← getProp s "shift"
    indexShifts rest (setField map userId.toJSString shift)

/-- The lookup map built from a query result: `if (rows) { rows.forEach(...) }`. -/
def buildMap (index : List Val → List (String × Val) → Except JSErr (List (String × Val)))
    (rows : Val) : Except JSErr (List (String × Val)) :=
  if truthy rows then do
    let items ← asArray rows
    index items []
  else .ok []

/-- Apply a throwing function to every item, in order (`items.map(f)`). -/
def mapItems (f : Val → Except JSErr Val) : List Val → Except JSErr (List Val)
  | [] => .ok []
  | x :: rest => do
    let y ← f x
    let ys ← mapItems f rest
    .ok (y :: ys)

/-- The record built for one auth user by `get_all_users`. -/
def mergeAllUsers (dbUserMap shiftMap : List (String × Val)) (authUser : Val) :
    Except JSErr Val := do
  let id ← getProp authUser "id"
  let dbUser := orElse (mapLookup dbUserMap id.toJSString) (.obj [])
  let shift ← orElseM (mapLookup shiftMap id.toJSString) (do
    let dbShift ← getProp dbUser "shift"
    .ok (orElse dbShift (.str "Regular")))
  let email ← getProp authUser "email"
  let meta ← getProp authUser "user_metadata"
  let name ← orElseM (optProp meta "name") (do
    let dbName ← getProp dbUser "name"
    orElseM dbName (do
      let loc ← emailLocal email
      .ok (orElse loc (.str "Unknown"))))
  let loc ← emailLocal email
  let username := orElse loc (.str "unknown")
  let role ← orElseM (optProp meta "role") (do
    let dbRole ← getProp dbUser "role"
    .ok (orElse dbRole (.str "viewer")))
  let dbAvatar ← getProp dbUser "avatar"
  let avatar := orElse dbAvatar (.str ("https://i.pravatar.cc/150?u=" ++ id.toJSString))
  let createdAt ← getProp authUser "created_at"
  let updatedAt ← getProp authUser "updated_at"
  let dbUpdatedAt ← getProp dbUser "updated_at"
  .ok (.obj [("id", id), ("email", email), ("name", name), ("username", username),
    ("role", role), ("shift", shift), ("avatar", avatar), ("created_at", createdAt),
    ("updated_at", orElse updatedAt dbUpdatedAt)])

/-- Handler of `app_4a7057432c_get_all_users/index.ts`.  The role check is computed and only
logged: both of its branches continue. -/
def getAllUsersHandler (req : Req) : Eff Response :=
  if req.method = "OPTIONS" then pure ⟨204, .null⟩
  else tryCatchJS (do
    if headerMissing req.authorization then
      pure ⟨401, failure "No authorization header provided"⟩
    else do
    let token := bearerToken (req.authorization.getD "")
    let (data, authError) ← await (.getUser (some token))
    let user ← liftE (getProp data "user")
    if authError.isSome || !truthy user then pure ⟨401, failure "Invalid token"⟩
    else do
    let callerId ← liftE (getProp user "id")
    let (userData, _) ← await (.query "users" [.select "role", .eq "id" callerId, .single])
    let callerMeta ← liftE (getProp user "user_metadata")
    let isAdmin := isStr (optProp userData "role") "admin" ||
      isStr (optProp callerMeta "role") "admin"
    let _logged := !isAdmin
    let (authUsers, listError) ← await .adminListUsers
    match listError with
    | some e => pure ⟨500, failure ("Failed to list users: " ++ e.message)⟩
    | none => do
    let (dbUsers, _) ← await (.query "users" [.select "*"])
    let (shiftsData, _) ← await (.query "app_cb8217b8f2_user_shifts" [.select "*"])
    let dbUserMap ← liftE (buildMap indexById dbUsers)
    let shiftMap ← liftE (buildMap indexShifts shiftsData)
    let users ← liftE (getProp authUsers "users")
    let items ← liftE (asArray users)
    let mergedUsers ← liftE (mapItems (mergeAllUsers dbUserMap shiftMap) items)
    pure ⟨200, .obj [("success", .bool true), ("users", .arr mergedUsers)]⟩)
  (fun error => pure ⟨500, failure ("An unexpected error occurred: " ++ error.message)⟩)

/-- The record built for one auth user by `list_users_with_shifts`. -/
def mergeWithShifts (appUserMap shiftsMap : List (String × Val)) (authUser : Val) :
    Except JSErr Val := do
  let id ← getProp authUser "id"
  let appUser := orElse (mapLookup appUserMap id.toJSString) (.obj [])
  let shift ← orElseM (mapLookup shiftsMap id.toJSString) (do
    let dbShift ← getProp appUser "shift"
    .ok (orElse dbShift (.str "Regular")))
  let email ← getProp authUser "email"
  let meta ← getProp authUser "user_metadata"
  let name ← orElseM (optProp meta "name") (do
    let dbName ← getProp appUser "name"
    orElseM dbName (do
      let loc ← emailLocal email
      .ok (orElse loc (.str "Unknown"))))
  let role ← orElseM (optProp meta "role") (do
    let dbRole ← getProp appUser "role"
    .ok (orElse dbRole (.str "viewer")))
  let dbAvatar ← getProp appUser "avatar"
  let createdAt ← getProp authUser "created_at"
  let updatedAt ← getProp authUser "updated_at"
  let dbUpdatedAt ← getProp appUser "updated_at"
  .ok (.obj [("id", id), ("email", email), ("name", name), ("role", role), ("shift", shift),
    ("avatar", orElse dbAvatar .null), ("created_at", createdAt),
    ("updated_at", orElse updatedAt dbUpdatedAt)])

/-- Handler of `app_cb8217b8f2_list_users_with_shifts/index.ts`. -/
def listUsersWithShiftsHandler (req : Req) : Eff Response :=
  if req.method = "OPTIONS" then pure ⟨204, .null⟩
  else if req.method ≠ "GET" then pure ⟨405, failure "Method not allowed"⟩
  else tryCatchJS (do
    if headerMissing req.authorization then
      pure ⟨401, failure "Missing Authorization header"⟩
    else do
    let token := bearerToken (req.authorization.getD "")
    let (data, authError) ← await (.getUser (some token))
    let user ← liftE (getProp data "user")
    if authError.isSome || !truthy user then pure ⟨401, failure "Unauthorized access"⟩
    else do
    let callerId ← liftE (getProp user "id")
    let (userData, userError) ← await
      (.query "users" [.select "role", .eq "id" callerId, .single])
    if userError.isSome || !truthy userData then pure ⟨404, failure "User not found"⟩
    else do
    let callerRole ← liftE (getProp userData "role")
    if !isStr callerRole "admin" then
      pure ⟨403, failure "Only admin users can list all users"⟩
    else do
    let (authUsers, authUsersError) ← await .adminListUsers
    match authUsersError with
    | some e => pure ⟨500, failure ("Failed to fetch users: " ++ e.message)⟩
    | none => do
    let (appUsers, appUsersError) ← await (.query "users" [.select "*"])
    match appUsersError with
    | some e => pure ⟨500, failure ("Failed to fetch user records: " ++ e.message)⟩
    | none => do
    let (userShifts, _) ← await (.query "app_cb8217b8f2_user_shifts" [.select "*"])
    let appUserMap ← liftE (buildMap indexById appUsers)
    let shiftsMap ← liftE (buildMap indexShifts userShifts)
    let users ← liftE (getProp authUsers "users")
    let items ← liftE (asArray users)
    let mergedUsers ← liftE (mapItems (mergeWithShifts appUserMap shiftsMap) items)
    pure ⟨200, .obj [("success", .bool true), ("users", .arr mergedUsers)]⟩)
  (fun error => pure ⟨500, failure ("An unexpected error occurred: " ++ error.message)⟩)

/-- The search `rows.find(u => u.id === authUser.id)`; `undefined` when nothing matches. -/
def findById (authUser : Val) : List Val → Except JSErr Val
  | [] => .ok .undefined
  | u :: rest => do
    let uid ← getProp u "id"
    let id ← getProp authUser "id"
    if strictEq uid id then .ok u else findById authUser rest

/-- The record built for one auth user by `list_users`. -/
def mergeListUsers (dbUsers : Val) (authUser : Val) : Except JSErr Val := do
  let dbUser ← if nullish dbUsers then .ok .undefined else do
    let rows ← asArray dbUsers
    findById authUser rows
  let meta ← getProp authUser "user_metadata"
  let email ← getProp authUser "email"
  let name ← orElseM (optProp meta "name") (orElseM (optProp meta "full_name")
    (orElseM (optProp dbUser "name") (do
      let loc ← emailLocal email
      .ok (orElse loc (.str "Unknown User")))))
  let role := orElse (orElse (optProp meta "role") (optProp dbUser "role")) (.str "viewer")
  let shift := orElse (orElse (optProp meta "shift") (optProp dbUser "shift")) (.str "Regular")
  let id ← getProp authUser "id"
  let createdAt ← getProp authUser "created_at"
  let lastSignIn ← getProp authUser "last_sign_in_at"
  let appMeta ← getProp authUser "app_metadata"
  .ok (.obj [("id", id), ("email", email), ("name", name), ("role", role), ("shift", shift),
    ("created_at", createdAt), ("last_sign_in_at", lastSignIn), ("app_metadata", appMeta),
    ("user_metadata", meta)])

/-- Handler of `app_de8b393e2913418682a1f3ac5249efa2_list_users/index.ts`.  The preflight
branch stands before the `try` block, so what it throws leaves the handler. -/
def listUsersHandler (req : Req) : Eff Response :=
  if req.method = "OPTIONS" then throwJS bodyWithNullBodyStatus
  else tryCatchJS (do
    if headerMissing req.authorization then
      pure ⟨401, failure "No authorization header provided"⟩
    else do
    let token := bearerToken (req.authorization.getD "")
    let (data, userError) ← await (.getUser (some token))
    let user ← liftE (getProp data "user")
    if userError.isSome || !truthy user then pure ⟨401, failure "Unauthorized access"⟩
    else do
    let meta ← liftE (getProp user "user_metadata")
    let isAdmin := isStr (optProp meta "role") "admin"
    let isShiftLeader := isStr (optProp meta "role") "shift_leader"
    if !isAdmin && !isShiftLeader then
      pure ⟨403, failure "Insufficient permissions to view users"⟩
    else do
    let (authUsers, authError) ← await .adminListUsers
    match authError with
    | some e => pure ⟨500, failure ("Failed to fetch users: " ++ e.message)⟩
    | none => do
    let (dbUsers, _) ← await (.query "users" [.select "*"])
    let users ← liftE (getProp authUsers "users")
    let items ← liftE (asArray users)
    let mergedUsers ← liftE (mapItems (mergeListUsers dbUsers) items)
    pure ⟨200, .obj [("success", .bool true), ("users", .arr mergedUsers)]⟩)
  (fun _ => pure ⟨500, failure "Internal server error"⟩)

/-! ## Client library: `userManagement.js` and `userRoleSync.js` -/

/-- The object `{ success, error }` returned by the client-side update functions. -/
structure OpResult where
  success : Bool
  error : Val

/-- The constant `supabase.supabaseUrl` of `src/lib/supabase.js`. -/
def supabaseUrl : String := "https://oxevsbsomwmdopguggbn.supabase.co"

/-- The address of an edge function. -/
def functionUrl (name : String) : String := supabaseUrl ++ "/functions/v1/" ++ name

/-- The expression `e.message || dflt`. -/
def messageOr (e : JSErr) (dflt : String) : Val :=
  .str (if e.message = "" then dflt else e.message)

/-- The token `sessionData?.session?.access_token`. -/
def accessToken (sessionData : Val) : Val := optProp (optProp sessionData "session") "access_token"

/-- The test `!response.ok || !result.success`; the right operand is read only for an `ok`
response. -/
def edgeFailed (ok : Bool) (result : Val) : Except JSErr Bool :=
  if !ok then .ok true
  else do
    let success ← getProp result "success"
    .ok (!truthy success)

/-- The POST request sent to an edge function with a bearer token. -/
def edgePost (name : String) (token : Val) (body : Val) : HttpRequest :=
  ⟨functionUrl name, "POST", some ("Bearer " ++ token.toJSString), body⟩

/-- The function `updateUserShift(userId, shift)` of `userManagement.js`. -/
def updateUserShift (userId shift : Val) : Eff OpResult :=
  tryCatchJS (do
    let (sessionData, _) ← await .getSession
    let token := accessToken sessionData
    if !truthy token then pure ⟨false, .str "Authentication required"⟩
    else do
    let early ← tryCatchJS (do
        let (ok, json) ← awaitFetch (edgePost "app_cb8217b8f2_update_user_shift" token
          (.obj [("userId", userId), ("shift", shift)]))
        let result ← liftE json
        let failed ← liftE (edgeFailed ok result)
        if failed then do
          let err ← liftE (getProp result "error")
          throwJS
            ⟨(orElse err (.str "Failed to update user shift via edge function")).toJSString,
              none⟩
        else pure none)
      (fun _ => do
        let stamp ← isoNow
        let (_, upsertError) ← await (.query "app_cb8217b8f2_user_shifts"
          [.upsert (.obj [("user_id", userId), ("shift", shift), ("updated_at", .str stamp)])
            "user_id"])
        match upsertError with
        | some e => pure (some ⟨false, messageOr e "Failed to update user shift in database"⟩)
        | none => pure none)
    match early with
    | some r => pure r
    | none => pure ⟨true, .null⟩)
  (fun error => pure ⟨false, messageOr error "Unknown error occurred"⟩)

/-- The function `updateUserRole(userId, role, shift = null)` of `userManagement.js`. -/
def updateUserRole (userId role shift : Val) : Eff OpResult :=
  let shift := withDefault shift .null
  tryCatchJS (do
    let (sessionData, _) ← await .getSession
    let token := accessToken sessionData
    if !truthy token then pure ⟨false, .str "Authentication required"⟩
    else do
    let updateData := [("userId", userId), ("role", role)]
    let updateData := if truthy shift then updateData ++ [("shift", shift)] else updateData
    let (ok, json) ← awaitFetch
      (edgePost "app_de8b393e2913418682a1f3ac5249efa2_update_user_role" token (.obj updateData))
    let result ← liftE json
    let failed ← liftE (edgeFailed ok result)
    if failed then do
      let err ← liftE (getProp result "error")
      pure ⟨false, orElse err (.str "Failed to update user role")⟩
    else do
    tryCatchJS (do
        if truthy shift then do
          let _ ← updateUserShift userId shift
          pure ()
        else pure ())
      (fun _ => pure ())
    pure ⟨true, .null⟩)
  (fun error => pure ⟨false, messageOr error "Unknown error occurred"⟩)

/-- The function `syncUserRole(userId, role)` of `userRoleSync.js`. -/
def syncUserRole (userId role : Val) : Eff OpResult :=
  tryCatchJS (do
    if !truthy userId || !truthy role then pure ⟨false, .str "Missing required parameters"⟩
    else do
    let (_, dbError) ← await (.query "users" [.update (.obj [("role", role)]), .eq "id" userId])
    match dbError with
    | some e => throwJS e
    | none => do
    tryCatchJS (do
        let _ ← await
          (.adminUpdateUserById userId (.obj [("user_metadata", .obj [("role", role)])]))
        pure ())
      (fun _ => pure ())
    tryCatchJS (do
        let (sessionData, _) ← await .getSession
        let token := accessToken sessionData
        if !truthy token then throwJS ⟨"No active session found", none⟩
        else do
        let (ok, json) ← awaitFetch
          (edgePost "app_de8b393e2913418682a1f3ac5249efa2_update_user_role" token
            (.obj [("userId", userId), ("role", role)]))
        let result ← liftE json
        let failed ← liftE (edgeFailed ok result)
        if failed then do
          let err ← liftE (getProp result "error")
          pure ⟨false, orElse err (.str "Failed to update role via Edge Function")⟩
        else pure ⟨true, .null⟩)
      (fun _ => pure ⟨true, .str ("Role was updated in database but not in Auth metadata. " ++
        "Full admin rights may not be applied.")⟩))
  (fun error => pure ⟨false, messageOr error "Unknown error occurred"⟩)

/-! ## Client library: `adminOverride.js` -/

/-- A value passed to the admin-override helpers: a primitive (or literal) value, or a
reference to a user object living on the heap. -/
inductive UserVal where
  | prim (v : Val)
  | ref (addr : Nat)

/-- Truthiness of a user value: every object reference is truthy. -/
def UserVal.truthy : UserVal → Bool
  | .prim v => Airfield.truthy v
  | .ref _ => true

/-- The call `localStorage.getItem(key)`; `none` is `null`. -/
def getItem (key : String) : Eff (Option String) := fun _ s => (.ok (s.storage.lookup key), s)

/-- The call `localStorage.removeItem(key)`. -/
def removeItem (key : String) : Eff Unit := fun _ s =>
  (.ok (), { s with storage := s.storage.filter fun p => p.1 != key })

/-- The fields copied by `{ ...user }`: those of the object a reference points to. -/
def spreadUser (user : UserVal) : Eff (List (String × Val)) := fun _ s =>
  match user with
  | .prim v => (.ok (ownFields v), s)
  | .ref addr => (.ok (s.heap.getD addr []), s)

/-- Allocate a new object on the heap and return its reference. -/
def allocObject (fields : List (String × Val)) : Eff UserVal := fun _ s =>
  (.ok (.ref s.heap.length), { s with heap := s.heap ++ [fields] })

/-- The function `hasAdminOverride()`. -/
def hasAdminOverride : Eff Bool := do
  let adminOverride ← getItem "admin_override"
  pure (adminOverride == some "true")

/-- The function `forceAdminRights(user)`. -/
def forceAdminRights (user : UserVal) : Eff UserVal :=
  if !user.truthy then pure (.prim .null)
  else do
    let copied ← spreadUser user
    allocObject (setField (setField copied "role" (.str "admin")) "permissions"
      (.arr [.str "all"]))

/-- The function `ensureAdminRights(user)`. -/
def ensureAdminRights (user : UserVal) : Eff UserVal := do
  if (← hasAdminOverride) then forceAdminRights user
  else pure user

/-- The function `removeAdminOverride()`. -/
def removeAdminOverride : Eff Unit := removeItem "admin_override"

/-! ## Client library: `supabaseUtils.js` -/

/-- The object `{ data, error }` returned by the data-access helpers; `none` is `null`. -/
structure Result where
  data : Val
  error : Option JSErr

/-- The step `if (v) { query = query.op(v) }` of a query under construction. -/
def addIf (q : List QOp) (v : Val) (op : Val → QOp) : List QOp :=
  if truthy v then q ++ [op v] else q

/-- The function `fetchMaintenanceTasks(filters = {}, limit = 50)`. -/
def fetchMaintenanceTasks (filters limit : Val) : Eff Result :=
  let filters := withDefault filters (.obj [])
  let limit := withDefault limit (.num 50)
  tryCatchJS (do
    let q := [QOp.select "*", .order "date_reported" false]
    let status ← liftE (getProp filters "status")
    let q := addIf q status (.eq "status")
    let area ← liftE (getProp filters "area")
    let q := addIf q area (.eq "area")
    let assignedTo ← liftE (getProp filters "assignedTo")
    let q := addIf q assignedTo (.eq "assigned_to")
    let q := addIf q limit .limit
    let (data, error) ← await (.query "maintenance_tasks" q)
    match error with
    | some e => throwJS e
    | none => pure ⟨data, none⟩)
  (fun error => pure ⟨.null, some error⟩)

/-- The assignment `target.key = v` in strict mode, giving the updated target: an object gets
the field, an array keeps its serialised content, a primitive rejects the assignment. -/
def assignProp (target : Val) (key : String) (v : Val) : Except JSErr Val :=
  match target with
  | .obj fields => .ok (.obj (setField fields key v))
  | .arr items => .ok (.arr items)
  | .undefined => .error (typeError "cannot set properties of undefined")
  | .null => .error (typeError "cannot set properties of null")
  | _ => .error (typeError "cannot create property on a primitive")

/-- The function `createMaintenanceTask(taskData)`. -/
def createMaintenanceTask (taskData : Val) : Eff Result :=
  tryCatchJS (do
    let id ← liftE (getProp taskData "id")
    let taskData ← if !truthy id then do
        let millis ← millisNow
        liftE (assignProp taskData "id" (.str ("TASK-" ++ toString millis)))
      else pure taskData
    let (data, error) ← await
      (.query "maintenance_tasks" [.insert (.arr [taskData]), .select "*"])
    match error with
    | some e => throwJS ⟨"Failed to save to maintenance_tasks: " ++ e.message, none⟩
    | none => pure ⟨data, none⟩)
  (fun error => pure ⟨.null, some error⟩)

/-- The function `updateMaintenanceTask(taskId, updates)`. -/
def updateMaintenanceTask (taskId updates : Val) : Eff Result :=
  tryCatchJS (do
    let (data, error) ← await
      (.query "maintenance_tasks" [.update updates, .eq "id" taskId, .select "*"])
    match error with
    | some e => throwJS e
    | none => pure ⟨data, none⟩)
  (fun error => pure ⟨.null, some error⟩)

/-- The function `deleteMaintenanceTask(taskId)`. -/
def deleteMaintenanceTask (taskId : Val) : Eff Result :=
  tryCatchJS (do
    let (data, error) ← await (.query "maintenance_tasks" [.delete, .eq "id" taskId])
    match error with
    | some e => throwJS e
    | none => pure ⟨data, none⟩)
  (fun error => pure ⟨.null, some error⟩)

/-- The function `fetchHandoverNotes(filters = {}, limit = 20)`. -/
def fetchHandoverNotes (filters limit : Val) : Eff Result :=
  let filters := withDefault filters (.obj [])
  let limit := withDefault limit (.num 20)
  tryCatchJS (do
    let q := [QOp.select "*", .order "date" false]
    let shift ← liftE (getProp filters "shift")
    let q := addIf q shift (.eq "shift")
    let author ← liftE (getProp filters "author")
    let q := addIf q author (.eq "author")
    let dateFrom ← liftE (getProp filters "dateFrom")
    let q := addIf q dateFrom (.gte "date")
    let dateTo ← liftE (getProp filters "dateTo")
    let q := addIf q dateTo (.lte "date")
    let q := addIf q limit .limit
    let (data, error) ← await (.query "handover_notes" q)
    match error with
    | some e => throwJS e
    | none => pure ⟨data, none⟩)
  (fun error => pure ⟨.null, some error⟩)

/-- The fields `{ shift, date, author, content }` read from `noteData`, after `id`. -/
def noteRecord (id : String) (noteData : Val) : Except JSErr Val := do
  let shift ← getProp noteData "shift"
  let date ← getProp noteData "date"
  let author ← getProp noteData "author"
  let content ← getProp noteData "content"
  .ok (.obj [("id", .str id), ("shift", shift), ("date", date), ("author", author),
    ("content", content)])

/-- The callback `task => ({ task_id: task.id, status: task.status, description:
task.description })`, preceded by `lead` fields. -/
def taskRecord (lead : List (String × Val)) (task : Val) : Except JSErr Val := do
  let id ← getProp task "id"
  let status ← getProp task "status"
  let description ← getProp task "description"
  .ok (.obj (lead ++ [("task_id", id), ("status", status), ("description", description)]))

/-- The comparison `v > 0`: the value is converted to a number.  An array is converted through
its string conversion; an object converts to `NaN`, unless it has an own `toString` property,
which is not callable and makes the conversion throw. -/
def numberPositive (v : Val) : Except JSErr Bool :=
  match v with
  | .undefined => .ok false
  | .null => .ok false
  | .bool b => .ok b
  | .num n => .ok (decide (0 < n))
  | .str s => .ok (stringPositive s)
  | .arr items => .ok (stringPositive (joinItems items))
  | .obj fields =>
    if (fields.lookup "toString").isSome then
      .error (typeError "Cannot convert object to primitive value")
    else .ok false
  | .fn _ _ => .ok false

/-- The comparison `tasks.length > 0`.  The length of an array or string is its number of
items and the length of a function its number of parameters; an object is asked for its
`length` property, which is compared as a number. -/
def lengthPositive (tasks : Val) : Except JSErr Bool :=
  match tasks with
  | .undefined => .error (typeError "cannot read properties of undefined")
  | .null => .error (typeError "cannot read properties of null")
  | .arr items => .ok (decide (0 < items.length))
  | .str s => .ok (decide (0 < s.length))
  | .obj fields => numberPositive (lookupField fields "length")
  | .fn _ arity => .ok (decide (0 < arity))
  | _ => .ok false

/-- The `catch` block of `createHandoverNote` ("try a simpler approach if RPC fails"): insert
the note, then the task rows when there are any. -/
def createHandoverNoteFallback (noteData tasks : Val) : Eff Result :=
  tryCatchJS (do
    let noteId ← uuidv4
    let note ← liftE (noteRecord noteId noteData)
    let (insertedNote, noteError) ← await
      (.query "handover_notes" [.insert (.arr [note]), .select "*"])
    match noteError with
    | some e => throwJS e
    | none => do
    let anyTasks ← liftE (lengthPositive tasks)
    if anyTasks then do
      let items ← liftE (asArray tasks)
      let tasksToInsert ← liftE (mapItems (taskRecord [("handover_id", .str noteId)]) items)
      let (_, tasksError) ← await (.query "handover_tasks" [.insert (.arr tasksToInsert)])
      match tasksError with
      | some e => throwJS e
      | none => pure ⟨insertedNote, none⟩
    else pure ⟨insertedNote, none⟩)
  (fun fallbackError => pure ⟨.null, some fallbackError⟩)

/-- The function `createHandoverNote(noteData, tasks = [])`. -/
def createHandoverNote (noteData tasks : Val) : Eff Result :=
  let tasks := withDefault tasks (.arr [])
  tryCatchJS (do
    let id ← uuidv4
    let note ← liftE (noteRecord id noteData)
    let items ← liftE (asArray tasks)
    let tasksData ← liftE (mapItems (taskRecord []) items)
    let (data, error) ← await (.rpc "create_handover_with_tasks"
      (.obj [("note_data", note), ("tasks_data", .arr tasksData)]))
    match error with
    | some e => throwJS e
    | none => pure ⟨data, none⟩)
  (fun _ => createHandoverNoteFallback noteData tasks)

/-- The function `fetchShifts()`. -/
def fetchShifts : Eff Result :=
  tryCatchJS (do
    let (data, error) ← await (.query "shifts" [.select "*", .order "id" true])
    match error with
    | some e => throwJS e
    | none => pure ⟨data, none⟩)
  (fun error => pure ⟨.null, some error⟩)

/-- The function `fetchAreas()`. -/
def fetchAreas : Eff Result :=
  tryCatchJS (do
    let (data, error) ← await (.query "areas" [.select "*", .order "id" true])
    match error with
    | some e => throwJS e
    | none => pure ⟨data, none⟩)
  (fun error => pure ⟨.null, some error⟩)

/-- The function `fetchLocations(areaId)`. -/
def fetchLocations (areaId : Val) : Eff Result :=
  tryCatchJS (do
    let (data, error) ← await
      (.query "locations" [.select "*", .eq "area_id" areaId, .order "name" true])
    match error with
    | some e => throwJS e
    | none => pure ⟨data, none⟩)
  (fun error => pure ⟨.null, some error⟩)

/-- The function `fetchFittings(areaId)`. -/
def fetchFittings (areaId : Val) : Eff Result :=
  tryCatchJS (do
    let (data, error) ← await
      (.query "fittings" [.select "*", .eq "area_id" areaId, .order "name" true])
    match error with
    | some e => throwJS e
    | none => pure ⟨data, none⟩)
  (fun error => pure ⟨.null, some error⟩)

/-- The function `saveMaintenanceReport(reportData)`. -/
def saveMaintenanceReport (reportData : Val) : Eff Result :=
  tryCatchJS (do
    let (authData, _) ← await (.getUser none)
    let user ← liftE (getProp authData "user")
    let title ← liftE (getProp reportData "title")
    let reportType ← liftE (getProp reportData "reportType")
    let dateRange ← liftE (getProp reportData "dateRange")
    let area ← liftE (getProp reportData "area")
    let userId ← if truthy user then liftE (getProp user "id") else pure Val.null
    let reportBody ← liftE (getProp reportData "data")
    let csvData ← liftE (getProp reportData "csvData")
    let reportToSave := Val.obj [("title", title), ("report_type", reportType),
      ("date_range", dateRange), ("area", area), ("user_id", userId),
      ("report_data", reportBody), ("csv_data", orElse csvData .null)]
    let (data, error) ← await
      (.query "maintenance_reports" [.insert (.arr [reportToSave]), .select "*"])
    match error with
    | some e => throwJS e
    | none => pure ⟨data, none⟩)
  (fun error => pure ⟨.null, some error⟩)

/-- The function `fetchMaintenanceReports(filters = {}, limit = 20)`. -/
def fetchMaintenanceReports (filters limit : Val) : Eff Result :=
  let filters := withDefault filters (.obj [])
  let limit := withDefault limit (.num 20)
  tryCatchJS (do
    let q := [QOp.select "*", .order "date_generated" false]
    let reportType ← liftE (getProp filters "reportType")
    let q := addIf q reportType (.eq "report_type")
    let area ← liftE (getProp filters "area")
    let q := if truthy area && !isStr area "all" then q ++ [.eq "area" area] else q
    let userId ← liftE (getProp filters "userId")
    let q := addIf q userId (.eq "user_id")
    let q := addIf q limit .limit
    let (data, error) ← await (.query "maintenance_reports" q)
    match error with
    | some e => throwJS e
    | none => pure ⟨data, none⟩)
  (fun error => pure ⟨.null, some error⟩)

/-! ## Vocabulary of the specification -/

/-- A query step that changes rows. -/
def QOp.isWrite : QOp → Bool
  | .insert _ => true
  | .update _ => true
  | .upsert _ _ => true
  | .delete => true
  | _ => false

/-- A client request that changes a store: an auth-metadata update, a table write or a remote
procedure. -/
def Call.isWrite : Call → Bool
  | .adminUpdateUserById _ _ => true
  | .query _ ops => ops.any QOp.isWrite
  | .rpc _ _ => true
  | _ => false

/-- Whether an entry of the history is a write made through the backend client. -/
def Event.isWrite : Event → Bool
  | .call c _ => c.isWrite
  | .fetch _ _ => false

/-- No entry of the history is a write. -/
def noWrites (trace : List Event) : Bool := trace.all fun ev => !ev.isWrite

/-- The history entry of a token check that succeeded with payload `data`. -/
def authEvent (header : String) (data : Val) : Event :=
  .call (.getUser (some (bearerToken header))) (.resolved data none)

/-- The request carries a non-empty `Authorization` header whose token the auth service
resolves, without error, to the user record `user`. -/
def Authenticated (w : World) (req : Req) (header : String) (data user : Val) : Prop :=
  req.authorization = some header ∧ header ≠ "" ∧
    w.remote [] (.getUser (some (bearerToken header))) = .resolved data none ∧
    getProp data "user" = .ok user ∧ truthy user = true

/-- The role `user.user_metadata?.role` of an authenticated user record. -/
def metadataRole (user : Val) : Val := optProp (optProp user "user_metadata") "role"

/-- The lookup of the caller's row: `from('users').select('role').eq('id', user.id).single()`. -/
def roleLookup (user : Val) : Call :=
  .query "users" [.select "role", .eq "id" (optProp user "id"), .single]

/-- The status code of the response a run ended with. -/
def statusOf (out : Except JSErr Response × St) : Option Nat :=
  match out.1 with
  | .ok r => some r.status
  | .error _ => none

/-- A user record of the auth service whose metadata role is `role`. -/
def userRecord (id role : String) : Val :=
  .obj [("id", .str id), ("email", .str (id ++ "@example.com")),
    ("user_metadata", .obj [("role", .str role)])]

/-- A backend in which every token belongs to the user `id` with metadata role `authRole`,
whose row in the users table has role `dbRole`; every other request succeeds with no data and
the network is unreachable. -/
def simpleWorld (id authRole dbRole : String) : World where
  remote := fun _ c =>
    match c with
    | .getUser _ => .resolved (.obj [("user", userRecord id authRole)]) none
    | .query "users" [.select "role", _, .single] =>
      .resolved (.obj [("role", .str dbRole)]) none
    | .adminListUsers => .resolved (.obj [("users", .arr [userRecord id authRole])]) none
    | _ => .resolved .null none
  http := fun _ _ => .rejected ⟨"Failed to fetch", none⟩
  isoNow := fun _ => "2025-01-01T00:00:00.000Z"
  millisNow := fun _ => 0
  uuid := fun _ => "00000000-0000-4000-8000-000000000000"

/-- A backend like `simpleWorld` for the viewer `u1`, who has no row in the users table: the
lookup of a single row returns the error of an empty result. -/
def noRowWorld : World where
  remote := fun _ c =>
    match c with
    | .getUser _ => .resolved (.obj [("user", userRecord "u1" "viewer")]) none
    | .query "users" [.select "role", _, .single] =>
      .resolved .null
        (some ⟨"JSON object requested, multiple (or no) rows returned", some "PGRST116"⟩)
    | _ => .resolved .null none
  http := fun _ _ => .rejected ⟨"Failed to fetch", none⟩
  isoNow := fun _ => "2025-01-01T00:00:00.000Z"
  millisNow := fun _ => 0
  uuid := fun _ => "00000000-0000-4000-8000-000000000000"

/-- A request with the given method, bearing the token `tok`, with a JSON body. -/
def bearerReq (method : String) (body : Val) : Req :=
  ⟨method, some "Bearer tok", .ok body⟩

/-- The caller's row in the users table is found and carries the role `admin`: the role check
of the handlers that consult the table. -/
def TableAdmin (w : World) (header : String) (data user : Val) : Prop :=
  ∃ row, w.remote [authEvent header data] (roleLookup user) = .resolved row none ∧
    truthy row = true ∧ isStr (optProp row "role") "admin" = true

/-- The shift written by `update_user_role`: the requested one, else the one already in the
target's metadata, else `Regular`. -/
def newShift (shift target : Val) : Val :=
  if truthy shift then shift
  else if truthy (optProp (orElse (optProp (optProp target "user") "user_metadata") (.obj []))
      "shift") then
    optProp (orElse (optProp (optProp target "user") "user_metadata") (.obj [])) "shift"
  else .str "Regular"

/-- Store A of `update_user_role`: the auth-metadata update. -/
def metadataUpdate (userId role shift target : Val) : Call :=
  .adminUpdateUserById userId
    (.obj [("user_metadata", .obj [("role", role), ("shift", newShift shift target)])])

/-- Store B of `update_user_role`: the update of the row in the users table. -/
def usersUpdate (stamp : String) (userId role shift : Val) : Call :=
  .query "users"
    [.update (.obj (if truthy shift then
        [("role", role), ("updated_at", .str stamp), ("shift", shift)]
      else [("role", role), ("updated_at", .str stamp)])),
      .eq "id" userId]

/-- The success body of `update_user_role`. -/
def roleUpdated (userId role shift : Val) : Val :=
  .obj [("success", .bool true), ("message", .str "User role updated successfully"),
    ("userId", userId), ("role", role), ("shift", shift)]

/-- The history entry of the fetch of the target user. -/
def targetEvent (userId target : Val) : Event :=
  .call (.adminGetUserById userId) (.resolved target none)

/-- A backend like `simpleWorld` for the admin `a1`, in which the target user is found and the
update of the users table returns the error `dbError`. -/
def tableFailsWorld (dbError : Option JSErr) : World where
  remote := fun _ c =>
    match c with
    | .getUser _ => .resolved (.obj [("user", userRecord "a1" "admin")]) none
    | .adminGetUserById _ => .resolved (.obj [("user", userRecord "u2" "viewer")]) none
    | .query "users" [.update _, _] => .resolved .null dbError
    | _ => .resolved .null none
  http := fun _ _ => .rejected ⟨"Failed to fetch", none⟩
  isoNow := fun _ => "2025-01-01T00:00:00.000Z"
  millisNow := fun _ => 0
  uuid := fun _ => "00000000-0000-4000-8000-000000000000"

/-- A session object holding the access token `tok`. -/
def sessionData (tok : String) : Val :=
  .obj [("session", .obj [("access_token", .str tok)])]

/-- A backend as a signed-in non-admin client sees it: the update of the users table succeeds,
the direct auth-metadata update is refused, and the edge function answers with a non-ok
response whose body is `{ success: false, error: 'Only admins can update user roles' }`. -/
def edgeDeniedWorld : World where
  remote := fun _ c =>
    match c with
    | .getSession => .resolved (sessionData "tok") none
    | .adminUpdateUserById _ _ =>
      .resolved (.obj [("user", .null)]) (some ⟨"User not allowed", none⟩)
    | _ => .resolved .null none
  http := fun _ _ => .response false (.ok (failure "Only admins can update user roles"))
  isoNow := fun _ => "2025-01-01T00:00:00.000Z"
  millisNow := fun _ => 0
  uuid := fun _ => "00000000-0000-4000-8000-000000000000"

/-- The HTTP requests sent during a run, in order. -/
def sentRequests : List Event → List HttpRequest
  | [] => []
  | .fetch r _ :: rest => r :: sentRequests rest
  | .call _ _ :: rest => sentRequests rest

/-- Two states that agree on what a remote interaction can depend on: the history and the
number of ambient reads.  The browser's `localStorage` and heap are left free. -/
def SameView (s s2 : St) : Prop := s.trace = s2.trace ∧ s.draws = s2.draws

/-- A computation that neither reads nor lets its remote interactions depend on
`localStorage` and the client-side heap. -/
structure Oblivious {α : Type} (m : Eff α) : Prop where
  same : ∀ w s s2, SameView s s2 → (m w s).1 = (m w s2).1 ∧ SameView (m w s).2 (m w s2).2

/-- The answer to the last remote call of a history, if its last entry is a client call. -/
def lastOutcome (trace : List Event) : Option Outcome :=
  match trace.getLast? with
  | some (.call _ o) => some o
  | _ => none

/-- The error `e` of a result is one that was returned or thrown: a `TypeError` raised by the
runtime, the error with which the last remote call was rejected, or the error the last remote
call returned (passed through `wrap`, the identity except in `createMaintenanceTask`, which
throws a new `Error` carrying the returned message). -/
def Raised (wrap : JSErr → JSErr) (trace : List Event) (e : JSErr) : Prop :=
  (∃ what, e = typeError what) ∨ lastOutcome trace = some (.rejected e) ∨
    ∃ d e0, lastOutcome trace = some (.resolved d (some e0)) ∧ e = wrap e0

/-- The run did not throw and ended with `{ data, error }` where either `error` is `null` and
`data` is the data returned by the last remote call, or `data` is `null` and `error` is a
non-null error that was returned or thrown. -/
def Settled (wrap : JSErr → JSErr) (out : Except JSErr Result × St) : Prop :=
  ∃ res, out.1 = .ok res ∧
    ((res.error = none ∧ lastOutcome out.2.trace = some (.resolved res.data none)) ∨
      (res.data = .null ∧ ∃ e, res.error = some e ∧ Raised wrap out.2.trace e))

/-- The error thrown by `createMaintenanceTask` for a returned error. -/
def saveFailed (e : JSErr) : JSErr :=
  ⟨"Failed to save to maintenance_tasks: " ++ e.message, none⟩

/-- The table a client call queries, if it is a table query. -/
def Call.table : Call → Option String
  | .query table _ => some table
  | _ => none

/-- The history ends with an insert into `handover_notes` that returned `data` without error,
followed by an insert into `handover_tasks` that returned no error. -/
def NoteThenTasks (trace : List Event) (data : Val) : Prop :=
  ∃ before c1 c2 d2, trace = before ++ [.call c1 (.resolved data none),
      .call c2 (.resolved d2 none)] ∧
    c1.table = some "handover_notes" ∧ c2.table = some "handover_tasks"

/-- The outcome shape of `createHandoverNote`: as `Settled`, except that after the two-step
fallback `data` is the data returned by the insert of the note, which the insert of the task
rows may follow. -/
def SettledNote (out : Except JSErr Result × St) : Prop :=
  ∃ res, out.1 = .ok res ∧
    ((res.error = none ∧ (lastOutcome out.2.trace = some (.resolved res.data none) ∨
        NoteThenTasks out.2.trace res.data)) ∨
      (res.data = .null ∧ ∃ e, res.error = some e ∧ Raised id out.2.trace e))

/-- A backend without the `create_handover_with_tasks` procedure: the remote procedure call
returns an error, the insert into `handover_notes` returns the created row and every other
request succeeds with no data. -/
def noProcedureWorld : World where
  remote := fun _ c =>
    match c with
    | .rpc _ _ =>
      .resolved .null (some ⟨"function create_handover_with_tasks does not exist", none⟩)
    | .query "handover_notes" _ => .resolved (.arr [.obj [("id", .str "n1")]]) none
    | _ => .resolved .null none
  http := fun _ _ => .rejected ⟨"Failed to fetch", none⟩
  isoNow := fun _ => "2025-01-01T00:00:00.000Z"
  millisNow := fun _ => 0
  uuid := fun _ => "00000000-0000-4000-8000-000000000000"

/-- Whether an entry of the history is a remote procedure call. -/
def Event.isRpc : Event → Bool
  | .call (.rpc _ _) _ => true
  | _ => false

/-- Arguments of `createHandoverNote` of the documented types: `noteData` is an object and
`tasks` is absent or an array of task objects. -/
def WellFormedNote (noteData tasks : Val) (items : List Val) : Prop :=
  nullish noteData = false ∧ withDefault tasks (.arr []) = .arr items ∧
    ∀ t ∈ items, nullish t = false

/-- The body that `updateUserRole` sends: the shift is included only when it is truthy. -/
def roleUpdateBody (userId role shift : Val) : Val :=
  .obj (if truthy shift then [("userId", userId), ("role", role), ("shift", shift)]
    else [("userId", userId), ("role", role)])

/-- The request that `updateUserRole` sends to the `update_user_role` endpoint. -/
def roleUpdateRequest (token userId role shift : Val) : HttpRequest :=
  edgePost "app_de8b393e2913418682a1f3ac5249efa2_update_user_role" token
    (roleUpdateBody userId role shift)

/-- The state of a run that started in a fresh state and has seen the events `trace`. -/
def St.after (trace : List Event) : St := ⟨trace, 0, [], []⟩

/-- Whether the endpoint answered `ok` with a body whose `success` is truthy. -/
def answeredSuccess : FetchOutcome → Bool
  | .response true (.ok result) => truthy (optProp result "success")
  | _ => false

/-- A backend as a signed-in admin client sees it: every edge function answers ok with the
body `{ success: true }`, and every other request succeeds with no data. -/
def edgeOkWorld : World where
  remote := fun _ c =>
    match c with
    | .getSession => .resolved (sessionData "tok") none
    | _ => .resolved .null none
  http := fun _ _ => .response true (.ok (.obj [("success", .bool true)]))
  isoNow := fun _ => "2025-01-01T00:00:00.000Z"
  millisNow := fun _ => 0
  uuid := fun _ => "00000000-0000-4000-8000-000000000000"

/-- The request that `updateUserShift` sends to the `update_user_shift` endpoint. -/
def shiftUpdateRequest (token userId shift : Val) : HttpRequest :=
  edgePost "app_cb8217b8f2_update_user_shift" token (.obj [("userId", userId), ("shift", shift)])

/-- The direct upsert into the shifts table that `updateUserShift` falls back to. -/
def shiftUpsert (userId shift : Val) (stamp : String) : Call :=
  .query "app_cb8217b8f2_user_shifts"
    [.upsert (.obj [("user_id", userId), ("shift", shift), ("updated_at", .str stamp)])
      "user_id"]

/-- The object returned by `syncAllUserRoles`. -/
structure SyncAllResult where
  success : Bool
  synced : Nat
  failed : Nat
  errors : List Val

/-- The loop `for (const user of users) { try { ... } catch (error) { ... } }` of
`syncAllUserRoles`, over the items still to visit and the counters so far.  The template
string of a failure reads `user.id` again, also in the `catch` block. -/
def syncAllLoop : List Val → SyncAllResult → Eff SyncAllResult
  | [], results => pure results
  | user :: rest, results => do
    let results ← tryCatchJS (do
        let id ← liftE (getProp user "id")
        let role ← liftE (getProp user "role")
        let r ← syncUserRole id role
        if r.success then pure { results with synced := results.synced + 1 }
        else do
          let id ← liftE (getProp user "id")
          pure { results with
            failed := results.failed + 1
            errors := results.errors ++
              [.str ("User " ++ id.toJSString ++ ": " ++ r.error.toJSString)] })
      (fun error => do
        let id ← liftE (getProp user "id")
        pure { results with
          failed := results.failed + 1
          errors := results.errors ++
            [.str ("User " ++ id.toJSString ++ ": " ++
              (messageOr error "Unknown error").toJSString)] })
    syncAllLoop rest results

/-- The function `syncAllUserRoles()` of `userRoleSync.js`. -/
def syncAllUserRoles : Eff SyncAllResult :=
  tryCatchJS (do
    let (users, dbError) ← await (.query "users" [.select "id, role"])
    match dbError with
    | some e => pure ⟨false, 0, 0, [.str e.message]⟩
    | none => do
    let items ← liftE (asArray users)
    let results ← syncAllLoop items ⟨true, 0, 0, []⟩
    if results.failed > 0 then pure { results with success := false }
    else pure results)
  (fun error => pure ⟨false, 0, 0, [messageOr error "Unknown error"]⟩)

/-- The users of a list whose role is empty (falsy). -/
def emptyRoleUsers (users : List Val) : List Val :=
  users.filter fun u => !truthy (optProp u "role")

/-- A backend whose users table holds the two rows `u1` (role `viewer`) and `u2` (no role);
every other request succeeds with no data and the network is unreachable. -/
def twoUsersWorld : World where
  remote := fun _ c =>
    match c with
    | .query "users" [.select "id, role"] =>
      .resolved (.arr [.obj [("id", .str "u1"), ("role", .str "viewer")],
        .obj [("id", .str "u2"), ("role", .null)]]) none
    | _ => .resolved .null none
  http := fun _ _ => .rejected ⟨"Failed to fetch", none⟩
  isoNow := fun _ => "2025-01-01T00:00:00.000Z"
  millisNow := fun _ => 0
  uuid := fun _ => "00000000-0000-4000-8000-000000000000"

/-! ## Client library: `supabaseStorage.js` and `supabaseAuth.js` -/

/-- The function `getAvatarUrl(avatarPath)` of `supabaseStorage.js`. -/
def getAvatarUrl (avatarPath : Val) : Eff Val :=
  tryCatchJS (do
    if !truthy avatarPath then pure .null
    else
    match avatarPath with
    | .str p =>
      if "http".data.isPrefixOf p.data then pure (.str p)
      else do
      let path := replaceFirst p "avatars/" ""
      let (data, _) ← await (.storagePublicUrl "avatars" path)
      pure (orElse (optProp data "publicUrl") .null)
    | _ => throwJS (typeError "avatarPath.startsWith is not a function"))
  (fun _ => pure .null)

/-- The test `error && error.code !== 'PGRST116'`. -/
def otherThanNoRows (error : Option JSErr) : Bool :=
  match error with
  | some e => e.code != some "PGRST116"
  | none => false

/-- The function `getUserAvatar(userId)` of `supabaseAuth.js`. -/
def getUserAvatar (userId : Val) : Eff Val :=
  tryCatchJS (do
    let (data, error) ← await
      (.query "profiles" [.select "avatar_url", .eq "id" userId, .single])
    if otherThanNoRows error then pure .null
    else
    if truthy (optProp data "avatar_url") then do
      let avatarUrl ← liftE (getProp data "avatar_url")
      getAvatarUrl avatarUrl
    else pure .null)
  (fun _ => pure .null)

/-- The property `role` of an object returned by `syncUserRole`: every object it returns holds
the two properties `success` and `error` only. -/
def OpResult.role (_ : OpResult) : Val := .undefined

/-- The expression `email.split('@')[0]`. -/
def splitAtFirst (email : Val) : Except JSErr Val :=
  match email with
  | .undefined => .error (typeError "cannot read properties of undefined")
  | .null => .error (typeError "cannot read properties of null")
  | .str s => .ok (.str (beforeAt s))
  | _ => .error (typeError "split is not a function")

/-- The string array literal `[...]`. -/
def strings (items : List String) : Val := .arr (items.map Val.str)

/-- The function `loginWithEmailPassword(email, password)` of `supabaseAuth.js`. -/
def loginWithEmailPassword (email password : Val) : Eff Val :=
  tryCatchJS (do
    let (data, error) ← await (.signInWithPassword email password)
    match error with
    | some e => throwJS e
    | none => do
    let user ← liftE (getProp data "user")
    let id ← liftE (getProp user "id")
    let synced ← syncUserRole id .undefined
    let syncedRole := synced.role
    let metadata ← liftE (getProp user "user_metadata")
    let role := orElse (orElse syncedRole (optProp metadata "role")) (.str "viewer")
    let id ← liftE (getProp user "id")
    let avatar ← getUserAvatar id
    let permissions :=
      if isStr role "admin" then strings ["all"]
      else if isStr role "shift_leader" then
        strings ["view_tasks", "create_tasks", "assign_tasks", "generate_reports", "view_maps"]
      else if isStr role "engineer" then
        strings ["view_tasks", "create_tasks", "edit_tasks", "view_maps", "generate_reports"]
      else if isStr role "technician" then
        strings ["view_tasks", "update_task_status", "view_maps"]
      else strings ["view_tasks"]
    let id ← liftE (getProp user "id")
    let mail ← liftE (getProp user "email")
    let username ← liftE (orElseM (optProp metadata "username") (splitAtFirst mail))
    let name ← liftE (orElseM (optProp metadata "name") (splitAtFirst mail))
    pure (.obj [("id", id), ("username", username), ("name", name), ("email", mail),
      ("role", role), ("avatar", avatar), ("permissions", permissions)]))
  (fun error => throwJS ⟨"Login failed: " ++ error.message, none⟩)

/-- The function `getCurrentUser()` of `supabaseAuth.js`. -/
def getCurrentUser : Eff Val :=
  tryCatchJS (do
    let (data, _) ← await (.getUser none)
    let user ← liftE (getProp data "user")
    if !truthy user then pure .null
    else do
    let id ← liftE (getProp user "id")
    let synced ← syncUserRole id .undefined
    let syncedRole := synced.role
    let metadata ← liftE (getProp user "user_metadata")
    let role := orElse (orElse syncedRole (optProp metadata "role")) (.str "viewer")
    let id ← liftE (getProp user "id")
    let avatar ← getUserAvatar id
    let permissions :=
      if isStr role "admin" then strings ["all"]
      else if isStr role "shift_leader" then
        strings ["view_tasks", "create_tasks", "assign_tasks", "generate_reports", "view_maps"]
      else if isStr role "engineer" then
        strings ["view_tasks", "create_tasks", "edit_tasks", "view_maps", "generate_reports"]
      else if isStr role "technician" then
        strings ["view_tasks", "update_task_status", "view_maps"]
      else strings ["view_tasks"]
    let id ← liftE (getProp user "id")
    let mail ← liftE (getProp user "email")
    let username ← liftE (orElseM (optProp metadata "username") (splitAtFirst mail))
    let name ← liftE (orElseM (optProp metadata "name") (splitAtFirst mail))
    pure (.obj [("id", id), ("username", username), ("name", name), ("email", mail),
      ("role", role), ("avatar", avatar), ("permissions", permissions)]))
  (fun _ => pure .null)

/-- The role of the session user in the words of the specification: the role reported by
`syncUserRole` when it reports one, else `user_metadata.role` when present, else `viewer`. -/
def specRole (reported user : Val) : Val :=
  if truthy reported then reported
  else if truthy (optProp (optProp user "user_metadata") "role") then
    optProp (optProp user "user_metadata") "role"
  else .str "viewer"

/-- The permissions of a role in the words of the specification. -/
def specPermissions (role : Val) : Val :=
  match role with
  | .str "admin" => strings ["all"]
  | .str "shift_leader" =>
    strings ["view_tasks", "create_tasks", "assign_tasks", "generate_reports", "view_maps"]
  | .str "engineer" =>
    strings ["view_tasks", "create_tasks", "edit_tasks", "view_maps", "generate_reports"]
  | .str "technician" => strings ["view_tasks", "update_task_status", "view_maps"]
  | _ => strings ["view_tasks"]

/-- A backend on which the user `u1` (auth role `engineer`) can sign in and is the current
user; every other request succeeds with no data and the network is unreachable. -/
def sessionWorld : World where
  remote := fun _ c =>
    match c with
    | .signInWithPassword _ _ => .resolved (.obj [("user", userRecord "u1" "engineer")]) none
    | .getUser _ => .resolved (.obj [("user", userRecord "u1" "engineer")]) none
    | _ => .resolved .null none
  http := fun _ _ => .rejected ⟨"Failed to fetch", none⟩
  isoNow := fun _ => "2025-01-01T00:00:00.000Z"
  millisNow := fun _ => 0
  uuid := fun _ => "00000000-0000-4000-8000-000000000000"

/-! ## Component `UserManagement.jsx`: form validation -/

/-- The property `s.length`: the number of UTF-16 code units. -/
def jsLength (s : String) : Nat :=
  (s.data.map fun c => if c.toNat < 0x10000 then 1 else 2).sum

/-- The regular expression `\S+` followed by `next`: one or more characters other than white
space, every length being tried. -/
def nonSpaces (next : List Char → Bool) : List Char → Bool
  | [] => false
  | c :: cs => !isJSSpace c && (next cs || nonSpaces next cs)

/-- The regular expression of one literal character followed by `next`. -/
def literal (ch : Char) (next : List Char → Bool) : List Char → Bool
  | [] => false
  | c :: cs => c = ch && next cs

/-- A match of `\S+@\S+\.\S+` starting at the head of the input. -/
def emailPatternHere : List Char → Bool :=
  nonSpaces (literal '@' (nonSpaces (literal '.' (nonSpaces fun _ => true))))

/-- The test `/\S+@\S+\.\S+/.test(s)`: a match starting at any position. -/
def emailPatternTest (s : String) : Bool :=
  s.data.tails.any emailPatternHere

/-- The state `formData` of the component; every field holds the text of an input. -/
structure FormData where
  username : String
  name : String
  email : String
  role : String
  shift : String
  password : String
  confirmPassword : String

/-- The statement of `validateForm` that checks the username. -/
def checkUsername (formData : FormData) (newErrors : List (String × String)) :
    List (String × String) :=
  if jsTrim formData.username = "" then newErrors ++ [("username", "Username is required")]
  else if jsLength formData.username < 3 then
    newErrors ++ [("username", "Username must be at least 3 characters")]
  else newErrors

/-- The statement of `validateForm` that checks the name. -/
def checkName (formData : FormData) (newErrors : List (String × String)) :
    List (String × String) :=
  if jsTrim formData.name = "" then newErrors ++ [("name", "Name is required")]
  else newErrors

/-- The statement of `validateForm` that checks the email. -/
def checkEmail (formData : FormData) (newErrors : List (String × String)) :
    List (String × String) :=
  if jsTrim formData.email = "" then newErrors ++ [("email", "Email is required")]
  else if !emailPatternTest formData.email then newErrors ++ [("email", "Email is invalid")]
  else newErrors

/-- The statement `if (!editingUser) { ... }` of `validateForm` that checks the password and
its confirmation. -/
def checkPassword (formData : FormData) (editingUser : Val)
    (newErrors : List (String × String)) : List (String × String) :=
  if !truthy editingUser then
    let newErrors :=
      if jsTrim formData.password = "" then
        newErrors ++ [("password", "Password is required")]
      else if jsLength formData.password < 6 then
        newErrors ++ [("password", "Password must be at least 6 characters")]
      else newErrors
    if formData.password ≠ formData.confirmPassword then
      newErrors ++ [("confirmPassword", "Passwords do not match")]
    else newErrors
  else newErrors

/-- The function `validateForm()` of `UserManagement.jsx`, over the states `formData` and
`editingUser`: its four statements in order, then the errors recorded by `setErrors` and the
returned flag `Object.keys(newErrors).length === 0`. -/
def validateForm (formData : FormData) (editingUser : Val) : List (String × String) × Bool :=
  let newErrors : List (String × String) := []
  let newErrors := checkUsername formData newErrors
  let newErrors := checkName formData newErrors
  let newErrors := checkEmail formData newErrors
  let newErrors := checkPassword formData editingUser newErrors
  (newErrors, newErrors.length = 0)

/-- The error recorded for a field, if any. -/
def errorFor (field : String) (errors : List (String × String)) : Option String :=
  (errors.find? fun e => e.1 = field).map Prod.snd

/-! ## Component `Reports.jsx`: CSV export -/

/-- The two conversions of `convertToCSV` that depend on the host: the text of
`new Date(v).toLocaleDateString()` and the text of
`Math.round((completed / total) * 100)`. -/
structure Formats where
  localeDate : Val → String
  roundedPercent : Val → Val → String

/-- The test `data.length === 0` on a truthy value. -/
def lengthIsZero (data : Val) : Bool :=
  match data with
  | .arr items => items.length = 0
  | .str s => s.length = 0
  | .obj fields => strictEq (lookupField fields "length") (.num 0)
  | .fn _ arity => arity = 0
  | _ => false

/-- The first `switch (reportType)` of `convertToCSV`: the headers, or `none` for the
`default` case. -/
def csvHeaders (reportType : Val) : Option (List Val) :=
  if isStr reportType "maintenance" then
    some [.str "ID", .str "Type", .str "Description", .str "Location", .str "Area",
      .str "Status", .str "Priority", .str "Reported Date"]
  else if isStr reportType "equipment" then
    some [.str "Location", .str "Total Issues", .str "Pending", .str "Completed",
      .str "Working Percentage"]
  else if isStr reportType "safety" then
    some [.str "Area", .str "Critical Issues", .str "Resolved Issues",
      .str "Compliance Percentage"]
  else none

/-- The call `text.replace(/,/g, ' ')`. -/
def replaceCommas (text : Val) : Except JSErr Val :=
  match text with
  | .str s => .ok (.str ⟨s.data.map fun c => if c = ',' then ' ' else c⟩)
  | .undefined => .error (typeError "cannot read properties of undefined")
  | .null => .error (typeError "cannot read properties of null")
  | _ => .error (typeError "replace is not a function")

/-- The second `switch (reportType)` of `convertToCSV`: the values of one item; `none` is the
`default` case, which leaves the callback without adding a row. -/
def csvValues (env : Formats) (reportType item : Val) : Except JSErr (Option (List Val)) :=
  if isStr reportType "maintenance" then do
    let id ← getProp item "id"
    let type ← getProp item "type"
    let description ← getProp item "description"
    let description ← replaceCommas (orElse description (.str ""))
    let location ← getProp item "location"
    let area ← getProp item "area"
    let status ← getProp item "status"
    let priority ← getProp item "priority"
    let reported ← getProp item "date_reported"
    .ok (some [id, orElse type (.str ""), description, orElse location (.str ""),
      orElse area (.str ""), orElse status (.str ""), orElse priority (.str ""),
      if truthy reported then .str (env.localeDate reported) else .str ""])
  else if isStr reportType "equipment" then do
    let location ← getProp item "location"
    let total ← getProp item "total"
    let pending ← getProp item "pending"
    let completed ← getProp item "completed"
    .ok (some [orElse location (.str ""), orElse total (.num 0), orElse pending (.num 0),
      orElse completed (.num 0), .str (env.roundedPercent completed total ++ "%")])
  else if isStr reportType "safety" then do
    let area ← getProp item "area"
    let criticalIssues ← getProp item "criticalIssues"
    let resolvedCritical ← getProp item "resolvedCritical"
    let compliance ← getProp item "compliance"
    .ok (some [orElse area (.str ""), orElse criticalIssues (.num 0),
      orElse resolvedCritical (.num 0),
      .str ((orElse compliance (.num 0)).toJSString ++ "%")])
  else .ok none

/-- The loop `data.forEach(item => { ...; csvRows.push(values.join(',')) })` of
`convertToCSV`, over the items still to visit and the rows so far. -/
def csvForEach (env : Formats) (reportType : Val) :
    List Val → List String → Except JSErr (List String)
  | [], csvRows => .ok csvRows
  | item :: rest, csvRows => do
    let values ← csvValues env reportType item
    match values with
    | some values => csvForEach env reportType rest (csvRows ++ [joinItems values])
    | none => csvForEach env reportType rest csvRows

/-- The function `convertToCSV(data, reportType)` of `Reports.jsx`. -/
def convertToCSV (env : Formats) (data reportType : Val) : Except JSErr String :=
  if !truthy data || lengthIsZero data then .ok ""
  else
    match csvHeaders reportType with
    | none => .ok ""
    | some headers => do
      let csvRows := [joinItems headers]
      let items ← asArray data
      let csvRows ← csvForEach env reportType items csvRows
      .ok (String.intercalate "\n" csvRows)

/-- A column of a report in the words of the specification: the name written in the header
row and the value written for an item. -/
structure Column where
  name : String
  value : Formats → Val → Val

/-- The text of a field of an item, empty when the field is absent. -/
def textOf (item : Val) (key : String) : Val :=
  if truthy (optProp item key) then optProp item key else .str ""

/-- The count held by a field of an item, 0 when the field is absent. -/
def countOf (item : Val) (key : String) : Val :=
  if truthy (optProp item key) then optProp item key else .num 0

/-- The description of an item with every comma replaced by a space, empty when the item has
no description. -/
def descriptionOf (item : Val) : Val :=
  match optProp item "description" with
  | .str s => .str ⟨s.data.map fun c => if c = ',' then ' ' else c⟩
  | _ => .str ""

/-- The columns of each report type, in the order of the header row: the eight columns of a
maintenance report, the five of an equipment report and the four of a safety report. -/
def specColumns (reportType : String) : Option (List Column) :=
  if reportType = "maintenance" then
    some [⟨"ID", fun _ item => optProp item "id"⟩,
      ⟨"Type", fun _ item => textOf item "type"⟩,
      ⟨"Description", fun _ item => descriptionOf item⟩,
      ⟨"Location", fun _ item => textOf item "location"⟩,
      ⟨"Area", fun _ item => textOf item "area"⟩,
      ⟨"Status", fun _ item => textOf item "status"⟩,
      ⟨"Priority", fun _ item => textOf item "priority"⟩,
      ⟨"Reported Date", fun env item =>
        if truthy (optProp item "date_reported") then
          .str (env.localeDate (optProp item "date_reported"))
        else .str ""⟩]
  else if reportType = "equipment" then
    some [⟨"Location", fun _ item => textOf item "location"⟩,
      ⟨"Total Issues", fun _ item => countOf item "total"⟩,
      ⟨"Pending", fun _ item => countOf item "pending"⟩,
      ⟨"Completed", fun _ item => countOf item "completed"⟩,
      ⟨"Working Percentage", fun env item =>
        .str (env.roundedPercent (optProp item "completed") (optProp item "total") ++ "%")⟩]
  else if reportType = "safety" then
    some [⟨"Area", fun _ item => textOf item "area"⟩,
      ⟨"Critical Issues", fun _ item => countOf item "criticalIssues"⟩,
      ⟨"Resolved Issues", fun _ item => countOf item "resolvedCritical"⟩,
      ⟨"Compliance Percentage", fun _ item =>
        .str ((countOf item "compliance").toJSString ++ "%")⟩]
  else none

/-- The CSV text of the specification for the columns `columns`: the names joined with
commas, then for every item, in order, its values joined with commas, the rows joined with
newlines. -/
def specCSV (env : Formats) (columns : List Column) (items : List Val) : String :=
  String.intercalate "\n"
    (String.intercalate "," (columns.map fun c => c.name) ::
      items.map fun item => joinItems (columns.map fun c => c.value env item))

/-- A value that `(v || '').replace` accepts: a falsy value or a string. -/
def falsyOrText (v : Val) : Bool :=
  match v with
  | .str _ => true
  | w => !truthy w

/-- Report items as the report generator builds them: objects and, for a maintenance report,
with a description that is a string when present. -/
def ReportItems (reportType : String) (items : List Val) : Prop :=
  ∀ item ∈ items, nullish item = false ∧
    (reportType = "maintenance" → falsyOrText (optProp item "description") = true)

/-- Formats for the reports that consult neither conversion: a safety report, and a
maintenance report whose tasks carry no date. -/
def noFormats : Formats where
  localeDate := fun _ => ""
  roundedPercent := fun _ _ => ""

/-- The number of fields that splitting a CSV row on commas gives: one more than the number
of commas. -/
def fieldCount (row : String) : Nat := (row.data.filter fun c => c = ',').length + 1

/-- A maintenance task whose location contains a comma. -/
def taskWithCommaInLocation : Val :=
  .obj [("id", .str "T-1"), ("type", .str "lighting"),
    ("description", .str "Lamp out, bay 2"), ("location", .str "Apron A, Stand 3"),
    ("area", .str "North"), ("status", .str "pending"), ("priority", .str "high"),
    ("date_reported", .null)]

/-! ## The migration scripts `migrate-to-supabase.js` and `fix-migration.js` -/

/-- The loop `finalUsers.forEach(user => console.log(...))` that prints the users found by
the final check: the template string reads three properties of every user. -/
def logUsers : List Val → Except JSErr Unit
  | [] => .ok ()
  | user :: rest => do
    let _ ← getProp user "username"
    let _ ← getProp user "email"
    let _ ← getProp user "role"
    logUsers rest

/-- The function `migrateDataToSupabase()` of `migrate-to-supabase.js`.  The parameter `steps`
stands for the statements of its `try` block before the final check (the schema setup and
the migration of each table): they may do any requests, may throw, and may leave the function
with `return { success: false, message }`, which is the result `some message`. -/
def MigrateToSupabase.migrateDataToSupabase (steps : Eff (Option String)) : Eff Val :=
  tryCatchJS (do
    let early ← steps
    match early with
    | some message => pure (.obj [("success", .bool false), ("message", .str message)])
    | none => do
    let (finalUsers, finalError) ← await (.query "users" [.select "*"])
    match finalError with
    | some e =>
      pure (.obj [("success", .bool false),
        ("message", .str ("Error during final check: " ++ e.message))])
    | none => do
    let anyUsers ← liftE (lengthPositive finalUsers)
    if anyUsers then do
      let items ← liftE (asArray finalUsers)
      liftE (logUsers items)
    else pure ()
    pure (.obj [("success", .bool true),
      ("message", .str "Data migration completed successfully"), ("users", finalUsers)]))
  (fun error =>
    pure (.obj [("success", .bool false),
      ("message", .str ("Error during data migration: " ++ error.message))]))

/-- The function `migrateDataToSupabase()` of `fix-migration.js`.  The parameter `steps`
stands for the awaited calls before the final check (`createTables()` and the migration of
each table), which may do any requests and may throw. -/
def FixMigration.migrateDataToSupabase (steps : Eff Unit) : Eff Val :=
  tryCatchJS (do
    steps
    let (finalUsers, finalError) ← await (.query "users" [.select "*"])
    match finalError with
    | some e =>
      pure (.obj [("success", .bool false),
        ("message", .str ("Error during final check: " ++ e.message))])
    | none => do
    if truthy finalUsers then do
      let anyUsers ← liftE (lengthPositive finalUsers)
      if anyUsers then do
        let items ← liftE (asArray finalUsers)
        liftE (logUsers items)
      else pure ()
    else pure ()
    pure (.obj [("success", .bool true),
      ("message", .str "Data migration completed successfully"), ("users", finalUsers)]))
  (fun error =>
    pure (.obj [("success", .bool false),
      ("message", .str ("Error during data migration: " ++ error.message))]))

/-- The entry of both scripts,
`migrateDataToSupabase().then(result => process.exit(0)).catch(err => process.exit(1))`:
the exit status of the process. -/
def scriptEntry (migrateDataToSupabase : Eff Val) : Eff Nat := fun w s =>
  match migrateDataToSupabase w s with
  | (.ok _, s1) => (.ok 0, s1)
  | (.error _, s1) => (.ok 1, s1)

/-- A backend without a `users` table: selecting from it returns an error; every other
request succeeds with no data and the network is unreachable. -/
def noUsersTableWorld : World where
  remote := fun _ c =>
    match c with
    | .query "users" [.select "*"] =>
      .resolved .null (some ⟨"relation \"public.users\" does not exist", some "42P01"⟩)
    | _ => .resolved .null none
  http := fun _ _ => .rejected ⟨"Failed to fetch", none⟩
  isoNow := fun _ => "2025-01-01T00:00:00.000Z"
  millisNow := fun _ => 0
  uuid := fun _ => "00000000-0000-4000-8000-000000000000"

/-! ## Handler of `app_de8b393e2913418682a1f3ac5249efa2_sync_user_role/index.ts` -/

/-- The call `text.includes(part)`. -/
def includesText (text part : String) : Bool :=
  text.data.tails.any fun rest => part.data.isPrefixOf rest

/-- The expression `authHeader.split(' ')[1]`: the text between the first space and the next
one; `none` is `undefined`, when the header holds no space. -/
def secondWord (authHeader : String) : Option String :=
  if ' ' ∈ authHeader.data then
    some ⟨((authHeader.data.dropWhile fun c => c != ' ').drop 1).takeWhile fun c => c != ' '⟩
  else none

/-- The test `!authHeader || !authHeader.startsWith('Bearer ')`. -/
def noBearer (authHeader : Option String) : Bool :=
  headerMissing authHeader || !"Bearer ".data.isPrefixOf (authHeader.getD "").data

/-- The first statements of the handler after the method checks: the `try` block that reads
`userId` from the body. -/
def readUserId (req : Req) : Except JSErr Val := do
  let body ← req.json
  let userId ← getProp body "userId"
  if !truthy userId then .error ⟨"Missing userId", none⟩
  else .ok userId

/-- The `try` block that verifies the token and the right of the caller to sync `userId`. -/
def authorizeCaller (token : Option String) (userId : Val) : Eff Unit := do
  let (data, authError) ← await (.getUser token)
  let callerUser ← liftE (getProp data "user")
  if authError.isSome || !truthy callerUser then throwJS ⟨"Unauthorized: Invalid token", none⟩
  else do
  let metadata ← liftE (getProp callerUser "user_metadata")
  let isAdmin := isStr (optProp metadata "role") "admin"
  let callerId ← liftE (getProp callerUser "id")
  if !strictEq callerId userId && !isAdmin then
    throwJS ⟨"Forbidden: Can only sync your own role unless you are an admin", none⟩
  else pure ()

/-- The text `authError?.message || 'User not found'`. -/
def messageOrNotFound (authError : Option JSErr) : String :=
  match authError with
  | some e => if e.message = "" then "User not found" else e.message
  | none => "User not found"

/-- The `try` block that reconciles the two roles of `userId`, up to its `return`: the final
values of `effectiveRole` and `roleUpdated`. -/
def reconcileRoles (userId : Val) : Eff (Val × Bool) := do
  let (authUser, authError) ← await (.adminGetUserById userId)
  if authError.isSome || !truthy (optProp authUser "user") then
    throwJS ⟨"Failed to get user from Auth: " ++ messageOrNotFound authError, none⟩
  else do
  let user ← liftE (getProp authUser "user")
  let metadata ← liftE (getProp user "user_metadata")
  let authRole := orElse (optProp metadata "role") (.str "viewer")
  let (dbUser, dbError) ← await (.query "users" [.select "id, role", .eq "id" userId, .single])
  if otherThanNoRows dbError then
    throwJS ⟨"Database error: " ++ (match dbError with | some e => e.message | none => ""),
      none⟩
  else
  if truthy dbUser then do
    let dbRole ← liftE (getProp dbUser "role")
    if truthy dbRole && !strictEq dbRole authRole then do
      let (_, updateError) ← await
        (.adminUpdateUserById userId (.obj [("user_metadata", .obj [("role", dbRole)])]))
      match updateError with
      | some e => throwJS ⟨"Failed to update auth metadata: " ++ e.message, none⟩
      | none => pure (dbRole, true)
    else if truthy authRole && (!truthy dbRole || !strictEq dbRole authRole) then do
      let (_, updateError) ← await
        (.query "users" [.update (.obj [("role", authRole)]), .eq "id" userId])
      match updateError with
      | some e => throwJS ⟨"Failed to update database: " ++ e.message, none⟩
      | none => pure (authRole, true)
    else pure (authRole, false)
  else do
    let email ← liftE (getProp user "email")
    if truthy email then do
      let username ← liftE (splitAtFirst email)
      let name ← liftE (orElseM (optProp metadata "name") (splitAtFirst email))
      let (_, insertError) ← await (.query "users" [.insert (.obj [("id", userId),
        ("username", username), ("name", name), ("email", email), ("role", authRole)])])
      match insertError with
      | some _ => pure (authRole, false)
      | none => pure (authRole, true)
    else pure (authRole, false)

/-- Handler of `app_de8b393e2913418682a1f3ac5249efa2_sync_user_role/index.ts`. -/
def syncUserRoleHandler (req : Req) : Eff Response :=
  if req.method = "OPTIONS" then pure ⟨204, .null⟩
  else if req.method ≠ "POST" then pure ⟨405, .obj [("error", .str "Method not allowed")]⟩
  else
  match readUserId req with
  | .error _ => pure ⟨400, failure "Invalid request body"⟩
  | .ok userId =>
  if noBearer req.authorization then pure ⟨401, failure "Unauthorized"⟩
  else do
  let token := secondWord (req.authorization.getD "")
  let denied ← tryCatchJS (do
      authorizeCaller token userId
      pure none)
    (fun error => pure (some ⟨if includesText error.message "Forbidden" then 403 else 401,
      .obj [("success", .bool false), ("error", messageOr error "Authentication failed")]⟩))
  match denied with
  | some response => pure response
  | none =>
  tryCatchJS (do
      let (effectiveRole, roleUpdated) ← reconcileRoles userId
      pure ⟨200, .obj [("success", .bool true), ("role", effectiveRole),
        ("updated", .bool roleUpdated),
        ("message", .str (if roleUpdated then "Role synchronized successfully"
          else "Role already in sync"))]⟩)
    (fun error => pure ⟨500, .obj [("success", .bool false),
      ("error", messageOr error "Failed to sync user role")]⟩)

/-- The role held by the users-table row of the target after a run: the role read from the
row, replaced by the role of each update of the users table that returned no error. -/
def rowRoleAfter (initial : Val) : List Event → Val
  | [] => initial
  | .call (.query "users" [.update values, .eq "id" _]) (.resolved _ none) :: rest =>
    rowRoleAfter (optProp values "role") rest
  | _ :: rest => rowRoleAfter initial rest

/-- The auth role of a user record as the handler computes it:
`user.user_metadata?.role || 'viewer'`. -/
def authRoleOf (user : Val) : Val :=
  orElse (optProp (optProp user "user_metadata") "role") (.str "viewer")

/-- The lookup of the target's row in the users table. -/
def rowLookup (userId : Val) : Call :=
  .query "users" [.select "id, role", .eq "id" userId, .single]

/-- The overwrite of the target's auth metadata with the role `role`. -/
def metadataOverwrite (userId role : Val) : Call :=
  .adminUpdateUserById userId (.obj [("user_metadata", .obj [("role", role)])])

/-- The update of the target's row in the users table with the role `role`. -/
def rowUpdate (userId role : Val) : Call :=
  .query "users" [.update (.obj [("role", role)]), .eq "id" userId]

/-- The body of the 200 response of `sync_user_role`. -/
def syncedBody (role : Val) (updated : Bool) : Val :=
  .obj [("success", .bool true), ("role", role), ("updated", .bool updated),
    ("message", .str (if updated then "Role synchronized successfully"
      else "Role already in sync"))]

/-- A backend on which every token belongs to the user `u1`, whose auth role is `authRole`
and whose row in the users table holds the role `dbRole`; every write succeeds. -/
def syncWorld (authRole dbRole : Val) : World where
  remote := fun _ c =>
    match c with
    | .getUser _ => .resolved (.obj [("user", userRecord "u1" "viewer")]) none
    | .adminGetUserById _ =>
      .resolved (.obj [("user", .obj [("id", .str "u1"), ("email", .str "u1@example.com"),
        ("user_metadata", .obj [("role", authRole)])])]) none
    | .query "users" [.select "id, role", _, .single] =>
      .resolved (.obj [("id", .str "u1"), ("role", dbRole)]) none
    | _ => .resolved .null none
  http := fun _ _ => .rejected ⟨"Failed to fetch", none⟩
  isoNow := fun _ => "2025-01-01T00:00:00.000Z"
  millisNow := fun _ => 0
  uuid := fun _ => "00000000-0000-4000-8000-000000000000"

/-- Whether a request of the table client came back without an error. -/
def Outcome.succeeded : Outcome → Bool
  | .resolved _ none => true
  | _ => false

/-- The insert of the note made by the fallback of `createHandoverNote`. -/
def noteInsert (note : Val) : Call :=
  .query "handover_notes" [.insert (.arr [note]), .select "*"]

/-- The insert of the task rows made by the fallback of `createHandoverNote`. -/
def tasksInsert (rows : List Val) : Call :=
  .query "handover_tasks" [.insert (.arr rows)]

/-! ## Stepping lemmas for the effect monad -/

@[simp]
theorem pure_run {α : Type} (a : α) (w : World) (s : St) :
    (pure a : Eff α) w s = (.ok a, s) := rfl

@[simp]
theorem bind_run {α β : Type} (m : Eff α) (f : α → Eff β) (w : World) (s : St) :
    (m >>= f) w s = bindR (m w s) f w := rfl

@[simp]
theorem bindR_ok {α β : Type} (a : α) (s : St) (f : α → Eff β) (w : World) :
    bindR (.ok a, s) f w = f a w s := rfl

@[simp]
theorem bindR_error {α β : Type} (e : JSErr) (s : St) (f : α → Eff β) (w : World) :
    bindR ((.error e, s) : Except JSErr α × St) f w = (.error e, s) := rfl

@[simp]
theorem bindR_ite {α β : Type} (c : Prop) [Decidable c] (x y : Except JSErr α × St)
    (f : α → Eff β) (w : World) :
    bindR (if c then x else y) f w = if c then bindR x f w else bindR y f w := by
  split <;> rfl

@[simp]
theorem tryCatchJS_run {α : Type} (body : Eff α) (handler : JSErr → Eff α) (w : World)
    (s : St) : tryCatchJS body handler w s = catchR (body w s) handler w := rfl

@[simp]
theorem catchR_ok {α : Type} (a : α) (s : St) (handler : JSErr → Eff α) (w : World) :
    catchR (.ok a, s) handler w = (.ok a, s) := rfl

@[simp]
theorem catchR_error {α : Type} (e : JSErr) (s : St) (handler : JSErr → Eff α) (w : World) :
    catchR (.error e, s) handler w = handler e w s := rfl

@[simp]
theorem catchR_ite {α : Type} (c : Prop) [Decidable c] (x y : Except JSErr α × St)
    (handler : JSErr → Eff α) (w : World) :
    catchR (if c then x else y) handler w =
      if c then catchR x handler w else catchR y handler w := by
  split <;> rfl

@[simp]
theorem liftE_run {α : Type} (x : Except JSErr α) (w : World) (s : St) :
    liftE x w s = (x, s) := rfl

@[simp]
theorem throwJS_run {α : Type} (e : JSErr) (w : World) (s : St) :
    (throwJS e : Eff α) w s = (.error e, s) := rfl

@[simp]
theorem isoNow_run (w : World) (s : St) :
    isoNow w s = (.ok (w.isoNow s.draws), { s with draws := s.draws + 1 }) := rfl

@[simp]
theorem millisNow_run (w : World) (s : St) :
    millisNow w s = (.ok (w.millisNow s.draws), { s with draws := s.draws + 1 }) := rfl

@[simp]
theorem uuidv4_run (w : World) (s : St) :
    uuidv4 w s = (.ok (w.uuid s.draws), { s with draws := s.draws + 1 }) := rfl

@[simp]
theorem await_run (c : Call) (w : World) (s : St) :
    await c w s =
      match w.remote s.trace c with
      | .rejected e => (.error e, { s with trace := s.trace ++ [.call c (.rejected e)] })
      | .resolved d e =>
        (.ok (d, e), { s with trace := s.trace ++ [.call c (.resolved d e)] }) := rfl

@[simp]
theorem awaitFetch_run (r : HttpRequest) (w : World) (s : St) :
    awaitFetch r w s =
      match w.http s.trace r with
      | .rejected e => (.error e, { s with trace := s.trace ++ [.fetch r (.rejected e)] })
      | .response ok j =>
        (.ok (ok, j), { s with trace := s.trace ++ [.fetch r (.response ok j)] }) := rfl

@[simp]
theorem truthy_orElse_obj (a : Val) (fields : List (String × Val)) :
    truthy (orElse a (.obj fields)) = true := by
  unfold orElse
  split
  · assumption
  · rfl

@[simp]
theorem getProp_of_truthy (v : Val) (key : String) (h : truthy v = true) :
    getProp v key = .ok (optProp v key) := by
  cases v <;> simp_all [truthy, getProp, optProp]

@[simp]
theorem statusOf_ok (r : Response) (s : St) : statusOf (.ok r, s) = some r.status := rfl

@[simp]
theorem statusOf_error (e : JSErr) (s : St) : statusOf (.error e, s) = none := rfl

theorem getProp_cases (v : Val) :
    (∃ what, ∀ key, getProp v key = .error (typeError what)) ∨
      (∀ key, getProp v key = .ok (optProp v key)) := by
  cases v
  case undefined => exact Or.inl ⟨_, fun _ => rfl⟩
  case null => exact Or.inl ⟨_, fun _ => rfl⟩
  all_goals exact Or.inr fun _ => rfl

theorem getProp_ok_of_ok (v : Val) (k k2 : String) (x : Val) (h : getProp v k = .ok x) :
    getProp v k2 = .ok (optProp v k2) := by
  cases v <;> simp_all [getProp, optProp]

theorem truthy_of_includesStr (list : List String) (v : Val) (hlist : "" ∉ list)
    (h : includesStr list v = true) : truthy v = true := by
  cases v <;> simp_all [includesStr, truthy]
  rintro rfl
  exact hlist h

/-! ## C1: the admin gate of the update handlers -/

/-- C1, counterexample: two requests of an authenticated caller who is not an admin that are
not answered 403.  A CORS preflight (method OPTIONS) to `update_user_role` carrying the valid
token of the viewer `u1` reaches the preflight branch before any check: nothing is asked of
the backend and no 403 response is built (the branch throws while building its own response).
A POST to `update_user_shift` from the authenticated user `u1`, who has no row in the users
table, is answered 404 `User not found`. -/
theorem nonadmin_requests_not_answered_403 :
    (Authenticated (simpleWorld "u1" "viewer" "viewer") (bearerReq "OPTIONS" (.obj []))
        "Bearer tok" (.obj [("user", userRecord "u1" "viewer")]) (userRecord "u1" "viewer") ∧
      isStr (metadataRole (userRecord "u1" "viewer")) "admin" = false ∧
      run (updateUserRoleHandler (bearerReq "OPTIONS" (.obj [])))
          (simpleWorld "u1" "viewer" "viewer") =
        (.error bodyWithNullBodyStatus, St.init)) ∧
    (Authenticated noRowWorld (bearerReq "POST" (.obj [("userId", .str "u2")]))
        "Bearer tok" (.obj [("user", userRecord "u1" "viewer")]) (userRecord "u1" "viewer") ∧
      (∀ row, noRowWorld.remote
        [authEvent "Bearer tok" (.obj [("user", userRecord "u1" "viewer")])]
        (roleLookup (userRecord "u1" "viewer")) ≠ .resolved row none) ∧
      (run (updateUserShiftHandler (bearerReq "POST" (.obj [("userId", .str "u2")])))
          noRowWorld).1 = .ok ⟨404, failure "User not found"⟩) := by
  refine ⟨⟨⟨rfl, by decide, rfl, rfl, rfl⟩, rfl, rfl⟩, ⟨rfl, by decide, rfl, rfl, rfl⟩, ?_, rfl⟩
  intro row h
  simp [noRowWorld, roleLookup] at h

/-- C1, amended: a request to `update_user_role` other than a CORS preflight from an
authenticated caller whose `user_metadata.role` is not `admin`, and a POST request to
`update_user_shift` from an authenticated caller whose row in the users table is found and
holds a role other than `admin`, is answered 403 with `success: false`, whatever its body;
the only remote interactions are the token check (and the row lookup), so no auth metadata
and no table is written. -/
theorem nonadmin_update_denied (w : World) (req : Req) (header : String) (data user : Val)
    (hauth : Authenticated w req header data user) :
    (req.method ≠ "OPTIONS" → isStr (metadataRole user) "admin" = false →
      (run (updateUserRoleHandler req) w).1 =
          .ok ⟨403, failure "Only admins can update user roles"⟩ ∧
        (run (updateUserRoleHandler req) w).2.trace = [authEvent header data] ∧
        noWrites (run (updateUserRoleHandler req) w).2.trace = true) ∧
    (req.method = "POST" → ∀ row : Val,
      w.remote [authEvent header data] (roleLookup user) = .resolved row none →
      truthy row = true → isStr (optProp row "role") "admin" = false →
      (run (updateUserShiftHandler req) w).1 =
          .ok ⟨403, failure "Only admin users can update shifts"⟩ ∧
        (run (updateUserShiftHandler req) w).2.trace =
          [authEvent header data, .call (roleLookup user) (.resolved row none)] ∧
        noWrites (run (updateUserShiftHandler req) w).2.trace = true) := by
  obtain ⟨hh, hne, hget, hdata, htruthy⟩ := hauth
  constructor
  · intro hm hrole
    simp only [metadataRole] at hrole
    have hrun : run (updateUserRoleHandler req) w =
        (.ok ⟨403, failure "Only admins can update user roles"⟩,
          ⟨[authEvent header data], 0, [], []⟩) := by
      simp [run, updateUserRoleHandler, hm, hh, headerMissing, hne, await,
        St.init, hget, hdata, htruthy, getProp_of_truthy, authEvent, hrole]
    rw [hrun]
    exact ⟨rfl, rfl, rfl⟩
  · intro hm row hrow hrowT hrole
    have hrun : run (updateUserShiftHandler req) w =
        (.ok ⟨403, failure "Only admin users can update shifts"⟩,
          ⟨[authEvent header data, .call (roleLookup user) (.resolved row none)],
            0, [], []⟩) := by
      simp only [authEvent, roleLookup] at hrow
      simp [run, updateUserShiftHandler, hm, hh, headerMissing, hne,
        await, St.init, hget, hdata, htruthy, getProp_of_truthy, authEvent, hrow, hrowT, hrole,
        roleLookup]
    rw [hrun]
    exact ⟨rfl, rfl, rfl⟩

/-- C1, witness: the viewer `u1` posting to both handlers. -/
theorem nonadmin_update_denied_witness :
    (run (updateUserRoleHandler (bearerReq "POST" (.obj [("userId", .str "u2")])))
        (simpleWorld "u1" "viewer" "viewer")).1 =
        .ok ⟨403, failure "Only admins can update user roles"⟩ ∧
      (run (updateUserShiftHandler (bearerReq "POST" (.obj [("userId", .str "u2")])))
        (simpleWorld "u1" "viewer" "viewer")).1 =
        .ok ⟨403, failure "Only admin users can update shifts"⟩ := by
  have h := nonadmin_update_denied (simpleWorld "u1" "viewer" "viewer")
    (bearerReq "POST" (.obj [("userId", .str "u2")])) "Bearer tok"
    (.obj [("user", userRecord "u1" "viewer")]) (userRecord "u1" "viewer")
    ⟨rfl, by decide, rfl, rfl, rfl⟩
  exact ⟨(h.1 (by decide) rfl).1, (h.2 rfl (.obj [("role", .str "viewer")]) rfl rfl rfl).1⟩

/-! ## C2: the role check of the list-users handlers -/

/-- C2, counterexample: `get_all_users` answers the viewer `u1`, who is an admin neither in the
users table nor in the auth metadata, with status 200, `success: true` and the users list. -/
theorem get_all_users_serves_nonadmin :
    Authenticated (simpleWorld "u1" "viewer" "viewer") (bearerReq "GET" .null)
        "Bearer tok" (.obj [("user", userRecord "u1" "viewer")]) (userRecord "u1" "viewer") ∧
      ¬ TableAdmin (simpleWorld "u1" "viewer" "viewer") "Bearer tok"
        (.obj [("user", userRecord "u1" "viewer")]) (userRecord "u1" "viewer") ∧
      isStr (metadataRole (userRecord "u1" "viewer")) "admin" = false ∧
      (run (getAllUsersHandler (bearerReq "GET" .null)) (simpleWorld "u1" "viewer" "viewer")).1 =
        .ok ⟨200, .obj [("success", .bool true), ("users", .arr [.obj [("id", .str "u1"),
          ("email", .str "u1@example.com"), ("name", .str "u1"), ("username", .str "u1"),
          ("role", .str "viewer"), ("shift", .str "Regular"),
          ("avatar", .str "https://i.pravatar.cc/150?u=u1"), ("created_at", .undefined),
          ("updated_at", .undefined)]])]⟩ := by
  refine ⟨⟨rfl, by decide, rfl, rfl, rfl⟩, ?_, rfl, rfl⟩
  rintro ⟨row, hrow, -, hadmin⟩
  simp [simpleWorld, roleLookup] at hrow
  subst hrow
  simp [optProp, lookupField, isStr] at hadmin

/-- C2, amended: `list_users_with_shifts` and `list_users` are secured by their role check.
For every request from an authenticated caller who fails it (no row with role `admin` in the
users table, respectively a metadata role that is neither `admin` nor `shift_leader`) the
response does not have status 200, so it is not the success response carrying the users
list. -/
theorem list_handlers_deny_failed_check (w : World) (req : Req) (header : String)
    (data user : Val) (hauth : Authenticated w req header data user) :
    (¬ TableAdmin w header data user →
      statusOf (run (listUsersWithShiftsHandler req) w) ≠ some 200) ∧
    (isStr (metadataRole user) "admin" = false →
      isStr (metadataRole user) "shift_leader" = false →
      statusOf (run (listUsersHandler req) w) ≠ some 200) := by
  obtain ⟨hh, hne, hget, hdata, htruthy⟩ := hauth
  constructor
  · intro hfail
    by_cases hopt : req.method = "OPTIONS"
    · simp [run, listUsersWithShiftsHandler, hopt, statusOf]
    by_cases hgetm : req.method = "GET"
    swap
    · simp [run, listUsersWithShiftsHandler, hopt, hgetm, statusOf]
    cases hrow : w.remote [authEvent header data] (roleLookup user) with
    | rejected e =>
      simp only [authEvent, roleLookup] at hrow
      simp [run, listUsersWithShiftsHandler, hopt, hgetm, hh, headerMissing, hne,
        await, St.init, hget, hdata, htruthy, getProp_of_truthy, hrow, statusOf]
    | resolved row err =>
      have hrow' := hrow
      simp only [authEvent, roleLookup] at hrow
      cases err with
      | some e =>
        simp [run, listUsersWithShiftsHandler, hopt, hgetm, hh, headerMissing, hne,
          await, St.init, hget, hdata, htruthy, getProp_of_truthy, hrow, statusOf]
      | none =>
        cases hrowT : truthy row with
        | false =>
          simp [run, listUsersWithShiftsHandler, hopt, hgetm, hh, headerMissing,
            hne, await, St.init, hget, hdata, htruthy, getProp_of_truthy, hrow,
            hrowT, statusOf]
        | true =>
          have hrole : isStr (optProp row "role") "admin" = false := by
            cases h : isStr (optProp row "role") "admin" with
            | false => rfl
            | true => exact absurd ⟨row, hrow', hrowT, h⟩ hfail
          simp [run, listUsersWithShiftsHandler, hopt, hgetm, hh, headerMissing,
            hne, await, St.init, hget, hdata, htruthy, getProp_of_truthy, hrow,
            hrowT, hrole, statusOf]
  · intro hadmin hleader
    simp only [metadataRole] at hadmin hleader
    by_cases hopt : req.method = "OPTIONS"
    · simp [run, listUsersHandler, hopt, statusOf]
    simp [run, listUsersHandler, hopt, hh, headerMissing, hne, await,
      St.init, hget, hdata, htruthy, getProp_of_truthy, hadmin, hleader, statusOf]

/-- C2, witness: the viewer `u1` asking both handlers for the list. -/
theorem list_handlers_deny_failed_check_witness :
    statusOf (run (listUsersWithShiftsHandler (bearerReq "GET" .null))
        (simpleWorld "u1" "viewer" "viewer")) ≠ some 200 ∧
      statusOf (run (listUsersHandler (bearerReq "GET" .null))
        (simpleWorld "u1" "viewer" "viewer")) ≠ some 200 := by
  have h := list_handlers_deny_failed_check (simpleWorld "u1" "viewer" "viewer")
    (bearerReq "GET" .null) "Bearer tok" (.obj [("user", userRecord "u1" "viewer")])
    (userRecord "u1" "viewer") ⟨rfl, by decide, rfl, rfl, rfl⟩
  refine ⟨h.1 ?_, h.2 rfl rfl⟩
  rintro ⟨row, hrow, -, hadmin⟩
  simp [simpleWorld, roleLookup] at hrow
  subst hrow
  simp [optProp, lookupField, isStr] at hadmin

/-! ## C3: role validation in `update_user_role` -/

/-- C3, counterexample: a CORS preflight (method OPTIONS) from the admin `a1` whose body names
the role `superuser` reaches the preflight branch before the role is read: it is not answered
400 `Invalid role value` (the branch throws while building its own response). -/
theorem preflight_with_invalid_role_not_rejected :
    Authenticated (simpleWorld "a1" "admin" "admin")
        (bearerReq "OPTIONS" (.obj [("userId", .str "u2"), ("role", .str "superuser")]))
        "Bearer tok" (.obj [("user", userRecord "a1" "admin")]) (userRecord "a1" "admin") ∧
      isStr (metadataRole (userRecord "a1" "admin")) "admin" = true ∧
      includesStr validRoles (.str "superuser") = false ∧
      run (updateUserRoleHandler
          (bearerReq "OPTIONS" (.obj [("userId", .str "u2"), ("role", .str "superuser")])))
          (simpleWorld "a1" "admin" "admin") =
        (.error bodyWithNullBodyStatus, St.init) :=
  ⟨⟨rfl, by decide, rfl, rfl, rfl⟩, rfl, rfl, rfl⟩

/-- C3, amended: in `update_user_role`, for a request from an admin caller with a parseable
body and non-empty `userId` and `role`: if `role` is not one of the five role names, no
auth-metadata or table update is performed and, unless the request is a CORS preflight
(method OPTIONS), the response is status 400 with error `Invalid role value`, the token check
being the only remote interaction; a role that is one of the five names is never answered with
that rejection. -/
theorem role_validation (w : World) (req : Req) (header : String)
    (data user body userId role : Val) (hauth : Authenticated w req header data user)
    (hadmin : isStr (metadataRole user) "admin" = true) (hbody : req.json = .ok body)
    (hid : getProp body "userId" = .ok userId) (hrole : getProp body "role" = .ok role)
    (hidT : truthy userId = true) (hroleT : truthy role = true) :
    (includesStr validRoles role = false →
      noWrites (run (updateUserRoleHandler req) w).2.trace = true ∧
      (req.method ≠ "OPTIONS" →
        (run (updateUserRoleHandler req) w).1 = .ok ⟨400, failure "Invalid role value"⟩ ∧
        (run (updateUserRoleHandler req) w).2.trace = [authEvent header data])) ∧
    (includesStr validRoles role = true →
      (run (updateUserRoleHandler req) w).1 ≠ .ok ⟨400, failure "Invalid role value"⟩) := by
  obtain ⟨hh, hne, hget, hdata, htruthy⟩ := hauth
  simp only [metadataRole] at hadmin
  have hshift := getProp_ok_of_ok body "userId" "shift" userId hid
  constructor
  · intro hbad
    by_cases hopt : req.method = "OPTIONS"
    · simp [run, updateUserRoleHandler, hopt, St.init, noWrites]
    have hrun : run (updateUserRoleHandler req) w =
        (.ok ⟨400, failure "Invalid role value"⟩,
          ⟨[authEvent header data], 0, [], []⟩) := by
      simp [run, updateUserRoleHandler, hopt, hh, headerMissing, hne, St.init, hget, hdata,
        htruthy, authEvent, hadmin, hbody, hid, hrole, hshift, hidT, hroleT, hbad]
    rw [hrun]
    exact ⟨rfl, fun _ => ⟨rfl, rfl⟩⟩
  · intro hgood
    by_cases hopt : req.method = "OPTIONS"
    · simp [run, updateUserRoleHandler, hopt]
    simp [run, updateUserRoleHandler, hopt, hh, headerMissing, hne, St.init, hget, hdata,
      htruthy, authEvent, hadmin, hbody, hid, hrole, hshift, hidT, hroleT, hgood, failure]
    repeat' (split <;> simp_all)

/-- C3, witness: the admin `a1` posting the role `superuser` for user `u2`. -/
theorem role_validation_witness :
    (run (updateUserRoleHandler
        (bearerReq "POST" (.obj [("userId", .str "u2"), ("role", .str "superuser")])))
        (simpleWorld "a1" "admin" "admin")).1 = .ok ⟨400, failure "Invalid role value"⟩ := by
  have h := role_validation (simpleWorld "a1" "admin" "admin")
    (bearerReq "POST" (.obj [("userId", .str "u2"), ("role", .str "superuser")])) "Bearer tok"
    (.obj [("user", userRecord "a1" "admin")]) (userRecord "a1" "admin")
    (.obj [("userId", .str "u2"), ("role", .str "superuser")]) (.str "u2") (.str "superuser")
    ⟨rfl, by decide, rfl, rfl, rfl⟩ rfl rfl rfl rfl rfl rfl
  exact ((h.1 rfl).2 (by decide)).1

/-! ## C4: shift validation on the server -/

/-- C4, counterexample: a GET request to `update_user_shift` from the admin `a1` whose body
names the shift `Z` is answered 405 `Method not allowed`, not 400. -/
theorem get_with_invalid_shift_not_400 :
    Authenticated (simpleWorld "a1" "admin" "admin")
        (bearerReq "GET" (.obj [("userId", .str "u2"), ("shift", .str "Z")]))
        "Bearer tok" (.obj [("user", userRecord "a1" "admin")]) (userRecord "a1" "admin") ∧
      TableAdmin (simpleWorld "a1" "admin" "admin") "Bearer tok"
        (.obj [("user", userRecord "a1" "admin")]) (userRecord "a1" "admin") ∧
      includesStr validShifts (.str "Z") = false ∧
      run (updateUserShiftHandler
          (bearerReq "GET" (.obj [("userId", .str "u2"), ("shift", .str "Z")])))
          (simpleWorld "a1" "admin" "admin") =
        (.ok ⟨405, failure "Method not allowed"⟩, St.init) :=
  ⟨⟨rfl, by decide, rfl, rfl, rfl⟩, ⟨.obj [("role", .str "admin")], rfl, rfl, rfl⟩, rfl,
    rfl⟩

/-- C4, amended: a non-empty shift value that is not one of `A`, `B`, `C`, `D`, `Regular` is
rejected before any write.  A POST request to `update_user_shift` from a caller whose row in
the users table has role `admin`, with a non-empty `userId`, and a request other than a CORS
preflight to `update_user_role` from a caller with metadata role `admin`, with a valid `role`,
is answered with status 400 and `success: false`; the only remote interactions are the token
check (and the row lookup), so nothing is upserted into `user_shifts` and neither the users
table nor the auth metadata is updated. -/
theorem shift_validation (w : World) (req : Req) (header : String)
    (data user body shift : Val) (hauth : Authenticated w req header data user)
    (hbody : req.json = .ok body) (hshift : getProp body "shift" = .ok shift)
    (hshiftT : truthy shift = true) (hbad : includesStr validShifts shift = false) :
    (req.method = "POST" → ∀ row userId : Val,
      w.remote [authEvent header data] (roleLookup user) = .resolved row none →
      truthy row = true → isStr (optProp row "role") "admin" = true →
      getProp body "userId" = .ok userId → truthy userId = true →
      (run (updateUserShiftHandler req) w).1 =
          .ok ⟨400, failure "Invalid shift. Valid shifts are: A, B, C, D, Regular"⟩ ∧
        (run (updateUserShiftHandler req) w).2.trace =
          [authEvent header data, .call (roleLookup user) (.resolved row none)] ∧
        noWrites (run (updateUserShiftHandler req) w).2.trace = true) ∧
    (req.method ≠ "OPTIONS" → isStr (metadataRole user) "admin" = true → ∀ role : Val,
      getProp body "role" = .ok role → includesStr validRoles role = true →
      (∃ msg, (run (updateUserRoleHandler req) w).1 = .ok ⟨400, failure msg⟩) ∧
        (run (updateUserRoleHandler req) w).2.trace = [authEvent header data] ∧
        noWrites (run (updateUserRoleHandler req) w).2.trace = true) := by
  obtain ⟨hh, hne, hget, hdata, htruthy⟩ := hauth
  constructor
  · intro hm row userId hrow hrowT hrole hid hidT
    have hrun : run (updateUserShiftHandler req) w =
        (.ok ⟨400, failure "Invalid shift. Valid shifts are: A, B, C, D, Regular"⟩,
          ⟨[authEvent header data, .call (roleLookup user) (.resolved row none)],
            0, [], []⟩) := by
      simp only [authEvent, roleLookup] at hrow
      simp [run, updateUserShiftHandler, hm, hh, headerMissing, hne, St.init, hget, hdata,
        htruthy, authEvent, hrow, hrowT, hrole, roleLookup, hbody, hid, hshift, hidT, hshiftT,
        hbad]
    rw [hrun]
    exact ⟨rfl, rfl, rfl⟩
  · intro hm hadmin role hrole hgood
    simp only [metadataRole] at hadmin
    have hroleT : truthy role = true :=
      truthy_of_includesStr validRoles role (by decide) hgood
    have hid := getProp_ok_of_ok body "shift" "userId" shift hshift
    have hrun : run (updateUserRoleHandler req) w =
        (.ok ⟨400, failure (if truthy (optProp body "userId") = true then "Invalid shift value"
            else "Missing required fields: userId and role")⟩,
          ⟨[authEvent header data], 0, [], []⟩) := by
      simp [run, updateUserRoleHandler, hm, hh, headerMissing, hne, St.init, hget, hdata,
        htruthy, authEvent, hadmin, hbody, hid, hrole, hshift, hroleT, hgood, hshiftT, hbad]
      split <;> simp_all
    rw [hrun]
    exact ⟨⟨_, rfl⟩, rfl, rfl⟩

/-- C4, witness: the admin `a1` posting the shift `Z` for user `u2` to both handlers. -/
theorem shift_validation_witness :
    (run (updateUserShiftHandler
        (bearerReq "POST" (.obj [("userId", .str "u2"), ("role", .str "viewer"),
          ("shift", .str "Z")]))) (simpleWorld "a1" "admin" "admin")).1 =
        .ok ⟨400, failure "Invalid shift. Valid shifts are: A, B, C, D, Regular"⟩ ∧
      (run (updateUserRoleHandler
        (bearerReq "POST" (.obj [("userId", .str "u2"), ("role", .str "viewer"),
          ("shift", .str "Z")]))) (simpleWorld "a1" "admin" "admin")).2.trace =
        [authEvent "Bearer tok" (.obj [("user", userRecord "a1" "admin")])] := by
  have h := shift_validation (simpleWorld "a1" "admin" "admin")
    (bearerReq "POST" (.obj [("userId", .str "u2"), ("role", .str "viewer"),
      ("shift", .str "Z")])) "Bearer tok"
    (.obj [("user", userRecord "a1" "admin")]) (userRecord "a1" "admin")
    (.obj [("userId", .str "u2"), ("role", .str "viewer"), ("shift", .str "Z")]) (.str "Z")
    ⟨rfl, by decide, rfl, rfl, rfl⟩ rfl rfl rfl rfl
  exact ⟨(h.1 rfl (.obj [("role", .str "admin")]) (.str "u2") rfl rfl rfl rfl rfl).1,
    (h.2 (by decide) rfl (.str "viewer") rfl rfl).2.1⟩

/-! ## C5: the two-store update of `update_user_role` -/

/-- C5: in `update_user_role`, for a request that passes authentication, the admin check and
validation and whose target user is fetched successfully, the outcome is decided by the
auth-metadata update (store A) alone.  If it returns no error, the users-table update (store
B) is attempted next and the response is 200 with `success: true` whether B returns an error
or not; if it returns an error the response is 500 and B is not attempted; if it throws the
response is 500 as well.  Hence, B returning, the response is 200 exactly when A returned no
error. -/
theorem role_update_two_stores (w : World) (req : Req) (header : String)
    (data user body userId role shift target : Val)
    (hauth : Authenticated w req header data user) (hm : req.method ≠ "OPTIONS")
    (hadmin : isStr (metadataRole user) "admin" = true) (hbody : req.json = .ok body)
    (hid : getProp body "userId" = .ok userId) (hrole : getProp body "role" = .ok role)
    (hshift : getProp body "shift" = .ok shift) (hidT : truthy userId = true)
    (hroleV : includesStr validRoles role = true)
    (hshiftV : truthy shift = true → includesStr validShifts shift = true)
    (hfetch : w.remote [authEvent header data] (.adminGetUserById userId) =
      .resolved target none)
    (htargetT : truthy target = true) :
    (∀ d, w.remote [authEvent header data, targetEvent userId target]
          (metadataUpdate userId role shift target) = .resolved d none →
      ∀ d2 e2, w.remote [authEvent header data, targetEvent userId target,
          .call (metadataUpdate userId role shift target) (.resolved d none)]
          (usersUpdate (w.isoNow 0) userId role shift) = .resolved d2 e2 →
        (run (updateUserRoleHandler req) w).1 =
            .ok ⟨200, roleUpdated userId role (newShift shift target)⟩ ∧
          (run (updateUserRoleHandler req) w).2.trace =
            [authEvent header data, targetEvent userId target,
              .call (metadataUpdate userId role shift target) (.resolved d none),
              .call (usersUpdate (w.isoNow 0) userId role shift) (.resolved d2 e2)]) ∧
    (∀ d e, w.remote [authEvent header data, targetEvent userId target]
          (metadataUpdate userId role shift target) = .resolved d (some e) →
      (run (updateUserRoleHandler req) w).1 =
          .ok ⟨500, failure ("Failed to update user: " ++ e.message)⟩ ∧
        (run (updateUserRoleHandler req) w).2.trace =
          [authEvent header data, targetEvent userId target,
            .call (metadataUpdate userId role shift target) (.resolved d (some e))]) ∧
    (∀ e, w.remote [authEvent header data, targetEvent userId target]
          (metadataUpdate userId role shift target) = .rejected e →
      (run (updateUserRoleHandler req) w).1 = .ok ⟨500, failure "Internal server error"⟩ ∧
        (run (updateUserRoleHandler req) w).2.trace =
          [authEvent header data, targetEvent userId target,
            .call (metadataUpdate userId role shift target) (.rejected e)]) ∧
    ((∀ trace, ∃ d2 e2,
        w.remote trace (usersUpdate (w.isoNow 0) userId role shift) = .resolved d2 e2) →
      (statusOf (run (updateUserRoleHandler req) w) = some 200 ↔
        ∃ d, w.remote [authEvent header data, targetEvent userId target]
          (metadataUpdate userId role shift target) = .resolved d none)) := by
  obtain ⟨hh, hne, hget, hdata, htruthy⟩ := hauth
  simp only [metadataRole] at hadmin
  have hroleT : truthy role = true := truthy_of_includesStr validRoles role (by decide) hroleV
  have hsv : ¬ (truthy shift = true ∧ includesStr validShifts shift = false) := by
    rintro ⟨h1, h2⟩
    rw [hshiftV h1] at h2
    exact Bool.noConfusion h2
  simp only [authEvent, targetEvent, metadataUpdate, usersUpdate, newShift, roleUpdated] at *
  refine ⟨?_, ?_, ?_, ?_⟩
  · intro d hupd d2 e2 htbl
    simp [run, updateUserRoleHandler, hm, hh, headerMissing, hne, St.init, hget, hdata,
      htruthy, hadmin, hbody, hid, hrole, hshift, hidT, hroleT, hroleV, hsv, hfetch, htargetT,
      hupd, htbl]
  · intro d e hupd
    simp [run, updateUserRoleHandler, hm, hh, headerMissing, hne, St.init, hget, hdata,
      htruthy, hadmin, hbody, hid, hrole, hshift, hidT, hroleT, hroleV, hsv, hfetch, htargetT,
      hupd]
  · intro e hupd
    simp [run, updateUserRoleHandler, hm, hh, headerMissing, hne, St.init, hget, hdata,
      htruthy, hadmin, hbody, hid, hrole, hshift, hidT, hroleT, hroleV, hsv, hfetch, htargetT,
      hupd]
  · intro htbl
    generalize ho : w.remote [.call (.getUser (some (bearerToken header))) (.resolved data none),
      .call (.adminGetUserById userId) (.resolved target none)]
      (Call.adminUpdateUserById userId (.obj [("user_metadata", .obj [("role", role),
        ("shift", if truthy shift = true then shift
          else if truthy (optProp (orElse (optProp (optProp target "user") "user_metadata")
              (.obj [])) "shift") = true then
            optProp (orElse (optProp (optProp target "user") "user_metadata") (.obj [])) "shift"
          else .str "Regular")])])) = o
    cases o with
    | rejected e =>
      simp [run, updateUserRoleHandler, hm, hh, headerMissing, hne, St.init, hget, hdata,
        htruthy, hadmin, hbody, hid, hrole, hshift, hidT, hroleT, hroleV, hsv, hfetch,
        htargetT, ho, statusOf]
    | resolved d err =>
      cases err with
      | some e =>
        simp [run, updateUserRoleHandler, hm, hh, headerMissing, hne, St.init, hget, hdata,
          htruthy, hadmin, hbody, hid, hrole, hshift, hidT, hroleT, hroleV, hsv, hfetch,
          htargetT, ho, statusOf]
      | none =>
        obtain ⟨d2, e2, h2⟩ := htbl [.call (.getUser (some (bearerToken header)))
          (.resolved data none), .call (.adminGetUserById userId) (.resolved target none),
          .call (Call.adminUpdateUserById userId (.obj [("user_metadata", .obj [("role", role),
            ("shift", if truthy shift = true then shift
              else if truthy (optProp (orElse (optProp (optProp target "user") "user_metadata")
                  (.obj [])) "shift") = true then
                optProp (orElse (optProp (optProp target "user") "user_metadata") (.obj []))
                  "shift"
              else .str "Regular")])])) (.resolved d none)]
        simp [run, updateUserRoleHandler, hm, hh, headerMissing, hne, St.init, hget, hdata,
          htruthy, hadmin, hbody, hid, hrole, hshift, hidT, hroleT, hroleV, hsv, hfetch,
          htargetT, ho, h2, statusOf]

/-- C5, witness: the admin `a1` sets the role of `u2`; the auth-metadata update succeeds and
the users-table update returns an error, yet the response is 200. -/
theorem role_update_two_stores_witness :
    (run (updateUserRoleHandler
        (bearerReq "POST" (.obj [("userId", .str "u2"), ("role", .str "engineer")])))
        (tableFailsWorld (some ⟨"permission denied", none⟩))).1 =
      .ok ⟨200, roleUpdated (.str "u2") (.str "engineer") (.str "Regular")⟩ := by
  have h := role_update_two_stores (tableFailsWorld (some ⟨"permission denied", none⟩))
    (bearerReq "POST" (.obj [("userId", .str "u2"), ("role", .str "engineer")])) "Bearer tok"
    (.obj [("user", userRecord "a1" "admin")]) (userRecord "a1" "admin")
    (.obj [("userId", .str "u2"), ("role", .str "engineer")]) (.str "u2") (.str "engineer")
    .undefined (.obj [("user", userRecord "u2" "viewer")])
    ⟨rfl, by decide, rfl, rfl, rfl⟩ (by decide) rfl rfl rfl rfl rfl rfl rfl
    (fun h => absurd h (by decide)) rfl rfl
  exact (h.1 .null rfl .null (some ⟨"permission denied", none⟩) rfl).1

/-! ## C6: `syncUserRole` on the client -/

/-- C6, failing input: `syncUserRole('u2', 'engineer')` for a signed-in non-admin.  The
users-table update (A) returns no error and is the first remote interaction, the edge function
answers with a non-ok response carrying `success: false`, and the result is
`{ success: false, error: 'Only admins can update user roles' }` although the code's own
comment treats a failed edge function after a database update as a partial success. -/
theorem sync_reports_failure_after_table_update :
    (run (syncUserRole (.str "u2") (.str "engineer")) edgeDeniedWorld).1 =
        .ok ⟨false, .str "Only admins can update user roles"⟩ ∧
      (run (syncUserRole (.str "u2") (.str "engineer")) edgeDeniedWorld).2.trace.head? =
        some (.call (.query "users" [.update (.obj [("role", .str "engineer")]),
          .eq "id" (.str "u2")]) (.resolved .null none)) ∧
      sentRequests (run (syncUserRole (.str "u2") (.str "engineer")) edgeDeniedWorld).2.trace =
        [edgePost "app_de8b393e2913418682a1f3ac5249efa2_update_user_role" (.str "tok")
          (.obj [("userId", .str "u2"), ("role", .str "engineer")])] :=
  ⟨rfl, rfl, rfl⟩

/-! ## C7: the admin override and server-side authorization -/

theorem Oblivious.pure {α : Type} (a : α) : Oblivious (Pure.pure a : Eff α) :=
  ⟨fun _ _ _ h => ⟨rfl, h⟩⟩

theorem Oblivious.throwJS {α : Type} (e : JSErr) : Oblivious (Airfield.throwJS e : Eff α) :=
  ⟨fun _ _ _ h => ⟨rfl, h⟩⟩

theorem Oblivious.liftE {α : Type} (x : Except JSErr α) : Oblivious (Airfield.liftE x) :=
  ⟨fun _ _ _ h => ⟨rfl, h⟩⟩

theorem Oblivious.await (c : Call) : Oblivious (Airfield.await c) := by
  refine ⟨fun w s s2 h => ?_⟩
  obtain ⟨ht, hd⟩ := h
  simp only [await_run, ← ht]
  split <;> simp [SameView, ← ht, hd]

theorem Oblivious.awaitFetch (r : HttpRequest) : Oblivious (Airfield.awaitFetch r) := by
  refine ⟨fun w s s2 h => ?_⟩
  obtain ⟨ht, hd⟩ := h
  simp only [awaitFetch_run, ← ht]
  split <;> simp [SameView, ← ht, hd]

theorem Oblivious.isoNow : Oblivious Airfield.isoNow := by
  refine ⟨fun w s s2 h => ?_⟩
  obtain ⟨ht, hd⟩ := h
  simp [SameView, ht, hd]

theorem Oblivious.bind {α β : Type} {m : Eff α} {f : α → Eff β} (hm : Oblivious m)
    (hf : ∀ a, Oblivious (f a)) : Oblivious (m >>= f) := by
  refine ⟨fun w s s2 h => ?_⟩
  obtain ⟨h1, h2⟩ := hm.same w s s2 h
  simp only [bind_run]
  rcases hx : m w s with ⟨r, t⟩
  rcases hy : m w s2 with ⟨r2, t2⟩
  rw [hx, hy] at h1 h2
  simp only at h1
  subst h1
  cases r with
  | ok a => exact (hf a).same w t t2 h2
  | error e => exact ⟨rfl, h2⟩

theorem Oblivious.tryCatch {α : Type} {body : Eff α} {handler : JSErr → Eff α}
    (hb : Oblivious body) (hh : ∀ e, Oblivious (handler e)) :
    Oblivious (tryCatchJS body handler) := by
  refine ⟨fun w s s2 h => ?_⟩
  obtain ⟨h1, h2⟩ := hb.same w s s2 h
  simp only [tryCatchJS_run]
  rcases hx : body w s with ⟨r, t⟩
  rcases hy : body w s2 with ⟨r2, t2⟩
  rw [hx, hy] at h1 h2
  simp only at h1
  subst h1
  cases r with
  | ok a => exact ⟨rfl, h2⟩
  | error e => exact (hh e).same w t t2 h2

theorem updateUserShift_oblivious (userId shift : Val) :
    Oblivious (updateUserShift userId shift) := by
  unfold updateUserShift
  repeat' first
    | apply Oblivious.pure
    | apply Oblivious.throwJS
    | apply Oblivious.liftE
    | apply Oblivious.await
    | apply Oblivious.awaitFetch
    | apply Oblivious.isoNow
    | apply Oblivious.tryCatch
    | apply Oblivious.bind
    | intro _
    | split
    | dsimp only

theorem updateUserRole_oblivious (userId role shift : Val) :
    Oblivious (updateUserRole userId role shift) := by
  unfold updateUserRole
  repeat' first
    | apply Oblivious.pure
    | apply Oblivious.throwJS
    | apply Oblivious.liftE
    | apply Oblivious.await
    | apply Oblivious.awaitFetch
    | apply updateUserShift_oblivious
    | apply Oblivious.tryCatch
    | apply Oblivious.bind
    | intro _
    | split
    | dsimp only

/-- C7: the admin override does not reach the server.  Two client runs of `updateUserRole` or
`updateUserShift` whose `localStorage` differs at most under the key `admin_override` (and
whose client-side objects on the heap are arbitrary) give the same result and the same history,
hence send identical requests (URL, `Authorization` header, JSON body); and `update_user_role`
denies an authenticated request (status 403) exactly when the user record of the bearer token
does not carry `user_metadata.role === 'admin'`. -/
theorem override_does_not_reach_server (w : World) (userId role shift : Val)
    (storage storage2 : List (String × String)) (heap heap2 : List (List (String × Val)))
    (_hsame : ∀ key, key ≠ "admin_override" → storage.lookup key = storage2.lookup key) :
    ((updateUserRole userId role shift w (St.browser storage heap)).1 =
        (updateUserRole userId role shift w (St.browser storage2 heap2)).1 ∧
      sentRequests (updateUserRole userId role shift w (St.browser storage heap)).2.trace =
        sentRequests (updateUserRole userId role shift w (St.browser storage2 heap2)).2.trace) ∧
    ((updateUserShift userId shift w (St.browser storage heap)).1 =
        (updateUserShift userId shift w (St.browser storage2 heap2)).1 ∧
      sentRequests (updateUserShift userId shift w (St.browser storage heap)).2.trace =
        sentRequests (updateUserShift userId shift w (St.browser storage2 heap2)).2.trace) ∧
    (∀ req header data user, Authenticated w req header data user → req.method ≠ "OPTIONS" →
      (statusOf (run (updateUserRoleHandler req) w) = some 403 ↔
        isStr (metadataRole user) "admin" = false)) := by
  have hview : SameView (St.browser storage heap) (St.browser storage2 heap2) := ⟨rfl, rfl⟩
  refine ⟨?_, ?_, ?_⟩
  · obtain ⟨h1, h2, -⟩ := (updateUserRole_oblivious userId role shift).same w _ _ hview
    exact ⟨h1, by rw [h2]⟩
  · obtain ⟨h1, h2, -⟩ := (updateUserShift_oblivious userId shift).same w _ _ hview
    exact ⟨h1, by rw [h2]⟩
  · intro req header data user hauth hm
    obtain ⟨hh, hne, hget, hdata, htruthy⟩ := hauth
    simp only [metadataRole]
    cases hadmin : isStr (optProp (optProp user "user_metadata") "role") "admin" with
    | false =>
      simp [run, updateUserRoleHandler, hm, hh, headerMissing, hne, St.init, hget, hdata,
        htruthy, hadmin]
    | true =>
      cases hj : req.json with
      | error e =>
        simp [run, updateUserRoleHandler, hm, hh, headerMissing, hne, St.init, hget, hdata,
          htruthy, hadmin, hj]
      | ok body =>
        rcases getProp_cases body with ⟨e, hb⟩ | hb
        · simp [run, updateUserRoleHandler, hm, hh, headerMissing, hne, St.init, hget, hdata,
            htruthy, hadmin, hj, hb]
        · simp [run, updateUserRoleHandler, hm, hh, headerMissing, hne, St.init, hget, hdata,
            htruthy, hadmin, hj, hb]
          repeat' (split <;> simp_all)

/-- C7, witness: the same role update run with and without the override flag in
`localStorage`, and the viewer `u1` posting to the handler. -/
theorem override_does_not_reach_server_witness :
    sentRequests (updateUserRole (.str "u2") (.str "admin") .null edgeDeniedWorld
        (St.browser [("admin_override", "true")] [])).2.trace =
      sentRequests (updateUserRole (.str "u2") (.str "admin") .null edgeDeniedWorld
        (St.browser [] [])).2.trace ∧
    (statusOf (run (updateUserRoleHandler (bearerReq "POST" (.obj [])))
        (simpleWorld "u1" "viewer" "viewer")) = some 403 ↔
      isStr (metadataRole (userRecord "u1" "viewer")) "admin" = false) := by
  have h := override_does_not_reach_server edgeDeniedWorld (.str "u2") (.str "admin") .null
    [("admin_override", "true")] [] [] []
    (fun key hkey => by
      have hk : (key == "admin_override") = false := by simpa using hkey
      simp [List.lookup, hk])
  have h2 := override_does_not_reach_server (simpleWorld "u1" "viewer" "viewer") (.str "u2")
    (.str "admin") .null [] [] [] [] (fun _ _ => rfl)
  exact ⟨h.1.2, h2.2.2 (bearerReq "POST" (.obj [])) "Bearer tok"
    (.obj [("user", userRecord "u1" "viewer")]) (userRecord "u1" "viewer")
    ⟨rfl, by decide, rfl, rfl, rfl⟩ (by decide)⟩

/-! ## C8 and C9: the admin-override helpers -/

theorem lookup_filter_ne (key : String) (storage : List (String × String)) :
    (storage.filter fun p => p.1 != key).lookup key = none := by
  induction storage with
  | nil => rfl
  | cons p rest ih =>
    obtain ⟨a, b⟩ := p
    rw [List.filter_cons]
    split
    · rename_i h
      have h2 : (key == a) = false := by
        simp only [bne_iff_ne, ne_eq] at h
        simpa using fun h3 => h h3.symm
      rw [List.lookup_cons, h2]
      exact ih
    · exact ih

theorem lookupField_setField_same (fields : List (String × Val)) (key : String) (v : Val) :
    lookupField (setField fields key v) key = v := by
  induction fields with
  | nil => simp [setField, lookupField]
  | cons p rest ih =>
    obtain ⟨k, x⟩ := p
    by_cases h : k = key
    · simp [setField, lookupField, h]
    · simp [setField, lookupField, h, ih]

theorem lookupField_setField_other (fields : List (String × Val)) (key other : String)
    (v : Val) (hne : other ≠ key) :
    lookupField (setField fields key v) other = lookupField fields other := by
  induction fields with
  | nil => simp [setField, lookupField, Ne.symm hne]
  | cons p rest ih =>
    obtain ⟨k, x⟩ := p
    by_cases h : k = key
    · subst h
      simp [setField, lookupField, Ne.symm hne]
    · by_cases h2 : k = other
      · subst h2
        simp [setField, lookupField, h]
      · simp [setField, lookupField, h, h2, ih]

/-- C8: for every user value `u` and every state of `localStorage`, `hasAdminOverride()` is
true exactly when the value stored under `admin_override` is the string `true`;
`ensureAdminRights(u)` is `forceAdminRights(u)` in that case and otherwise returns `u` itself,
leaving the state unchanged; after `removeAdminOverride()` the flag reads false and
`ensureAdminRights` returns its argument unchanged. -/
theorem ensureAdminRights_spec (w : World) (s : St) (u : UserVal) :
    hasAdminOverride w s =
        (.ok (decide (s.storage.lookup "admin_override" = some "true")), s) ∧
      ensureAdminRights u w s =
        (if s.storage.lookup "admin_override" = some "true" then forceAdminRights u w s
          else (.ok u, s)) ∧
      (removeAdminOverride >>= fun _ => hasAdminOverride) w s =
        (.ok false, (removeAdminOverride w s).2) ∧
      (removeAdminOverride >>= fun _ => ensureAdminRights u) w s =
        (.ok u, (removeAdminOverride w s).2) := by
  have hhas : ∀ t : St, hasAdminOverride w t =
      (.ok (decide (t.storage.lookup "admin_override" = some "true")), t) := by
    intro t
    simp [hasAdminOverride, getItem, beq_eq_decide]
  have hens : ∀ t : St, ensureAdminRights u w t =
      (if t.storage.lookup "admin_override" = some "true" then forceAdminRights u w t
        else (.ok u, t)) := by
    intro t
    simp only [ensureAdminRights, bind_run, hhas, bindR_ok]
    by_cases h : t.storage.lookup "admin_override" = some "true" <;> simp [h]
  refine ⟨hhas s, hens s, ?_, ?_⟩
  · simp [removeAdminOverride, removeItem, hhas, lookup_filter_ne]
  · simp [removeAdminOverride, removeItem, hens, lookup_filter_ne]

/-- C9: `forceAdminRights` of a falsy user (`null` included) returns `null` and changes
nothing; for a user object `u` (a reference `addr` to the fields `fields` on the heap) it
returns a reference to a newly allocated object whose `role` is `'admin'`, whose `permissions`
is `['all']` and whose every other field reads as in `u`, while every object that existed
before, `u` included, is left as it was. -/
theorem forceAdminRights_spec (w : World) (s : St) :
    (∀ u : UserVal, u.truthy = false → forceAdminRights u w s = (.ok (.prim .null), s)) ∧
    (∀ (addr : Nat) (fields : List (String × Val)), s.heap[addr]? = some fields →
      ∃ copy, forceAdminRights (.ref addr) w s =
          (.ok (.ref s.heap.length), { s with heap := s.heap ++ [copy] }) ∧
        addr ≠ s.heap.length ∧
        lookupField copy "role" = .str "admin" ∧
        lookupField copy "permissions" = .arr [.str "all"] ∧
        (∀ key, key ≠ "role" → key ≠ "permissions" →
          lookupField copy key = lookupField fields key) ∧
        (∀ a, a < s.heap.length → (s.heap ++ [copy])[a]? = s.heap[a]?)) := by
  constructor
  · intro u hu
    simp [forceAdminRights, hu]
  · intro addr fields hfields
    have hlt : addr < s.heap.length := by
      rcases Nat.lt_or_ge addr s.heap.length with h | h
      · exact h
      · rw [List.getElem?_eq_none h] at hfields
        exact Option.noConfusion hfields
    refine ⟨setField (setField fields "role" (.str "admin")) "permissions" (.arr [.str "all"]),
      ?_, Nat.ne_of_lt hlt, ?_, ?_, ?_, ?_⟩
    · simp [forceAdminRights, UserVal.truthy, spreadUser, allocObject, List.getD, hfields]
    · rw [lookupField_setField_other _ _ _ _ (by decide), lookupField_setField_same]
    · rw [lookupField_setField_same]
    · intro key h1 h2
      rw [lookupField_setField_other _ _ _ _ h2, lookupField_setField_other _ _ _ _ h1]
    · intro a ha
      exact List.getElem?_append_left ha

/-- C9, witness: a heap holding the viewer `u1`; the forced copy is a new object at address 1
and the original at address 0 is unchanged. -/
theorem forceAdminRights_spec_witness :
    (forceAdminRights (.ref 0) (simpleWorld "u1" "viewer" "viewer")
        (St.browser [] [[("id", .str "u1"), ("role", .str "viewer")]])).1 = .ok (.ref 1) ∧
      (forceAdminRights (.ref 0) (simpleWorld "u1" "viewer" "viewer")
        (St.browser [] [[("id", .str "u1"), ("role", .str "viewer")]])).2.heap[0]? =
        some [("id", .str "u1"), ("role", .str "viewer")] := by
  obtain ⟨copy, h1, -, -, -, -, h6⟩ :=
    (forceAdminRights_spec (simpleWorld "u1" "viewer" "viewer")
      (St.browser [] [[("id", .str "u1"), ("role", .str "viewer")]])).2 0
      [("id", .str "u1"), ("role", .str "viewer")] rfl
  rw [h1]
  exact ⟨rfl, h6 0 (by decide)⟩

/-! ## C10: the data-access helpers of `supabaseUtils.js` -/

theorem asArray_error (v : Val) (e : JSErr) (h : asArray v = .error e) :
    ∃ what, e = typeError what := by
  cases v <;> simp [asArray] at h <;> exact ⟨_, h.symm⟩

theorem numberPositive_error (v : Val) (e : JSErr) (h : numberPositive v = .error e) :
    ∃ what, e = typeError what := by
  cases v <;> simp only [numberPositive] at h <;> try (simp at h)
  case obj fields =>
    split at h
    · simp only [Except.error.injEq] at h
      exact ⟨_, h.symm⟩
    · simp at h

theorem lengthPositive_error (v : Val) (e : JSErr) (h : lengthPositive v = .error e) :
    ∃ what, e = typeError what := by
  cases v <;> simp [lengthPositive] at h
  case undefined => exact ⟨_, h.symm⟩
  case null => exact ⟨_, h.symm⟩
  case obj fields => exact numberPositive_error _ e h

theorem assignProp_error (v : Val) (key : String) (x : Val) (e : JSErr)
    (h : assignProp v key x = .error e) : ∃ what, e = typeError what := by
  cases v <;> simp [assignProp] at h <;> exact ⟨_, h.symm⟩

theorem taskRecord_error (lead : List (String × Val)) (task : Val) (e : JSErr)
    (h : taskRecord lead task = .error e) : ∃ what, e = typeError what := by
  rcases getProp_cases task with ⟨what, hb⟩ | hb
  · simp [taskRecord, hb, bind, Except.bind] at h
    exact ⟨what, h.symm⟩
  · simp [taskRecord, hb, bind, Except.bind] at h

theorem mapItems_taskRecord_error (lead : List (String × Val)) (items : List Val) (e : JSErr)
    (h : mapItems (taskRecord lead) items = .error e) : ∃ what, e = typeError what := by
  induction items generalizing e with
  | nil => simp [mapItems] at h
  | cons x rest ih =>
    cases hx : taskRecord lead x with
    | error e1 =>
      simp [mapItems, hx, bind, Except.bind] at h
      subst h
      exact taskRecord_error lead x _ hx
    | ok y =>
      cases hr : mapItems (taskRecord lead) rest with
      | error e2 =>
        simp [mapItems, hx, hr, bind, Except.bind] at h
        subst h
        exact ih _ hr
      | ok ys => simp [mapItems, hx, hr, bind, Except.bind] at h

theorem createMaintenanceTask_settled (w : World) (taskData : Val) :
    Settled saveFailed (run (createMaintenanceTask taskData) w) := by
  rcases getProp_cases taskData with ⟨what, hb⟩ | hb
  · simp [run, St.init, createMaintenanceTask, hb, Settled, Raised, lastOutcome]
  · simp only [run, St.init, createMaintenanceTask, hb]
    by_cases hid : truthy (optProp taskData "id") = true
    · simp [hid]
      repeat' (split <;> simp_all [Settled, Raised, lastOutcome, saveFailed])
      all_goals exact Or.inr ⟨_, _, ⟨rfl, rfl⟩, rfl⟩
    · cases ha : assignProp taskData "id" (.str ("TASK-" ++ toString (w.millisNow 0))) with
      | error e =>
        obtain ⟨what, rfl⟩ := assignProp_error _ _ _ _ ha
        simp [hid, ha, Settled, Raised, lastOutcome]
      | ok v =>
        simp [hid, ha]
        repeat' (split <;> simp_all [Settled, Raised, lastOutcome, saveFailed])
        all_goals exact Or.inr ⟨_, _, ⟨rfl, rfl⟩, rfl⟩

theorem updateMaintenanceTask_settled (w : World) (taskId updates : Val) :
    Settled id (run (updateMaintenanceTask taskId updates) w) := by
  simp [run, St.init, updateMaintenanceTask]
  repeat' (split <;> simp_all [Settled, Raised, lastOutcome])

theorem deleteMaintenanceTask_settled (w : World) (taskId : Val) :
    Settled id (run (deleteMaintenanceTask taskId) w) := by
  simp [run, St.init, deleteMaintenanceTask]
  repeat' (split <;> simp_all [Settled, Raised, lastOutcome])

theorem fetchMaintenanceTasks_settled (w : World) (filters limit : Val) :
    Settled id (run (fetchMaintenanceTasks filters limit) w) := by
  rcases getProp_cases (withDefault filters (.obj [])) with ⟨what, hb⟩ | hb
  · simp [run, St.init, fetchMaintenanceTasks, hb, Settled, Raised, lastOutcome]
  · simp [run, St.init, fetchMaintenanceTasks, hb]
    repeat' (split <;> simp_all [Settled, Raised, lastOutcome])

theorem fetchHandoverNotes_settled (w : World) (filters limit : Val) :
    Settled id (run (fetchHandoverNotes filters limit) w) := by
  rcases getProp_cases (withDefault filters (.obj [])) with ⟨what, hb⟩ | hb
  · simp [run, St.init, fetchHandoverNotes, hb, Settled, Raised, lastOutcome]
  · simp [run, St.init, fetchHandoverNotes, hb]
    repeat' (split <;> simp_all [Settled, Raised, lastOutcome])

theorem fetchMaintenanceReports_settled (w : World) (filters limit : Val) :
    Settled id (run (fetchMaintenanceReports filters limit) w) := by
  rcases getProp_cases (withDefault filters (.obj [])) with ⟨what, hb⟩ | hb
  · simp [run, St.init, fetchMaintenanceReports, hb, Settled, Raised, lastOutcome]
  · simp [run, St.init, fetchMaintenanceReports, hb]
    repeat' (split <;> simp_all [Settled, Raised, lastOutcome])

theorem fetchShifts_settled (w : World) : Settled id (run fetchShifts w) := by
  simp [run, St.init, fetchShifts]
  repeat' (split <;> simp_all [Settled, Raised, lastOutcome])

theorem fetchAreas_settled (w : World) : Settled id (run fetchAreas w) := by
  simp [run, St.init, fetchAreas]
  repeat' (split <;> simp_all [Settled, Raised, lastOutcome])

theorem fetchLocations_settled (w : World) (areaId : Val) :
    Settled id (run (fetchLocations areaId) w) := by
  simp [run, St.init, fetchLocations]
  repeat' (split <;> simp_all [Settled, Raised, lastOutcome])

theorem fetchFittings_settled (w : World) (areaId : Val) :
    Settled id (run (fetchFittings areaId) w) := by
  simp [run, St.init, fetchFittings]
  repeat' (split <;> simp_all [Settled, Raised, lastOutcome])

theorem saveMaintenanceReport_settled (w : World) (reportData : Val) :
    Settled id (run (saveMaintenanceReport reportData) w) := by
  simp only [run, St.init, saveMaintenanceReport, tryCatchJS_run, bind_run, await_run]
  split
  · simp [Settled, Raised, lastOutcome]
  · rename_i d e hget
    rcases getProp_cases d with ⟨what, hd⟩ | hd
    · simp [hd, Settled, Raised, lastOutcome]
    · rcases getProp_cases reportData with ⟨what, hb⟩ | hb
      · simp [hd, hb, Settled, Raised, lastOutcome]
      · simp [hd, hb]
        repeat' (split <;> simp_all [Settled, Raised, lastOutcome])

theorem catchR_cases {α : Type} (P : Except JSErr α × St → Prop) (r : Except JSErr α × St)
    (handler : JSErr → Eff α) (w : World) (hok : ∀ a s, r = (.ok a, s) → P (.ok a, s))
    (herr : ∀ e s, P (handler e w s)) : P (catchR r handler w) := by
  obtain ⟨x, s⟩ := r
  cases x with
  | ok a => exact hok a s rfl
  | error e => exact herr e s

theorem noteRecord_cases (noteData : Val) :
    (∃ what, ∀ id, noteRecord id noteData = .error (typeError what)) ∨
      (∀ id, ∃ note, noteRecord id noteData = .ok note) := by
  rcases getProp_cases noteData with ⟨what, hb⟩ | hb
  · exact Or.inl ⟨what, fun id => by simp [noteRecord, hb, bind, Except.bind]⟩
  · exact Or.inr fun id => ⟨_, by simp [noteRecord, hb, bind, Except.bind]; rfl⟩

theorem createHandoverNoteFallback_settled (w : World) (s : St) (noteData tasks : Val) :
    SettledNote (createHandoverNoteFallback noteData tasks w s) := by
  simp only [createHandoverNoteFallback, tryCatchJS_run, bind_run, uuidv4_run, bindR_ok,
    liftE_run]
  rcases noteRecord_cases noteData with ⟨what, hn⟩ | hn
  · simp [hn, SettledNote, Raised]
  · obtain ⟨note, hnote⟩ := hn (w.uuid s.draws)
    simp only [hnote, bindR_ok, await_run, bind_run]
    split
    · simp [SettledNote, Raised, lastOutcome]
    · rename_i d err hins
      cases err with
      | some e => simp [SettledNote, Raised, lastOutcome]
      | none =>
        simp only [bindR_ok, liftE_run, bind_run]
        cases hlen : lengthPositive tasks with
        | error e =>
          obtain ⟨what, rfl⟩ := lengthPositive_error _ _ hlen
          simp [SettledNote, Raised]
        | ok anyTasks =>
          cases anyTasks with
          | false => simp [SettledNote, lastOutcome]
          | true =>
            simp only [bindR_ok, liftE_run, bind_run, if_true]
            cases harr : asArray tasks with
            | error e =>
              obtain ⟨what, rfl⟩ := asArray_error _ _ harr
              simp [SettledNote, Raised]
            | ok items =>
              cases hmap : mapItems (taskRecord [("handover_id", .str (w.uuid s.draws))])
                items with
              | error e =>
                obtain ⟨what, rfl⟩ := mapItems_taskRecord_error _ _ _ hmap
                simp [hmap, SettledNote, Raised]
              | ok rows =>
                simp only [hmap, bind_run, bindR_ok, bindR_error, liftE_run, await_run,
                  pure_run, throwJS_run, catchR_ok, catchR_error]
                split
                · simp [SettledNote, Raised, lastOutcome]
                · rename_i d2 err2 hins2
                  cases err2 with
                  | some e => simp [SettledNote, Raised, lastOutcome]
                  | none =>
                    simp only [SettledNote, pure_run, bindR_ok, catchR_ok]
                    refine ⟨_, rfl, Or.inl ⟨rfl, Or.inr ⟨s.trace,
                      .query "handover_notes" [.insert (.arr [note]), .select "*"],
                      .query "handover_tasks" [.insert (.arr rows)], d2, ?_, rfl, rfl⟩⟩⟩
                    simp

theorem createHandoverNote_settled (w : World) (noteData tasks : Val) :
    SettledNote (run (createHandoverNote noteData tasks) w) := by
  simp only [run, createHandoverNote, tryCatchJS_run]
  apply catchR_cases
  · intro res s1 hres
    simp only [bind_run, uuidv4_run, bindR_ok, liftE_run] at hres
    cases hnote : noteRecord (w.uuid St.init.draws) noteData with
    | error e => simp [hnote] at hres
    | ok note =>
      cases harr : asArray (withDefault tasks (.arr [])) with
      | error e => simp [hnote, harr] at hres
      | ok items =>
        cases hmap : mapItems (taskRecord []) items with
        | error e => simp [hnote, harr, hmap] at hres
        | ok rows =>
          simp only [hnote, harr, hmap, bind_run, bindR_ok, bindR_error, liftE_run, await_run,
            pure_run, throwJS_run] at hres
          split at hres
          · simp at hres
          · rename_i d err hrpc
            cases err with
            | some e => simp at hres
            | none =>
              simp at hres
              obtain ⟨rfl, rfl⟩ := hres
              simp [SettledNote, lastOutcome, St.init]
  · intro e s1
    exact createHandoverNoteFallback_settled w s1 noteData _

/-- C10, counterexample: `createHandoverNote` with one task on a backend without the remote
procedure.  The fallback inserts the note and then the task row; the result carries the data
of the note insert although the last remote call, the insert of the task row, returned `null`,
so `data` is not the data returned by the last remote call. -/
theorem createHandoverNote_data_not_from_last_call :
    (run (createHandoverNote (.obj [("shift", .str "A")]) (.arr [.obj [("id", .str "T1")]]))
        noProcedureWorld).1 = .ok ⟨.arr [.obj [("id", .str "n1")]], none⟩ ∧
      lastOutcome (run (createHandoverNote (.obj [("shift", .str "A")])
        (.arr [.obj [("id", .str "T1")]])) noProcedureWorld).2.trace =
        some (.resolved .null none) ∧
      ¬ Settled id (run (createHandoverNote (.obj [("shift", .str "A")])
        (.arr [.obj [("id", .str "T1")]])) noProcedureWorld) := by
  have h1 : (run (createHandoverNote (.obj [("shift", .str "A")])
      (.arr [.obj [("id", .str "T1")]])) noProcedureWorld).1 =
      .ok ⟨.arr [.obj [("id", .str "n1")]], none⟩ := rfl
  have h2 : lastOutcome (run (createHandoverNote (.obj [("shift", .str "A")])
      (.arr [.obj [("id", .str "T1")]])) noProcedureWorld).2.trace =
      some (.resolved .null none) := rfl
  refine ⟨h1, h2, ?_⟩
  rintro ⟨res, hres, hcase⟩
  rw [h1] at hres
  cases hres
  rw [h2] at hcase
  simp at hcase

/-- C10, amended: every data-access helper exported by `supabaseUtils.js` never throws to its
caller, for any arguments and any remote outcome, and resolves to `{ data, error }` where
either `error` is `null` and `data` is the data returned by the last remote call (for
`createHandoverNote` after its fallback: the data returned by the insert into
`handover_notes`, which the insert of the task rows may follow), or `data` is `null` and
`error` is the non-null error that was returned or thrown. -/
theorem helpers_settle (w : World) (a b : Val) :
    Settled id (run (fetchMaintenanceTasks a b) w) ∧
      Settled saveFailed (run (createMaintenanceTask a) w) ∧
      Settled id (run (updateMaintenanceTask a b) w) ∧
      Settled id (run (deleteMaintenanceTask a) w) ∧
      Settled id (run (fetchHandoverNotes a b) w) ∧
      SettledNote (run (createHandoverNote a b) w) ∧
      Settled id (run fetchShifts w) ∧
      Settled id (run fetchAreas w) ∧
      Settled id (run (fetchLocations a) w) ∧
      Settled id (run (fetchFittings a) w) ∧
      Settled id (run (saveMaintenanceReport a) w) ∧
      Settled id (run (fetchMaintenanceReports a b) w) :=
  ⟨fetchMaintenanceTasks_settled w a b, createMaintenanceTask_settled w a,
    updateMaintenanceTask_settled w a b, deleteMaintenanceTask_settled w a,
    fetchHandoverNotes_settled w a b, createHandoverNote_settled w a b,
    fetchShifts_settled w, fetchAreas_settled w, fetchLocations_settled w a,
    fetchFittings_settled w a, saveMaintenanceReport_settled w a,
    fetchMaintenanceReports_settled w a b⟩

/-! ## C11: the remote procedure and the fallback of `createHandoverNote` -/

theorem getProp_of_not_nullish (v : Val) (key : String) (h : nullish v = false) :
    getProp v key = .ok (optProp v key) := by
  cases v <;> simp_all [nullish, getProp, optProp]

theorem noteRecord_ok (id : String) (noteData : Val) (h : nullish noteData = false) :
    ∃ note, noteRecord id noteData = .ok note := by
  simp [noteRecord, getProp_of_not_nullish _ _ h, bind, Except.bind]

theorem mapItems_taskRecord_ok (lead : List (String × Val)) (items : List Val)
    (h : ∀ t ∈ items, nullish t = false) :
    ∃ rows, mapItems (taskRecord lead) items = .ok rows := by
  induction items with
  | nil => exact ⟨[], rfl⟩
  | cons x rest ih =>
    obtain ⟨rows, hrows⟩ := ih fun t ht => h t (List.mem_cons_of_mem _ ht)
    have hx := h x (List.mem_cons_self _ _)
    simp [mapItems, taskRecord, getProp_of_not_nullish _ _ hx, hrows, bind, Except.bind]

theorem createHandoverNoteFallback_trace (w : World) (s : St) (noteData : Val)
    (items : List Val) (h : nullish noteData = false) (hall : ∀ t ∈ items, nullish t = false) :
    ∃ note rows, noteRecord (w.uuid s.draws) noteData = .ok note ∧
      mapItems (taskRecord [("handover_id", .str (w.uuid s.draws))]) items = .ok rows ∧
      (createHandoverNoteFallback noteData (.arr items) w s).2.trace =
        s.trace ++ .call (noteInsert note) (w.remote s.trace (noteInsert note)) ::
          (if (w.remote s.trace (noteInsert note)).succeeded && !items.isEmpty then
            [.call (tasksInsert rows) (w.remote
              (s.trace ++ [.call (noteInsert note) (w.remote s.trace (noteInsert note))])
              (tasksInsert rows))]
          else []) := by
  obtain ⟨note, hnote⟩ := noteRecord_ok (w.uuid s.draws) noteData h
  obtain ⟨rows, hrows⟩ := mapItems_taskRecord_ok [("handover_id", .str (w.uuid s.draws))]
    items hall
  refine ⟨note, rows, hnote, hrows, ?_⟩
  simp only [createHandoverNoteFallback, tryCatchJS_run, bind_run, uuidv4_run, bindR_ok,
    liftE_run, hnote, await_run, noteInsert, tasksInsert]
  cases hsaved : w.remote s.trace (.query "handover_notes" [.insert (.arr [note]),
    .select "*"]) with
  | rejected e => simp [Outcome.succeeded]
  | resolved d err =>
    cases err with
    | some e => simp [Outcome.succeeded]
    | none =>
      cases items with
      | nil => simp [Outcome.succeeded, lengthPositive]
      | cons t rest =>
        simp only [bindR_ok, liftE_run, bind_run, lengthPositive, List.length_cons,
          Nat.zero_lt_succ, decide_True, if_true, asArray, hrows, await_run,
          Outcome.succeeded, List.isEmpty_cons, Bool.not_false, Bool.and_self]
        cases w.remote (s.trace ++ [.call (.query "handover_notes" [.insert (.arr [note]),
          .select "*"]) (.resolved d none)]) (.query "handover_tasks" [.insert (.arr rows)]) with
        | rejected e2 => simp
        | resolved d2 err2 => cases err2 <;> simp

/-- C11: for arguments of the documented types, `createHandoverNote` first issues the remote
procedure call `create_handover_with_tasks` with the note and the task rows, and it is the
only remote procedure call of the run.  When that call answers without an error nothing else
is done and its data is the result with a null error.  In the two other cases, an error answer
or a rejection, and only then, the two-step fallback runs: the note is inserted into
`handover_notes`, and the task rows are then inserted into `handover_tasks`, this second step
being made exactly when the note insert returned no error and there are tasks. -/
theorem createHandoverNote_rpc_then_fallback (w : World) (noteData tasks : Val)
    (items : List Val) (hwf : WellFormedNote noteData tasks items) :
    ∃ note rows, noteRecord (w.uuid 0) noteData = .ok note ∧
      mapItems (taskRecord []) items = .ok rows ∧
      ∃ rest, (run (createHandoverNote noteData tasks) w).2.trace =
          .call (.rpc "create_handover_with_tasks"
            (.obj [("note_data", note), ("tasks_data", .arr rows)]))
            (w.remote [] (.rpc "create_handover_with_tasks"
              (.obj [("note_data", note), ("tasks_data", .arr rows)]))) :: rest ∧
        rest.all (fun ev => !ev.isRpc) = true ∧
        (∀ data, w.remote [] (.rpc "create_handover_with_tasks"
            (.obj [("note_data", note), ("tasks_data", .arr rows)])) = .resolved data none →
          rest = [] ∧ (run (createHandoverNote noteData tasks) w).1 = .ok ⟨data, none⟩) ∧
        ((∀ data, w.remote [] (.rpc "create_handover_with_tasks"
            (.obj [("note_data", note), ("tasks_data", .arr rows)])) ≠ .resolved data none) →
          ∃ fallbackNote fallbackRows saved,
            noteRecord (w.uuid 1) noteData = .ok fallbackNote ∧
            mapItems (taskRecord [("handover_id", .str (w.uuid 1))]) items =
              .ok fallbackRows ∧
            rest = .call (noteInsert fallbackNote) saved ::
              (if saved.succeeded && !items.isEmpty then
                [.call (tasksInsert fallbackRows) (w.remote
                  [.call (.rpc "create_handover_with_tasks"
                    (.obj [("note_data", note), ("tasks_data", .arr rows)]))
                    (w.remote [] (.rpc "create_handover_with_tasks"
                      (.obj [("note_data", note), ("tasks_data", .arr rows)]))),
                    .call (noteInsert fallbackNote) saved] (tasksInsert fallbackRows))]
              else [])) := by
  obtain ⟨hnote, hitems, hall⟩ := hwf
  obtain ⟨note, hrec⟩ := noteRecord_ok (w.uuid 0) noteData hnote
  obtain ⟨rows, hrows⟩ := mapItems_taskRecord_ok [] items hall
  refine ⟨note, rows, hrec, hrows, ?_⟩
  have hfb := fun o => createHandoverNoteFallback_trace w
    ⟨[.call (.rpc "create_handover_with_tasks"
      (.obj [("note_data", note), ("tasks_data", .arr rows)])) o], 1, [], []⟩
    noteData items hnote hall
  have noRpc : ∀ (n : Val) (o : Outcome) (tail : List Event),
      (tail = [] ∨ ∃ r o2, tail = [.call (tasksInsert r) o2]) →
      (Event.call (noteInsert n) o :: tail).all (fun ev => !ev.isRpc) = true := by
    rintro n o tail (h | ⟨r, o2, h⟩) <;> subst h <;> simp [noteInsert, tasksInsert, Event.isRpc]
  simp only [run, St.init, createHandoverNote, hitems, tryCatchJS_run, bind_run, uuidv4_run,
    bindR_ok, liftE_run, hrec, asArray, hrows, await_run, List.nil_append]
  cases hfirst : w.remote [] (.rpc "create_handover_with_tasks"
    (.obj [("note_data", note), ("tasks_data", .arr rows)])) with
  | rejected e =>
    obtain ⟨n2, r2, hn2, hr2, htrace⟩ := hfb (.rejected e)
    simp only [List.singleton_append] at htrace
    simp only [bindR_error, catchR_error, Nat.zero_add]
    refine ⟨_, htrace, ?_, ?_, ?_⟩
    · apply noRpc
      split
      · exact Or.inr ⟨_, _, rfl⟩
      · exact Or.inl rfl
    · intro data hdata
      simp at hdata
    · intro _
      exact ⟨n2, r2, _, hn2, hr2, rfl⟩
  | resolved d err =>
    cases err with
    | none =>
      refine ⟨[], by simp, rfl, ?_, ?_⟩
      · intro data hdata
        simp only [Outcome.resolved.injEq, and_true] at hdata
        subst hdata
        simp
      · intro hne
        exact absurd rfl (hne d)
    | some e =>
      obtain ⟨n2, r2, hn2, hr2, htrace⟩ := hfb (.resolved d (some e))
      simp only [List.singleton_append] at htrace
      simp only [bindR_ok, throwJS_run, catchR_error, Nat.zero_add]
      refine ⟨_, htrace, ?_, ?_, ?_⟩
      · apply noRpc
        split
        · exact Or.inr ⟨_, _, rfl⟩
        · exact Or.inl rfl
      · intro data hdata
        simp at hdata
      · intro _
        exact ⟨n2, r2, _, hn2, hr2, rfl⟩

/-- C11, witness: a note with one task on a backend without the stored procedure; the
remote procedure call is followed by the insert of the note and the insert of its task. -/
theorem createHandoverNote_rpc_then_fallback_witness :
    WellFormedNote (.obj [("shift", .str "night")]) (.arr [.obj [("title", .str "check")]])
        [.obj [("title", .str "check")]] ∧
      ((run (createHandoverNote (.obj [("shift", .str "night")])
        (.arr [.obj [("title", .str "check")]])) noProcedureWorld).2.trace.map
          fun ev => ev.isRpc) = [true, false, false] := by
  have hwf : WellFormedNote (.obj [("shift", .str "night")])
      (.arr [.obj [("title", .str "check")]]) [.obj [("title", .str "check")]] := by
    simp [WellFormedNote, withDefault, nullish]
  obtain ⟨note, rows, -, -, rest, htrace, -, -, hfall⟩ :=
    createHandoverNote_rpc_then_fallback noProcedureWorld _ _ _ hwf
  obtain ⟨n2, r2, saved, -, -, hrest⟩ := hfall (fun data h => by simp [noProcedureWorld] at h)
  refine ⟨hwf, ?_⟩
  rfl

/-! ## C12: the client function `updateUserRole` -/

theorem edgeFailed_of_success (result : Val) (h : truthy (optProp result "success") = true) :
    edgeFailed true result = .ok false := by
  cases result <;> simp_all [edgeFailed, optProp, getProp, truthy, bind, Except.bind]

theorem truthy_withDefault_null (v : Val) : truthy (withDefault v .null) = truthy v := by
  cases v <;> rfl

theorem withDefault_of_truthy (v dflt : Val) (h : truthy v = true) : withDefault v dflt = v := by
  cases v <;> simp_all [withDefault, truthy]

theorem roleUpdateBody_eq (userId role shift : Val) :
    Val.obj (if truthy (withDefault shift .null) = true then
        [("userId", userId), ("role", role)] ++ [("shift", withDefault shift .null)]
      else [("userId", userId), ("role", role)]) = roleUpdateBody userId role shift := by
  by_cases h : truthy shift = true
  · simp [roleUpdateBody, truthy_withDefault_null, withDefault_of_truthy _ _ h, h]
  · simp [roleUpdateBody, truthy_withDefault_null, h]

/-- C12: `updateUserRole(userId, role, shift)` first reads the session.  Without an access
token it returns the failure "Authentication required" and sends no request.  With a token
it sends one request to the `update_user_role` endpoint; when the endpoint answers ok with a
truthy `success` the result is success with a null error, and what follows the request is
exactly a run of `updateUserShift(userId, shift)` when `shift` is truthy and nothing
otherwise; for every other answer the result is a failure and nothing follows the request. -/
theorem updateUserRole_spec (w : World) (userId role shift data : Val) (err : Option JSErr)
    (hsession : w.remote [] .getSession = .resolved data err) :
    let out := run (updateUserRole userId role shift) w
    let first := Event.call .getSession (.resolved data err)
    let req := roleUpdateRequest (accessToken data) userId role shift
    let answer := w.http [first] req
    (truthy (accessToken data) = false →
      out.1 = .ok ⟨false, .str "Authentication required"⟩ ∧ sentRequests out.2.trace = []) ∧
    (truthy (accessToken data) = true → answeredSuccess answer = true →
      out.1 = .ok ⟨true, .null⟩ ∧
      out.2 = if truthy shift then
          (updateUserShift userId shift w (St.after [first, .fetch req answer])).2
        else St.after [first, .fetch req answer]) ∧
    (truthy (accessToken data) = true → answeredSuccess answer = false →
      (∃ error, out.1 = .ok ⟨false, error⟩) ∧ out.2 = St.after [first, .fetch req answer]) := by
  intro out first req answer
  refine ⟨?_, ?_, ?_⟩
  · intro htoken
    simp [out, run, St.init, updateUserRole, hsession, htoken, sentRequests]
  · intro htoken hanswer
    obtain ⟨result, hhttp, hsucc⟩ : ∃ result, w.http [first] req = .response true (.ok result) ∧
        truthy (optProp result "success") = true := by
      revert hanswer
      simp only [answer]
      cases w.http [first] req with
      | rejected e => simp [answeredSuccess]
      | response ok json =>
        cases ok <;> cases json <;> simp [answeredSuccess]
    simp only [roleUpdateRequest, first, req] at hhttp
    have hfail := edgeFailed_of_success result hsucc
    by_cases hs : truthy shift = true
    · simp only [roleUpdateBody, hs, if_true] at hhttp
      simp only [out, answer, first, req, run, St.init, St.after, updateUserRole,
        tryCatchJS_run, bind_run, await_run, hsession, bindR_ok, htoken, Bool.not_true,
        Bool.false_eq_true, if_false, if_true, roleUpdateBody, awaitFetch_run,
        roleUpdateRequest, hhttp, liftE_run, hfail, List.nil_append, List.cons_append,
        withDefault_of_truthy _ _ hs, hs]
      generalize updateUserShift _ _ w _ = res
      obtain ⟨x, s⟩ := res
      cases x <;> simp
    · have hs : truthy shift = false := by simpa using hs
      simp only [roleUpdateBody, hs, Bool.false_eq_true, if_false] at hhttp
      simp [out, answer, first, req, run, St.init, St.after, updateUserRole,
        htoken, hsession, roleUpdateBody, roleUpdateRequest, hhttp, hfail,
        truthy_withDefault_null, hs]
  · intro htoken hanswer
    have hreq : edgePost "app_de8b393e2913418682a1f3ac5249efa2_update_user_role"
        (accessToken data) (.obj (if truthy (withDefault shift .null) = true then
          [("userId", userId), ("role", role)] ++ [("shift", withDefault shift .null)]
        else [("userId", userId), ("role", role)])) = req := by
      simp only [req, roleUpdateRequest, roleUpdateBody_eq]
    simp only [out, run, St.init, St.after, updateUserRole, tryCatchJS_run,
      bind_run, await_run, hsession, bindR_ok, htoken, Bool.not_true,
      Bool.false_eq_true, if_false, awaitFetch_run, List.nil_append, hreq]
    simp only [answer] at hanswer ⊢
    generalize w.http [first] req = ans at hanswer ⊢
    cases ans with
    | rejected e => simp
    | response ok json =>
      cases json with
      | error e => simp
      | ok result =>
        have hfalse : edgeFailed false result = .ok true := rfl
        rcases getProp_cases result with ⟨what, hget⟩ | hget
        · cases ok
          · simp [hfalse, hget, first]
          · have htrue : edgeFailed true result = .error (typeError what) := by
              simp [edgeFailed, hget, bind, Except.bind]
            simp [htrue, first]
        · cases ok
          · simp [hfalse, hget, first]
          · have hno : truthy (optProp result "success") = false := by
              simpa [answeredSuccess] using hanswer
            have htrue : edgeFailed true result = .ok true := by
              simp [edgeFailed, hget, bind, Except.bind, hno]
            simp [htrue, hget, first]

/-- C12, witness: a signed-in admin on a backend whose edge functions succeed; the role
update with shift `A` succeeds. -/
theorem updateUserRole_spec_witness :
    edgeOkWorld.remote [] .getSession = .resolved (sessionData "tok") none ∧
      (run (updateUserRole (.str "u2") (.str "engineer") (.str "A")) edgeOkWorld).1 =
        .ok ⟨true, .null⟩ :=
  ⟨rfl, ((updateUserRole_spec edgeOkWorld (.str "u2") (.str "engineer") (.str "A")
    (sessionData "tok") none rfl).2.1 rfl rfl).1⟩

/-! ## C13: the client function `updateUserShift` -/

/-- C13: `updateUserShift(userId, shift)` with a session token present never throws.  When
the edge function answers ok with a truthy `success`, the request is the last interaction and
the result is success with a null error.  In every other case (the request is rejected, the
status is not ok, the body cannot be read or its `success` is falsy) the direct upsert into
`app_cb8217b8f2_user_shifts` follows, and the result is success with a null error exactly
when that upsert returns without an error. -/
theorem updateUserShift_spec (w : World) (userId shift data : Val) (err : Option JSErr)
    (hsession : w.remote [] .getSession = .resolved data err)
    (htoken : truthy (accessToken data) = true) :
    let out := run (updateUserShift userId shift) w
    let first := Event.call .getSession (.resolved data err)
    let req := shiftUpdateRequest (accessToken data) userId shift
    let answer := w.http [first] req
    let upsert := shiftUpsert userId shift (w.isoNow 0)
    let saved := w.remote [first, .fetch req answer] upsert
    (∃ r, out.1 = .ok r) ∧
    (answeredSuccess answer = true →
      out.1 = .ok ⟨true, .null⟩ ∧ out.2.trace = [first, .fetch req answer]) ∧
    (answeredSuccess answer = false →
      out.2.trace = [first, .fetch req answer, .call upsert saved] ∧
      (out.1 = .ok ⟨true, .null⟩ ↔ ∃ d, saved = .resolved d none)) := by
  intro out first req answer upsert saved
  simp only [out, run, St.init, updateUserShift, tryCatchJS_run, bind_run, await_run, hsession,
    bindR_ok, htoken, Bool.not_true, Bool.false_eq_true, if_false, awaitFetch_run,
    List.nil_append]
  have hreq : edgePost "app_cb8217b8f2_update_user_shift" (accessToken data)
      (.obj [("userId", userId), ("shift", shift)]) = req := rfl
  have hup : Call.query "app_cb8217b8f2_user_shifts"
      [.upsert (.obj [("user_id", userId), ("shift", shift),
        ("updated_at", .str (w.isoNow 0))]) "user_id"] = upsert := rfl
  simp only [hreq]
  simp only [saved, answer]
  generalize w.http [first] req = ans
  have hfalse : ∀ result, edgeFailed false result = .ok true := fun _ => rfl
  cases ans with
  | rejected e =>
    simp only [bindR_error, catchR_error, bind_run, isoNow_run, bindR_ok, await_run, hup,
      List.cons_append, List.nil_append, answeredSuccess]
    cases hsaved : w.remote [first, .fetch req (.rejected e)] upsert with
    | rejected e2 => simp [first]
    | resolved d e2 => cases e2 <;> simp [first]
  | response ok json =>
    cases json with
    | error e =>
      simp only [bindR_ok, bind_run, liftE_run, bindR_error, catchR_error, isoNow_run,
        await_run, hup, List.cons_append, List.nil_append, answeredSuccess]
      cases hsaved : w.remote [first, .fetch req (.response ok (.error e))] upsert with
      | rejected e2 => cases ok <;> simp [first, answeredSuccess]
      | resolved d e2 => cases ok <;> cases e2 <;> simp [first, answeredSuccess]
    | ok result =>
      by_cases hsucc : answeredSuccess (.response ok (.ok result)) = true
      · have hok : ok = true := by
          cases ok
          · simp [answeredSuccess] at hsucc
          · rfl
        subst hok
        have hfail := edgeFailed_of_success result (by simpa [answeredSuccess] using hsucc)
        simp [hfail, hsucc, first]
      · have hfail : ∃ r, edgeFailed ok result = r ∧ r ≠ .ok false := by
          refine ⟨_, rfl, ?_⟩
          cases ok
          · simp [hfalse]
          · rcases getProp_cases result with ⟨what, hget⟩ | hget
            · simp [edgeFailed, hget, bind, Except.bind]
            · simpa [edgeFailed, hget, bind, Except.bind, answeredSuccess] using hsucc
        obtain ⟨r, hr, hne⟩ := hfail
        have hsucc : answeredSuccess (.response ok (.ok result)) = false := by simpa using hsucc
        simp only [bindR_ok, bind_run, liftE_run, hr, hsucc]
        cases r with
        | error e =>
          simp only [bindR_error, catchR_error, bind_run, isoNow_run, bindR_ok, await_run, hup,
            List.cons_append, List.nil_append]
          cases hsaved : w.remote [first, .fetch req (.response ok (.ok result))] upsert with
          | rejected e2 => simp [first]
          | resolved d e2 => cases e2 <;> simp [first]
        | ok failed =>
          cases failed with
          | false => exact absurd rfl hne
          | true =>
            simp only [bindR_ok, if_true, bind_run, liftE_run]
            cases getProp result "error" <;>
            · simp only [bindR_error, catchR_error, bind_run, isoNow_run, bindR_ok, await_run,
                hup, List.cons_append, List.nil_append, throwJS_run]
              cases hsaved : w.remote [first, .fetch req (.response ok (.ok result))] upsert with
              | rejected e2 => simp [first]
              | resolved d e2 => cases e2 <;> simp [first]

/-- C13, witness: a signed-in client whose edge-function call is refused; the direct upsert
succeeds and so does the call. -/
theorem updateUserShift_spec_witness :
    edgeDeniedWorld.remote [] .getSession = .resolved (sessionData "tok") none ∧
      truthy (accessToken (sessionData "tok")) = true ∧
      (run (updateUserShift (.str "u2") (.str "A")) edgeDeniedWorld).1 = .ok ⟨true, .null⟩ :=
  ⟨rfl, rfl, ((updateUserShift_spec edgeDeniedWorld (.str "u2") (.str "A")
    (sessionData "tok") none rfl rfl).2.2 rfl).2.mpr ⟨.null, rfl⟩⟩

/-! ## C14: the counters of `syncAllUserRoles` -/

theorem tryCatchJS_pure_returns {α : Type} (body : Eff α) (f : JSErr → α) (w : World)
    (s : St) : ∃ a, (tryCatchJS body (fun e => pure (f e)) w s).1 = .ok a := by
  simp only [tryCatchJS_run]
  apply catchR_cases (fun r => ∃ a, r.1 = .ok a)
  · intro a s1 _
    exact ⟨a, rfl⟩
  · intro e s1
    exact ⟨f e, rfl⟩

theorem syncUserRole_returns (userId role : Val) (w : World) (s : St) :
    ∃ r, (syncUserRole userId role w s).1 = .ok r :=
  tryCatchJS_pure_returns _ _ w s

theorem syncUserRole_empty_role (userId role : Val) (w : World) (s : St)
    (h : truthy role = false) :
    (syncUserRole userId role w s).1 = .ok ⟨false, .str "Missing required parameters"⟩ := by
  simp [syncUserRole, h]

theorem syncAllLoop_counts (w : World) (items : List Val)
    (hall : ∀ u ∈ items, nullish u = false) (results : SyncAllResult) (s : St) :
    ∃ r, (syncAllLoop items results w s).1 = .ok r ∧
      r.synced + r.failed = results.synced + results.failed + items.length ∧
      r.errors.length + results.failed = results.errors.length + r.failed ∧
      results.failed + (emptyRoleUsers items).length ≤ r.failed ∧
      r.success = results.success := by
  induction items generalizing results s with
  | nil => exact ⟨results, rfl, rfl, rfl, Nat.le_refl _, rfl⟩
  | cons user rest ih =>
    have huser := hall user (List.mem_cons_self _ _)
    have hrest := fun u hu => hall u (List.mem_cons_of_mem _ hu)
    obtain ⟨r1, hr1⟩ := syncUserRole_returns (optProp user "id") (optProp user "role") w s
    have hempty := syncUserRole_empty_role (optProp user "id") (optProp user "role") w s
    simp only [syncAllLoop, bind_run, tryCatchJS_run, liftE_run,
      getProp_of_not_nullish _ _ huser, bindR_ok]
    generalize syncUserRole (optProp user "id") (optProp user "role") w s = res at hr1 hempty
    obtain ⟨x, s1⟩ := res
    simp only at hr1
    subst hr1
    simp only [bindR_ok]
    by_cases hsucc : r1.success = true
    · simp only [hsucc, if_true, pure_run, catchR_ok, bindR_ok]
      obtain ⟨r, hr, h1, h2, h3, h4⟩ := ih hrest { results with synced := results.synced + 1 } s1
      refine ⟨r, hr, ?_, ?_, ?_, ?_⟩
      · simp only [List.length_cons] at h1 ⊢
        omega
      · simpa using h2
      · have : (emptyRoleUsers (user :: rest)).length = (emptyRoleUsers rest).length := by
          by_cases hrole : truthy (optProp user "role") = true
          · simp [emptyRoleUsers, List.filter_cons, hrole]
          · have := hempty (by simpa using hrole)
            simp only [Except.ok.injEq] at this
            rw [this] at hsucc
            simp at hsucc
        rw [this]
        exact h3
      · exact h4
    · simp only [hsucc, Bool.false_eq_true, if_false, bind_run, liftE_run,
        getProp_of_not_nullish _ _ huser, bindR_ok, pure_run, catchR_ok]
      obtain ⟨r, hr, h1, h2, h3, h4⟩ := ih hrest { results with
        failed := results.failed + 1
        errors := results.errors ++ [.str ("User " ++ (optProp user "id").toJSString ++ ": " ++
          r1.error.toJSString)] } s1
      refine ⟨r, hr, ?_, ?_, ?_, ?_⟩
      · simp only [List.length_cons] at h1 ⊢
        omega
      · simp only [List.length_append, List.length_singleton] at h2
        omega
      · have : (emptyRoleUsers (user :: rest)).length ≤ (emptyRoleUsers rest).length + 1 := by
          simp only [emptyRoleUsers, List.filter_cons]
          split <;> simp
        simp only at h3
        omega
      · exact h4

/-- C14: when the users query of `syncAllUserRoles` returns a list of user rows without an
error, the call returns a result with `synced + failed` equal to the number of rows, as many
`errors` entries as `failed`, `success` true exactly when `failed` is 0, and every row whose
role is empty counted in `failed`.  When the query returns an error the result is
`success: false` with `synced` 0, `failed` 0 and the error message as only entry. -/
theorem syncAllUserRoles_counts (w : World) :
    (∀ items, w.remote [] (.query "users" [.select "id, role"]) = .resolved (.arr items) none →
      (∀ u ∈ items, nullish u = false) →
      ∃ r, (run syncAllUserRoles w).1 = .ok r ∧ r.synced + r.failed = items.length ∧
        r.errors.length = r.failed ∧ (r.success = true ↔ r.failed = 0) ∧
        (emptyRoleUsers items).length ≤ r.failed) ∧
    (∀ data e, w.remote [] (.query "users" [.select "id, role"]) = .resolved data (some e) →
      (run syncAllUserRoles w).1 = .ok ⟨false, 0, 0, [.str e.message]⟩) := by
  refine ⟨?_, ?_⟩
  · intro items hquery hall
    obtain ⟨r, hr, h1, h2, h3, h4⟩ := syncAllLoop_counts w items hall ⟨true, 0, 0, []⟩
      ⟨[.call (.query "users" [.select "id, role"]) (.resolved (.arr items) none)], 0, [], []⟩
    simp only [run, St.init, syncAllUserRoles, tryCatchJS_run, bind_run, await_run, hquery,
      bindR_ok, liftE_run, asArray, List.nil_append]
    generalize syncAllLoop items ⟨true, 0, 0, []⟩ w _ = res at hr
    obtain ⟨x, s1⟩ := res
    simp only at hr
    subst hr
    simp only [List.length_nil, Nat.zero_add, Nat.add_zero] at h1 h2 h3
    by_cases hf : r.failed > 0
    · refine ⟨{ r with success := false }, by simp [hf], h1, h2, ?_, h3⟩
      simp only [Bool.false_eq_true, false_iff]
      omega
    · refine ⟨r, by simp [hf], h1, h2, ?_, h3⟩
      rw [h4]
      simp only [true_iff]
      omega
  · intro data e hquery
    simp [run, St.init, syncAllUserRoles, hquery]

/-- C14, witness: a users table with two rows, one of them without a role; the two rows are
shared between `synced` and `failed`. -/
theorem syncAllUserRoles_counts_witness :
    twoUsersWorld.remote [] (.query "users" [.select "id, role"]) =
        .resolved (.arr [.obj [("id", .str "u1"), ("role", .str "viewer")],
          .obj [("id", .str "u2"), ("role", .null)]]) none ∧
      (∀ u ∈ [Val.obj [("id", .str "u1"), ("role", .str "viewer")],
        .obj [("id", .str "u2"), ("role", .null)]], nullish u = false) ∧
      ((run syncAllUserRoles twoUsersWorld).1.toOption.map
        fun r => r.synced + r.failed) = some 2 := by
  have hall : ∀ u ∈ [Val.obj [("id", .str "u1"), ("role", .str "viewer")],
      .obj [("id", .str "u2"), ("role", .null)]], nullish u = false := by
    simp [nullish]
  obtain ⟨r, hr, hsum, -⟩ := (syncAllUserRoles_counts twoUsersWorld).1 _ rfl hall
  refine ⟨rfl, hall, ?_⟩
  rw [hr]
  simpa [Except.toOption] using hsum

/-! ## C15: the session user of `supabaseAuth.js` -/

theorem getUserAvatar_returns (userId : Val) (w : World) (s : St) :
    ∃ avatar, (getUserAvatar userId w s).1 = .ok avatar :=
  tryCatchJS_pure_returns _ _ w s

theorem syncUserRole_without_role (userId : Val) (w : World) (s : St) :
    syncUserRole userId .undefined w s =
      (.ok ⟨false, .str "Missing required parameters"⟩, s) := by
  simp [syncUserRole, truthy]

theorem permissions_eq_spec (role : Val) :
    (if isStr role "admin" then strings ["all"]
      else if isStr role "shift_leader" then
        strings ["view_tasks", "create_tasks", "assign_tasks", "generate_reports", "view_maps"]
      else if isStr role "engineer" then
        strings ["view_tasks", "create_tasks", "edit_tasks", "view_maps", "generate_reports"]
      else if isStr role "technician" then
        strings ["view_tasks", "update_task_status", "view_maps"]
      else strings ["view_tasks"]) = specPermissions role := by
  cases role <;> simp [isStr, specPermissions]
  rename_i s
  by_cases h1 : s = "admin"
  · subst h1; rfl
  by_cases h2 : s = "shift_leader"
  · subst h2; rfl
  by_cases h3 : s = "engineer"
  · subst h3; rfl
  by_cases h4 : s = "technician"
  · subst h4; rfl
  simp [h1, h2, h3, h4]

/-- C15: for a remote user record whose `email` is a string, `loginWithEmailPassword` (when
the sign-in returns the record without an error) and `getCurrentUser` (when the user lookup
returns the record) both return an object whose `role` is the role reported by
`syncUserRole` when it reports one, else `user_metadata.role` when present, else `viewer`,
whose `permissions` are those the specification lists for that role, and whose `avatar` is
the result of the avatar lookup; when the avatar lookups of the two runs give the same
result the two functions return equal objects. -/
theorem session_user_derivation (w : World) (user : Val) (address : String)
    (email password signedIn current : Val) (err : Option JSErr)
    (hmail : optProp user "email" = .str address) :
    let id := optProp user "id"
    let s1 := St.after [.call (.signInWithPassword email password) (.resolved signedIn none)]
    let s2 := St.after [.call (.getUser none) (.resolved current err)]
    let login := (run (loginWithEmailPassword email password) w).1
    let session := (run getCurrentUser w).1
    let loggedIn := w.remote [] (.signInWithPassword email password) = .resolved signedIn none ∧
      getProp signedIn "user" = .ok user
    let found := w.remote [] (.getUser none) = .resolved current err ∧
      getProp current "user" = .ok user
    (loggedIn → ∃ synced avatar obj, (syncUserRole id .undefined w s1).1 = .ok synced ∧
      (getUserAvatar id w s1).1 = .ok avatar ∧ login = .ok obj ∧
      optProp obj "role" = specRole synced.role user ∧
      optProp obj "permissions" = specPermissions (optProp obj "role") ∧
      optProp obj "avatar" = avatar) ∧
    (found → ∃ synced avatar obj, (syncUserRole id .undefined w s2).1 = .ok synced ∧
      (getUserAvatar id w s2).1 = .ok avatar ∧ session = .ok obj ∧
      optProp obj "role" = specRole synced.role user ∧
      optProp obj "permissions" = specPermissions (optProp obj "role") ∧
      optProp obj "avatar" = avatar) ∧
    (loggedIn → found → (getUserAvatar id w s1).1 = (getUserAvatar id w s2).1 →
      login = session) := by
  intro id s1 s2 login session loggedIn found
  have huser : nullish user = false := by
    cases user <;> simp_all [optProp, nullish]
  have htruthy : truthy user = true := by
    cases user <;> simp_all [optProp, truthy]
  obtain ⟨a1, ha1⟩ := getUserAvatar_returns id w s1
  obtain ⟨a2, ha2⟩ := getUserAvatar_returns id w s2
  have hmeta : ∃ metadata, getProp user "user_metadata" = .ok metadata ∧
      metadata = optProp user "user_metadata" := ⟨_, getProp_of_not_nullish _ _ huser, rfl⟩
  have hrole : ∀ r : OpResult, orElse (orElse r.role
      (optProp (optProp user "user_metadata") "role")) (.str "viewer") =
        specRole r.role user := by
    intro r
    simp only [OpResult.role, orElse, specRole, truthy, Bool.false_eq_true, if_false]
  have hname : ∀ a, orElseM a (splitAtFirst (.str address)) =
      .ok (orElse a (.str (beforeAt address))) := by
    intro a
    simp only [orElseM, orElse, splitAtFirst]
    split <;> rfl
  have hlogin : loggedIn → login = .ok (.obj [("id", id),
      ("username", orElse (optProp (optProp user "user_metadata") "username")
        (.str (beforeAt address))),
      ("name", orElse (optProp (optProp user "user_metadata") "name")
        (.str (beforeAt address))),
      ("email", .str address), ("role", specRole .undefined user), ("avatar", a1),
      ("permissions", specPermissions (specRole .undefined user))]) := by
    rintro ⟨hsign, hsigned⟩
    simp only [login, run, St.init, loginWithEmailPassword, tryCatchJS_run, bind_run,
      await_run, hsign, bindR_ok, liftE_run, hsigned, getProp_of_not_nullish _ _ huser,
      syncUserRole_without_role, List.nil_append, permissions_eq_spec, hmail, hrole, hname]
    simp only [s1, St.after, id] at ha1
    generalize getUserAvatar _ w _ = res at ha1
    obtain ⟨x, s3⟩ := res
    simp only at ha1
    subst ha1
    simp [hname, OpResult.role, id]
  have hsession : found → session = .ok (.obj [("id", id),
      ("username", orElse (optProp (optProp user "user_metadata") "username")
        (.str (beforeAt address))),
      ("name", orElse (optProp (optProp user "user_metadata") "name")
        (.str (beforeAt address))),
      ("email", .str address), ("role", specRole .undefined user), ("avatar", a2),
      ("permissions", specPermissions (specRole .undefined user))]) := by
    rintro ⟨hget, hcurrent⟩
    simp only [session, run, St.init, getCurrentUser, tryCatchJS_run, bind_run,
      await_run, hget, bindR_ok, liftE_run, hcurrent, getProp_of_not_nullish _ _ huser,
      syncUserRole_without_role, List.nil_append, permissions_eq_spec, hmail, hrole, hname,
      htruthy, Bool.not_true, Bool.false_eq_true, if_false]
    simp only [s2, St.after, id] at ha2
    generalize getUserAvatar _ w _ = res at ha2
    obtain ⟨x, s3⟩ := res
    simp only at ha2
    subst ha2
    simp [hname, OpResult.role, id]
  refine ⟨fun h => ⟨⟨false, .str "Missing required parameters"⟩, a1, _, ?_, ha1, hlogin h, ?_⟩,
    fun h => ⟨⟨false, .str "Missing required parameters"⟩, a2, _, ?_, ha2, hsession h, ?_⟩,
    ?_⟩
  · rw [syncUserRole_without_role]
  · simp [optProp, lookupField, OpResult.role]
  · rw [syncUserRole_without_role]
  · simp [optProp, lookupField, OpResult.role]
  · intro h1 h2 hsame
    rw [ha1, ha2] at hsame
    rw [hlogin h1, hsession h2]
    simp only [Except.ok.injEq] at hsame
    rw [hsame]

/-- C15, witness: the engineer `u1` signs in and is then looked up as current user; both
functions return the same object. -/
theorem session_user_derivation_witness :
    optProp (userRecord "u1" "engineer") "email" = .str "u1@example.com" ∧
      (run (loginWithEmailPassword (.str "u1@example.com") (.str "secret")) sessionWorld).1 =
        (run getCurrentUser sessionWorld).1 :=
  ⟨rfl, (session_user_derivation sessionWorld (userRecord "u1" "engineer") "u1@example.com"
    (.str "u1@example.com") (.str "secret") (.obj [("user", userRecord "u1" "engineer")])
    (.obj [("user", userRecord "u1" "engineer")]) none rfl).2.2 ⟨rfl, rfl⟩ ⟨rfl, rfl⟩ rfl⟩

/-! ## C16 and C17: the form validation of `UserManagement.jsx` -/

theorem nonSpaces_literal_mem (ch : Char) (next : List Char → Bool) (l : List Char)
    (h : nonSpaces (literal ch next) l = true) : ch ∈ l := by
  induction l with
  | nil => simp [nonSpaces] at h
  | cons c cs ih =>
    simp only [nonSpaces, Bool.and_eq_true, Bool.or_eq_true] at h
    rcases h.2 with h2 | h2
    · cases cs with
      | nil => simp [literal] at h2
      | cons d ds =>
        simp only [literal, Bool.and_eq_true, decide_eq_true_eq] at h2
        simp [h2.1]
    · exact List.mem_cons_of_mem _ (ih h2)

theorem emailPatternTest_false (s : String) (h : '@' ∉ s.data) : emailPatternTest s = false := by
  by_contra hne
  have ht : emailPatternTest s = true := by simpa using hne
  simp only [emailPatternTest, List.any_eq_true] at ht
  obtain ⟨l, hl, hm⟩ := ht
  have hmem := nonSpaces_literal_mem _ _ l hm
  have hsuffix : l <:+ s.data := (List.mem_tails _ _).1 hl
  exact h (hsuffix.subset hmem)

theorem errorFor_append_ne (field key msg : String) (errors : List (String × String))
    (h : key ≠ field) : errorFor field (errors ++ [(key, msg)]) = errorFor field errors := by
  simp only [errorFor, List.find?_append]
  cases hfind : List.find? (fun e => decide (e.1 = field)) errors with
  | some e => simp
  | none => simp [List.find?, h]

theorem errorFor_append_same (field msg : String) (errors : List (String × String))
    (h : errorFor field errors = none) :
    errorFor field (errors ++ [(field, msg)]) = some msg := by
  simp only [errorFor, List.find?_append] at h ⊢
  cases hfind : List.find? (fun e => decide (e.1 = field)) errors with
  | some e => simp [hfind] at h
  | none => simp [List.find?]

theorem errorFor_checkUsername (formData : FormData) (field : String)
    (errors : List (String × String)) (h : field ≠ "username") :
    errorFor field (checkUsername formData errors) = errorFor field errors := by
  unfold checkUsername
  split_ifs <;> first | rfl | exact errorFor_append_ne _ _ _ _ (Ne.symm h)

theorem errorFor_checkName (formData : FormData) (field : String)
    (errors : List (String × String)) (h : field ≠ "name") :
    errorFor field (checkName formData errors) = errorFor field errors := by
  unfold checkName
  split_ifs <;> first | rfl | exact errorFor_append_ne _ _ _ _ (Ne.symm h)

theorem errorFor_checkEmail (formData : FormData) (field : String)
    (errors : List (String × String)) (h : field ≠ "email") :
    errorFor field (checkEmail formData errors) = errorFor field errors := by
  unfold checkEmail
  split_ifs <;> first | rfl | exact errorFor_append_ne _ _ _ _ (Ne.symm h)

theorem errorFor_checkPassword (formData : FormData) (editingUser : Val) (field : String)
    (errors : List (String × String)) (h1 : field ≠ "password")
    (h2 : field ≠ "confirmPassword") :
    errorFor field (checkPassword formData editingUser errors) = errorFor field errors := by
  unfold checkPassword
  split_ifs <;>
    simp only [errorFor_append_ne _ _ _ _ (Ne.symm h1), errorFor_append_ne _ _ _ _ (Ne.symm h2)]

theorem errorFor_some_length (field msg : String) (errors : List (String × String))
    (h : errorFor field errors = some msg) : decide (errors.length = 0) = false := by
  cases errors with
  | nil => simp [errorFor] at h
  | cons e es => simp

/-- C16: whatever the other fields hold and whether a user is being added or edited, a form
whose email contains no `@` is rejected: `validateForm` returns false and records an error
for the email field. -/
theorem validateForm_rejects_email_without_at (formData : FormData) (editingUser : Val)
    (h : '@' ∉ formData.email.data) :
    (validateForm formData editingUser).2 = false ∧
      (errorFor "email" (validateForm formData editingUser).1 = some "Email is required" ∨
        errorFor "email" (validateForm formData editingUser).1 = some "Email is invalid") := by
  have hpat := emailPatternTest_false formData.email h
  have hbefore : errorFor "email" (checkName formData (checkUsername formData [])) = none := by
    rw [errorFor_checkName _ _ _ (by decide), errorFor_checkUsername _ _ _ (by decide)]
    rfl
  have hemail : errorFor "email" (validateForm formData editingUser).1 =
        some "Email is required" ∨
      errorFor "email" (validateForm formData editingUser).1 = some "Email is invalid" := by
    simp only [validateForm]
    rw [errorFor_checkPassword _ _ _ _ (by decide) (by decide)]
    unfold checkEmail
    simp only [hpat, Bool.not_false, if_true]
    split_ifs
    · exact Or.inl (errorFor_append_same _ _ _ hbefore)
    · exact Or.inr (errorFor_append_same _ _ _ hbefore)
  refine ⟨?_, hemail⟩
  rcases hemail with hm | hm
  · exact errorFor_some_length _ _ _ hm
  · exact errorFor_some_length _ _ _ hm

/-- C16, witness: the form of a new user whose email is `ops.example.com`. -/
theorem validateForm_rejects_email_without_at_witness :
    '@' ∉ "ops.example.com".data ∧
      (validateForm ⟨"operator", "Op Erator", "ops.example.com", "technician", "A", "secret1",
        "secret1"⟩ .null).2 = false :=
  ⟨by decide, (validateForm_rejects_email_without_at ⟨"operator", "Op Erator",
    "ops.example.com", "technician", "A", "secret1", "secret1"⟩ .null (by decide)).1⟩

/-- C17: when no user is being edited, a form whose password is blank, or shorter than 6 (in
the `length` of the source), or different from the confirmation makes `validateForm` return
false and records an error for `password` or for `confirmPassword`; when a user is being
edited, the two password fields have no influence on the result. -/
theorem validateForm_password_rule (formData : FormData) (editingUser : Val) :
    (truthy editingUser = false →
      (jsLength formData.password < 6 ∨ jsTrim formData.password = "" ∨
        formData.password ≠ formData.confirmPassword) →
      (validateForm formData editingUser).2 = false ∧
        ((errorFor "password" (validateForm formData editingUser).1).isSome = true ∨
          (errorFor "confirmPassword" (validateForm formData editingUser).1).isSome = true)) ∧
    (truthy editingUser = true → ∀ password confirmPassword,
      validateForm { formData with password := password, confirmPassword := confirmPassword }
        editingUser = validateForm formData editingUser) := by
  refine ⟨?_, ?_⟩
  · intro hnew hbad
    have hp : errorFor "password"
        (checkEmail formData (checkName formData (checkUsername formData []))) = none := by
      rw [errorFor_checkEmail _ _ _ (by decide), errorFor_checkName _ _ _ (by decide),
        errorFor_checkUsername _ _ _ (by decide)]
      rfl
    have hc : errorFor "confirmPassword"
        (checkEmail formData (checkName formData (checkUsername formData []))) = none := by
      rw [errorFor_checkEmail _ _ _ (by decide), errorFor_checkName _ _ _ (by decide),
        errorFor_checkUsername _ _ _ (by decide)]
      rfl
    have hfound : (∃ msg, errorFor "password" (validateForm formData editingUser).1 = some msg) ∨
        ∃ msg, errorFor "confirmPassword" (validateForm formData editingUser).1 = some msg := by
      simp only [validateForm, checkPassword, hnew, Bool.not_false, if_true]
      generalize checkEmail formData (checkName formData (checkUsername formData [])) = errs
        at hp hc
      by_cases hsame : formData.password = formData.confirmPassword
      · simp only [hsame, ne_eq, not_true_eq_false, if_false]
        rw [← hsame]
        refine Or.inl ?_
        split_ifs with h1 h2
        · exact ⟨_, errorFor_append_same _ _ _ hp⟩
        · exact ⟨_, errorFor_append_same _ _ _ hp⟩
        · rcases hbad with h | h | h
          · exact absurd h h2
          · exact absurd h h1
          · exact absurd hsame h
      · refine Or.inr ⟨"Passwords do not match", ?_⟩
        simp only [ne_eq, hsame, not_false_eq_true, if_true]
        apply errorFor_append_same
        split_ifs
        · rw [errorFor_append_ne _ _ _ _ (by decide)]
          exact hc
        · rw [errorFor_append_ne _ _ _ _ (by decide)]
          exact hc
        · exact hc
    refine ⟨?_, ?_⟩
    · rcases hfound with ⟨msg, hm⟩ | ⟨msg, hm⟩
      · exact errorFor_some_length _ _ _ hm
      · exact errorFor_some_length _ _ _ hm
    · rcases hfound with ⟨msg, hm⟩ | ⟨msg, hm⟩
      · exact Or.inl (by rw [hm]; rfl)
      · exact Or.inr (by rw [hm]; rfl)
  · intro hedit password confirmPassword
    simp [validateForm, checkPassword, hedit, checkUsername, checkName, checkEmail]

/-- C17, witness: a new user whose password `abc` is too short, and the same form while the
user `u1` is edited. -/
theorem validateForm_password_rule_witness :
    (truthy .null = false ∧ jsLength "abc" < 6 ∧
      (validateForm ⟨"operator", "Op Erator", "ops@example.com", "technician", "A", "abc",
        "abc"⟩ .null).2 = false) ∧
    (truthy (.obj [("id", .str "u1")]) = true ∧
      validateForm ⟨"operator", "Op Erator", "ops@example.com", "technician", "A", "abc",
        "abd"⟩ (.obj [("id", .str "u1")]) =
      validateForm ⟨"operator", "Op Erator", "ops@example.com", "technician", "A", "",
        ""⟩ (.obj [("id", .str "u1")])) :=
  ⟨⟨rfl, by decide, ((validateForm_password_rule ⟨"operator", "Op Erator", "ops@example.com",
      "technician", "A", "abc", "abc"⟩ .null).1 rfl (Or.inl (by decide))).1⟩,
    ⟨rfl, (validateForm_password_rule ⟨"operator", "Op Erator", "ops@example.com", "technician",
      "A", "", ""⟩ (.obj [("id", .str "u1")])).2 rfl "abc" "abd"⟩⟩

/-! ## C18 and C19: the CSV export of `Reports.jsx` -/

theorem csvValues_spec (env : Formats) (reportType : String) (columns : List Column)
    (item : Val) (hcolumns : specColumns reportType = some columns)
    (hitem : nullish item = false)
    (hdesc : reportType = "maintenance" → falsyOrText (optProp item "description") = true) :
    csvValues env (.str reportType) item =
      .ok (some (columns.map fun c => c.value env item)) := by
  simp only [specColumns] at hcolumns
  split_ifs at hcolumns with h1 h2 h3
  · subst h1
    simp only [Option.some.injEq] at hcolumns
    subst hcolumns
    have hd := hdesc rfl
    have hrep : replaceCommas (orElse (optProp item "description") (.str "")) =
        .ok (descriptionOf item) := by
      simp only [descriptionOf]
      cases hv : optProp item "description" with
      | str s =>
        by_cases hs : s = ""
        · subst hs
          simp [orElse, truthy, replaceCommas]
        · simp [orElse, truthy, hs, replaceCommas]
      | _ => simp_all [falsyOrText, orElse, truthy, replaceCommas]
    simp only [orElse] at hrep
    simp [csvValues, isStr, getProp_of_not_nullish _ _ hitem, hrep, bind, Except.bind, textOf,
      orElse]
  · subst h2
    simp only [Option.some.injEq] at hcolumns
    subst hcolumns
    simp [csvValues, isStr, getProp_of_not_nullish _ _ hitem, bind, Except.bind, textOf,
      countOf, orElse]
  · subst h3
    simp only [Option.some.injEq] at hcolumns
    subst hcolumns
    simp [csvValues, isStr, getProp_of_not_nullish _ _ hitem, bind, Except.bind, textOf,
      countOf, orElse]

theorem csvForEach_spec (env : Formats) (reportType : String) (columns : List Column)
    (items : List Val) (hcolumns : specColumns reportType = some columns)
    (hitems : ReportItems reportType items) (csvRows : List String) :
    csvForEach env (.str reportType) items csvRows =
      .ok (csvRows ++ items.map fun item => joinItems (columns.map fun c => c.value env item)) := by
  induction items generalizing csvRows with
  | nil => simp [csvForEach]
  | cons item rest ih =>
    obtain ⟨hnull, hdesc⟩ := hitems item (List.mem_cons_self _ _)
    have hvalues := csvValues_spec env reportType columns item hcolumns hnull hdesc
    have hrest := ih (fun i hi => hitems i (List.mem_cons_of_mem _ hi))
      (csvRows ++ [joinItems (columns.map fun c => c.value env item)])
    simp only [csvForEach, hvalues, bind, Except.bind, hrest]
    simp

theorem csvHeaders_spec (reportType : String) (columns : List Column)
    (h : specColumns reportType = some columns) :
    ∃ headers, csvHeaders (.str reportType) = some headers ∧
      joinItems headers = String.intercalate "," (columns.map fun c => c.name) := by
  simp only [specColumns] at h
  split_ifs at h with h1 h2 h3
  · subst h1
    simp only [Option.some.injEq] at h
    subst h
    exact ⟨_, rfl, by decide⟩
  · subst h2
    simp only [Option.some.injEq] at h
    subst h
    exact ⟨_, rfl, by decide⟩
  · subst h3
    simp only [Option.some.injEq] at h
    subst h
    exact ⟨_, rfl, by decide⟩

/-- C18, counterexample: three values of `data` that are neither null nor empty, with the
report type `maintenance`, for which `convertToCSV` returns nothing because it throws: an
array holding `null`, an array holding a task whose description is the number 7, and the
string `abc`, which is not an array. -/
theorem convertToCSV_throws_on_other_data :
    convertToCSV noFormats (.arr [.null]) (.str "maintenance") =
        .error (typeError "cannot read properties of null") ∧
      convertToCSV noFormats (.arr [.obj [("id", .str "T-1"), ("description", .num 7)]])
        (.str "maintenance") = .error (typeError "replace is not a function") ∧
      convertToCSV noFormats (.str "abc") (.str "maintenance") =
        .error (typeError "not a function") :=
  ⟨rfl, rfl, rfl⟩

/-- C18, amended: `convertToCSV(data, reportType)` returns the empty string when `data` is
null (or falsy) or an empty array, or when `reportType` is none of `maintenance`,
`equipment`, `safety`.  For one of the three report types and a non-empty array of objects
(whose description, for a maintenance report, is a string when present) it returns the fixed
header row of the type followed by one row per item in the same order, each row being the
values of the item for the columns of the type joined with commas, all rows joined with
newlines and nothing after the last row. -/
theorem convertToCSV_format (env : Formats) :
    (∀ data reportType, truthy data = false → convertToCSV env data reportType = .ok "") ∧
    (∀ reportType, convertToCSV env (.arr []) reportType = .ok "") ∧
    (∀ data reportType, isStr reportType "maintenance" = false →
      isStr reportType "equipment" = false → isStr reportType "safety" = false →
      convertToCSV env data reportType = .ok "") ∧
    (∀ items reportType columns, items ≠ [] → specColumns reportType = some columns →
      ReportItems reportType items →
      convertToCSV env (.arr items) (.str reportType) = .ok (specCSV env columns items)) := by
  refine ⟨?_, ?_, ?_, ?_⟩
  · intro data reportType h
    simp [convertToCSV, h]
  · intro reportType
    simp [convertToCSV, lengthIsZero]
  · intro data reportType h1 h2 h3
    simp only [convertToCSV, csvHeaders, h1, h2, h3]
    split <;> rfl
  · intro items reportType columns hne hcolumns hitems
    obtain ⟨headers, hh, hrow⟩ := csvHeaders_spec reportType columns hcolumns
    have hrun := csvForEach_spec env reportType columns items hcolumns hitems
      [joinItems headers]
    have hlen : lengthIsZero (.arr items) = false := by
      cases items with
      | nil => exact absurd rfl hne
      | cons x xs => simp [lengthIsZero]
    rw [hrow] at hrun
    simp [convertToCSV, truthy, hlen, hh, asArray, bind, Except.bind, hrun, hrow, specCSV]

/-- C18, witness: a safety report with two areas. -/
theorem convertToCSV_format_witness :
    [Val.obj [("area", .str "North"), ("criticalIssues", .num 2), ("resolvedCritical", .num 1),
        ("compliance", .num 50)],
      Val.obj [("area", .str "South"), ("criticalIssues", .num 0), ("resolvedCritical", .num 0),
        ("compliance", .num 100)]] ≠ [] ∧
      ReportItems "safety" [Val.obj [("area", .str "North"), ("criticalIssues", .num 2),
        ("resolvedCritical", .num 1), ("compliance", .num 50)],
      Val.obj [("area", .str "South"), ("criticalIssues", .num 0), ("resolvedCritical", .num 0),
        ("compliance", .num 100)]] ∧
      convertToCSV noFormats (.arr [Val.obj [("area", .str "North"), ("criticalIssues", .num 2),
          ("resolvedCritical", .num 1), ("compliance", .num 50)],
        Val.obj [("area", .str "South"), ("criticalIssues", .num 0),
          ("resolvedCritical", .num 0), ("compliance", .num 100)]]) (.str "safety") =
        .ok ("Area,Critical Issues,Resolved Issues,Compliance Percentage\n" ++
          "North,2,1,50%\n" ++ "South,0,0,100%") := by
  have hitems : ReportItems "safety" [Val.obj [("area", .str "North"),
      ("criticalIssues", .num 2), ("resolvedCritical", .num 1), ("compliance", .num 50)],
    Val.obj [("area", .str "South"), ("criticalIssues", .num 0), ("resolvedCritical", .num 0),
      ("compliance", .num 100)]] := by
    intro item hitem
    simp only [List.mem_cons, List.mem_singleton, List.not_mem_nil, or_false] at hitem
    rcases hitem with h | h <;> subst h <;> exact ⟨rfl, fun h => absurd h (by decide)⟩
  refine ⟨by simp, hitems, ?_⟩
  rw [(convertToCSV_format noFormats).2.2.2 _ "safety" _ (by simp) rfl hitems]
  rfl

/-- C19: the maintenance export of a task whose location is `Apron A, Stand 3`, on any host.
The comma of the description is replaced by a space, the comma of the location is kept, and
the data row splits on commas into 9 fields where the header row has 8. -/
theorem maintenance_row_with_comma_in_location (env : Formats) :
    convertToCSV env (.arr [taskWithCommaInLocation]) (.str "maintenance") =
        .ok ("ID,Type,Description,Location,Area,Status,Priority,Reported Date\n" ++
          "T-1,lighting,Lamp out  bay 2,Apron A, Stand 3,North,pending,high,") ∧
      fieldCount "ID,Type,Description,Location,Area,Status,Priority,Reported Date" = 8 ∧
      fieldCount "T-1,lighting,Lamp out  bay 2,Apron A, Stand 3,North,pending,high," = 9 := by
  refine ⟨?_, by decide, by decide⟩
  rfl

/-! ## C20: the exit status of the migration scripts -/

/-- C20: on a backend without a `users` table, whatever the statements before the final
check do, `migrateDataToSupabase` of `migrate-to-supabase.js` and of `fix-migration.js`
resolves with `success: false`, and the script exits with status 0. -/
theorem migration_failure_exits_zero (early : Eff (Option String)) (steps : Eff Unit) :
    (∃ message, (run (MigrateToSupabase.migrateDataToSupabase early) noUsersTableWorld).1 =
      .ok (.obj [("success", .bool false), ("message", message)])) ∧
    (run (scriptEntry (MigrateToSupabase.migrateDataToSupabase early)) noUsersTableWorld).1 =
      .ok 0 ∧
    (∃ message, (run (FixMigration.migrateDataToSupabase steps) noUsersTableWorld).1 =
      .ok (.obj [("success", .bool false), ("message", message)])) ∧
    (run (scriptEntry (FixMigration.migrateDataToSupabase steps)) noUsersTableWorld).1 =
      .ok 0 := by
  have hquery : ∀ trace, noUsersTableWorld.remote trace (.query "users" [.select "*"]) =
      .resolved .null (some ⟨"relation \"public.users\" does not exist", some "42P01"⟩) :=
    fun _ => rfl
  have h1 : ∃ message, (run (MigrateToSupabase.migrateDataToSupabase early)
      noUsersTableWorld).1 = .ok (.obj [("success", .bool false), ("message", message)]) := by
    simp only [run, MigrateToSupabase.migrateDataToSupabase, tryCatchJS_run, bind_run]
    generalize early noUsersTableWorld St.init = res
    obtain ⟨x, s⟩ := res
    cases x with
    | error e => exact ⟨_, rfl⟩
    | ok u =>
      cases u with
      | some message => exact ⟨_, rfl⟩
      | none => simp [hquery]
  have h2 : ∃ message, (run (FixMigration.migrateDataToSupabase steps)
      noUsersTableWorld).1 = .ok (.obj [("success", .bool false), ("message", message)]) := by
    simp only [run, FixMigration.migrateDataToSupabase, tryCatchJS_run, bind_run]
    generalize steps noUsersTableWorld St.init = res
    obtain ⟨x, s⟩ := res
    cases x with
    | error e => exact ⟨_, rfl⟩
    | ok u => simp [hquery]
  refine ⟨h1, ?_, h2, ?_⟩
  · obtain ⟨m, hm⟩ := h1
    simp only [run] at hm ⊢
    simp only [scriptEntry]
    split
    · rfl
    · rename_i heq
      rw [heq] at hm
      simp at hm
  · obtain ⟨m, hm⟩ := h2
    simp only [run] at hm ⊢
    simp only [scriptEntry]
    split
    · rfl
    · rename_i heq
      rw [heq] at hm
      simp at hm

/-! ## C21 and C22: the handler `sync_user_role` -/

theorem sync_after_authorization (userId : Val) (w : World) (s : St) :
    statusOf (tryCatchJS (do
      let (effectiveRole, roleUpdated) ← reconcileRoles userId
      pure ⟨200, .obj [("success", .bool true), ("role", effectiveRole),
        ("updated", .bool roleUpdated),
        ("message", .str (if roleUpdated then "Role synchronized successfully"
          else "Role already in sync"))]⟩)
      (fun error => pure ⟨500, .obj [("success", .bool false),
        ("error", messageOr error "Failed to sync user role")]⟩) w s) = some 200 ∨
    statusOf (tryCatchJS (do
      let (effectiveRole, roleUpdated) ← reconcileRoles userId
      pure ⟨200, .obj [("success", .bool true), ("role", effectiveRole),
        ("updated", .bool roleUpdated),
        ("message", .str (if roleUpdated then "Role synchronized successfully"
          else "Role already in sync"))]⟩)
      (fun error => pure ⟨500, .obj [("success", .bool false),
        ("error", messageOr error "Failed to sync user role")]⟩) w s) = some 500 := by
  simp only [tryCatchJS_run, bind_run]
  generalize reconcileRoles userId w s = res
  obtain ⟨x, s1⟩ := res
  cases x with
  | ok pair => exact Or.inl rfl
  | error e => exact Or.inr rfl

theorem nullish_of_truthy (v : Val) (h : truthy v = true) : nullish v = false := by
  cases v <;> simp_all [truthy, nullish]

theorem getProp_of_truthy_optProp (v : Val) (key : String)
    (h : truthy (optProp v key) = true) : getProp v key = .ok (optProp v key) := by
  cases v <;> simp_all [optProp, getProp, truthy]

theorem readUserId_ok (req : Req) (body : Val) (hjson : req.json = .ok body)
    (hid : truthy (optProp body "userId") = true) :
    readUserId req = .ok (optProp body "userId") := by
  have hbody := getProp_of_truthy_optProp _ _ hid
  simp [readUserId, hjson, hbody, hid, bind, Except.bind]

/-- C21: for a POST whose body holds a non-empty `userId`.  Without a bearer header the
answer is 401 and no request is made.  With one, the token is checked first: when the check
returns an error or no user the answer is 401; when it returns a user, the answer is 403
exactly when the caller's id differs from `userId` and the caller's `user_metadata.role` is
not `admin`, and in that case the token check is the only interaction of the run: the
target's auth record and users-table row are neither read nor written. -/
theorem sync_authorization (w : World) (req : Req) (body : Val)
    (hmethod : req.method = "POST") (hjson : req.json = .ok body)
    (hid : truthy (optProp body "userId") = true) :
    let out := run (syncUserRoleHandler req) w
    let userId := optProp body "userId"
    let token := secondWord (req.authorization.getD "")
    (noBearer req.authorization = true →
      out.1 = .ok ⟨401, failure "Unauthorized"⟩ ∧ out.2.trace = []) ∧
    (noBearer req.authorization = false →
      ∀ data err, w.remote [] (.getUser token) = .resolved data err →
        ((err.isSome = true ∨ truthy (optProp data "user") = false) →
          statusOf out = some 401 ∧
            out.2.trace = [.call (.getUser token) (.resolved data err)]) ∧
        (err = none → truthy (optProp data "user") = true →
          (statusOf out = some 403 ↔
            strictEq (optProp (optProp data "user") "id") userId = false ∧
              isStr (optProp (optProp (optProp data "user") "user_metadata") "role")
                "admin" = false) ∧
          (statusOf out = some 403 →
            out.2.trace = [.call (.getUser token) (.resolved data err)]))) := by
  intro out userId token
  have hread := readUserId_ok req body hjson hid
  have hopt : req.method ≠ "OPTIONS" := by rw [hmethod]; decide
  refine ⟨?_, ?_⟩
  · intro hno
    simp [out, run, St.init, syncUserRoleHandler, hmethod, hread, hno]
  · intro hbearer data err hget
    have hinvalid : includesText "Unauthorized: Invalid token" "Forbidden" = false := by decide
    have hnull : ∀ what, what = "cannot read properties of undefined" ∨
        what = "cannot read properties of null" →
        includesText (typeError what).message "Forbidden" = false := by
      rintro what (h | h) <;> subst h <;> decide
    have hforbidden : includesText
        "Forbidden: Can only sync your own role unless you are an admin" "Forbidden" = true := by
      decide
    have hstart : out = bindR (catchR (bindR (authorizeCaller token userId w
          ⟨[], 0, [], []⟩) (fun _ => pure none) w)
        (fun error => pure (some ⟨if includesText error.message "Forbidden" then 403 else 401,
          .obj [("success", .bool false),
            ("error", messageOr error "Authentication failed")]⟩)) w)
        (fun denied => match denied with
          | some response => pure response
          | none => tryCatchJS (do
              let (effectiveRole, roleUpdated) ← reconcileRoles userId
              pure ⟨200, .obj [("success", .bool true), ("role", effectiveRole),
                ("updated", .bool roleUpdated),
                ("message", .str (if roleUpdated then "Role synchronized successfully"
                  else "Role already in sync"))]⟩)
            (fun error => pure ⟨500, .obj [("success", .bool false),
              ("error", messageOr error "Failed to sync user role")]⟩)) w := by
      simp only [out, run, St.init, syncUserRoleHandler, hmethod, hread, hbearer]
      simp
    have hrun : authorizeCaller token userId w ⟨[], 0, [], []⟩ =
        bindR (.ok (data, err), ⟨[.call (.getUser token) (.resolved data err)], 0, [], []⟩)
          (fun p => do
            let callerUser ← liftE (getProp p.1 "user")
            if p.2.isSome || !truthy callerUser then
              throwJS ⟨"Unauthorized: Invalid token", none⟩
            else do
            let metadata ← liftE (getProp callerUser "user_metadata")
            let isAdmin := isStr (optProp metadata "role") "admin"
            let callerId ← liftE (getProp callerUser "id")
            if !strictEq callerId userId && !isAdmin then
              throwJS ⟨"Forbidden: Can only sync your own role unless you are an admin", none⟩
            else pure ()) w := by
      simp only [authorizeCaller, bind_run, await_run, hget, List.nil_append]
    refine ⟨?_, ?_⟩
    · intro hbad
      have hfail : ∃ e, authorizeCaller token userId w ⟨[], 0, [], []⟩ =
          (.error e, ⟨[.call (.getUser token) (.resolved data err)], 0, [], []⟩) ∧
          includesText e.message "Forbidden" = false := by
        rw [hrun]
        cases data with
        | undefined => exact ⟨_, rfl, hnull _ (Or.inl rfl)⟩
        | null => exact ⟨_, rfl, hnull _ (Or.inr rfl)⟩
        | obj fields =>
          refine ⟨⟨"Unauthorized: Invalid token", none⟩, ?_, hinvalid⟩
          rcases hbad with h | h
          · simp [getProp, h]
          · simp only [optProp] at h
            simp [getProp, h]
        | _ =>
          refine ⟨⟨"Unauthorized: Invalid token", none⟩, ?_, hinvalid⟩
          simp [getProp, fnProp, truthy]
      obtain ⟨e, he, hincl⟩ := hfail
      rw [hstart, he]
      simp [hincl]
    · intro herr huser
      subst herr
      have hcaller := nullish_of_truthy _ huser
      have hdata := getProp_of_truthy_optProp _ _ huser
      by_cases hden : strictEq (optProp (optProp data "user") "id") userId = false ∧
          isStr (optProp (optProp (optProp data "user") "user_metadata") "role")
            "admin" = false
      · have hfail : authorizeCaller token userId w ⟨[], 0, [], []⟩ =
            (.error ⟨"Forbidden: Can only sync your own role unless you are an admin", none⟩,
              ⟨[.call (.getUser token) (.resolved data none)], 0, [], []⟩) := by
          rw [hrun]
          simp [hdata, huser, getProp_of_not_nullish _ _ hcaller, hden.1, hden.2]
        rw [hstart, hfail]
        simp [hforbidden, hden.1, hden.2]
      · have hpass : authorizeCaller token userId w ⟨[], 0, [], []⟩ =
            (.ok (), ⟨[.call (.getUser token) (.resolved data none)], 0, [], []⟩) := by
          rw [hrun]
          simp only [bindR_ok, bind_run, liftE_run, hdata, huser,
            getProp_of_not_nullish _ _ hcaller, Option.isSome_none, Bool.not_true,
            Bool.or_self, Bool.false_eq_true, if_false]
          have : (!strictEq (optProp (optProp data "user") "id") userId &&
              !isStr (optProp (optProp (optProp data "user") "user_metadata") "role")
                "admin") = false := by
            cases h1 : strictEq (optProp (optProp data "user") "id") userId <;>
              cases h2 : isStr (optProp (optProp (optProp data "user") "user_metadata")
                "role") "admin" <;> simp_all
          simp [this]
        have hne : statusOf out ≠ some 403 := by
          rw [hstart, hpass]
          simp only [bindR_ok, pure_run, catchR_ok]
          rcases sync_after_authorization userId w
            ⟨[.call (.getUser token) (.resolved data none)], 0, [], []⟩ with h | h <;>
            rw [h] <;> decide
        exact ⟨⟨fun h => absurd h hne, fun h => absurd h hden⟩, fun h => absurd h hne⟩

/-- C21, witness: the viewer `u1` asks to sync the role of `u2` and is answered 403. -/
theorem sync_authorization_witness :
    (bearerReq "POST" (.obj [("userId", .str "u2")])).method = "POST" ∧
      (bearerReq "POST" (.obj [("userId", .str "u2")])).json =
        .ok (.obj [("userId", .str "u2")]) ∧
      truthy (optProp (.obj [("userId", .str "u2")]) "userId") = true ∧
      statusOf (run (syncUserRoleHandler (bearerReq "POST" (.obj [("userId", .str "u2")])))
        (simpleWorld "u1" "viewer" "viewer")) = some 403 :=
  ⟨rfl, rfl, rfl, (((sync_authorization (simpleWorld "u1" "viewer" "viewer")
    (bearerReq "POST" (.obj [("userId", .str "u2")])) (.obj [("userId", .str "u2")])
    rfl rfl rfl).2 rfl (.obj [("user", userRecord "u1" "viewer")]) none rfl).2 rfl rfl).1.mpr
      ⟨rfl, rfl⟩⟩

theorem strictEq_eq (a b : Val) (h : strictEq a b = true) : a = b := by
  cases a <;> cases b <;> simp_all [strictEq]

theorem truthy_authRoleOf (user : Val) : truthy (authRoleOf user) = true := by
  unfold authRoleOf orElse
  split
  · assumption
  · rfl

theorem reconcileRoles_run (w : World) (userId authUser dbUser : Val)
    (dbError : Option JSErr) (s : St)
    (htarget : w.remote s.trace (.adminGetUserById userId) = .resolved authUser none)
    (hfound : truthy (optProp authUser "user") = true)
    (hrow : w.remote (s.trace ++ [.call (.adminGetUserById userId) (.resolved authUser none)])
      (rowLookup userId) = .resolved dbUser dbError)
    (hnoerr : otherThanNoRows dbError = false) (hdb : truthy dbUser = true) :
    reconcileRoles userId w s =
      bindR (.ok (optProp dbUser "role"), { s with trace := s.trace ++
          [.call (.adminGetUserById userId) (.resolved authUser none),
            .call (rowLookup userId) (.resolved dbUser dbError)] })
        (fun dbRole =>
          if truthy dbRole && !strictEq dbRole (authRoleOf (optProp authUser "user")) then do
            let (_, updateError) ← await (metadataOverwrite userId dbRole)
            match updateError with
            | some e => throwJS ⟨"Failed to update auth metadata: " ++ e.message, none⟩
            | none => pure (dbRole, true)
          else if !truthy dbRole then do
            let (_, updateError) ← await
              (rowUpdate userId (authRoleOf (optProp authUser "user")))
            match updateError with
            | some e => throwJS ⟨"Failed to update database: " ++ e.message, none⟩
            | none => pure (authRoleOf (optProp authUser "user"), true)
          else pure (authRoleOf (optProp authUser "user"), false)) w := by
  have huser := getProp_of_truthy_optProp _ _ hfound
  have hnn := nullish_of_truthy _ hfound
  have hdbnn := nullish_of_truthy _ hdb
  have hauth := truthy_authRoleOf (optProp authUser "user")
  simp only [rowLookup] at hrow
  simp only [reconcileRoles, bind_run, await_run, htarget, bindR_ok, hfound, Option.isSome_none,
    Bool.not_true, Bool.or_self, Bool.false_eq_true, if_false, liftE_run, huser,
    getProp_of_not_nullish _ _ hnn, hrow, hnoerr, hdb, if_true,
    getProp_of_not_nullish _ _ hdbnn, List.append_assoc, List.singleton_append]
  simp only [authRoleOf] at hauth ⊢
  simp only [rowLookup, metadataOverwrite, rowUpdate, hauth, Bool.true_and]
  by_cases h1 : truthy (optProp dbUser "role") = true
  · by_cases h2 : strictEq (optProp dbUser "role")
        (orElse (optProp (optProp (optProp authUser "user") "user_metadata") "role")
          (.str "viewer")) = true
    · simp [h1, h2]
    · simp [h1, h2]
  · simp [h1]

theorem syncUserRoleHandler_authorized (w : World) (req : Req) (body data : Val)
    (hmethod : req.method = "POST") (hjson : req.json = .ok body)
    (hid : truthy (optProp body "userId") = true)
    (hbearer : noBearer req.authorization = false)
    (hget : w.remote [] (.getUser (secondWord (req.authorization.getD ""))) =
      .resolved data none)
    (huser : truthy (optProp data "user") = true)
    (hallowed : strictEq (optProp (optProp data "user") "id") (optProp body "userId") = true ∨
      isStr (optProp (optProp (optProp data "user") "user_metadata") "role") "admin" = true) :
    run (syncUserRoleHandler req) w =
      catchR (bindR (reconcileRoles (optProp body "userId") w
          ⟨[.call (.getUser (secondWord (req.authorization.getD ""))) (.resolved data none)],
            0, [], []⟩)
          (fun p => pure ⟨200, syncedBody p.1 p.2⟩) w)
        (fun error => pure ⟨500, .obj [("success", .bool false),
          ("error", messageOr error "Failed to sync user role")]⟩) w := by
  have hread := readUserId_ok req body hjson hid
  have hcaller := nullish_of_truthy _ huser
  have hdata := getProp_of_truthy_optProp _ _ huser
  have hpass : (!strictEq (optProp (optProp data "user") "id") (optProp body "userId") &&
      !isStr (optProp (optProp (optProp data "user") "user_metadata") "role")
        "admin") = false := by
    rcases hallowed with h | h <;> simp [h]
  have hpass2 : ¬(strictEq (optProp (optProp data "user") "id") (optProp body "userId") = false ∧
      isStr (optProp (optProp (optProp data "user") "user_metadata") "role")
        "admin" = false) := by
    rcases hallowed with h | h <;> simp [h]
  simp only [run, St.init, syncUserRoleHandler, hmethod, hread, hbearer, authorizeCaller]
  simp [hget, hdata, huser, getProp_of_not_nullish _ _ hcaller, hpass, hpass2, syncedBody]

/-- C22: for an authorized POST whose target is found in Auth and has a row in the users
table.  When the row's role is non-empty and differs from the auth role (`viewer` when the
metadata holds none), the only write is the overwrite of the auth metadata with the row's
role, and a 200 response returns the row's role with `updated` true.  When the row's role is
empty, the only write is the update of the row with the auth role, and a 200 response
returns the auth role with `updated` true.  When the two roles are equal nothing is written
and the response is 200 with that role and `updated` false.  In the first two cases the
response is 200 exactly when the write returns without an error.  So every 200 response
returns the role that the row holds after the run, and its `updated` is false exactly when
the two roles were equal. -/
theorem sync_reconciliation (w : World) (req : Req) (body data authUser dbUser : Val)
    (dbError : Option JSErr)
    (hmethod : req.method = "POST") (hjson : req.json = .ok body)
    (hid : truthy (optProp body "userId") = true)
    (hbearer : noBearer req.authorization = false)
    (hget : w.remote [] (.getUser (secondWord (req.authorization.getD ""))) =
      .resolved data none)
    (huser : truthy (optProp data "user") = true)
    (hallowed : strictEq (optProp (optProp data "user") "id") (optProp body "userId") = true ∨
      isStr (optProp (optProp (optProp data "user") "user_metadata") "role") "admin" = true)
    (htarget : w.remote
      [.call (.getUser (secondWord (req.authorization.getD ""))) (.resolved data none)]
      (.adminGetUserById (optProp body "userId")) = .resolved authUser none)
    (hfound : truthy (optProp authUser "user") = true)
    (hrow : w.remote
      [.call (.getUser (secondWord (req.authorization.getD ""))) (.resolved data none),
        .call (.adminGetUserById (optProp body "userId")) (.resolved authUser none)]
      (rowLookup (optProp body "userId")) = .resolved dbUser dbError)
    (hnoerr : otherThanNoRows dbError = false) (hdb : truthy dbUser = true) :
    let out := run (syncUserRoleHandler req) w
    let userId := optProp body "userId"
    let reads : List Event :=
      [.call (.getUser (secondWord (req.authorization.getD ""))) (.resolved data none),
        .call (.adminGetUserById userId) (.resolved authUser none),
        .call (rowLookup userId) (.resolved dbUser dbError)]
    let dbRole := optProp dbUser "role"
    let authRole := authRoleOf (optProp authUser "user")
    (truthy dbRole = true → strictEq dbRole authRole = false →
      out.2.trace = reads ++ [.call (metadataOverwrite userId dbRole)
        (w.remote reads (metadataOverwrite userId dbRole))] ∧
      (statusOf out = some 200 ↔
        ∃ d, w.remote reads (metadataOverwrite userId dbRole) = .resolved d none) ∧
      (statusOf out = some 200 → out.1 = .ok ⟨200, syncedBody dbRole true⟩)) ∧
    (truthy dbRole = false →
      out.2.trace = reads ++ [.call (rowUpdate userId authRole)
        (w.remote reads (rowUpdate userId authRole))] ∧
      (statusOf out = some 200 ↔
        ∃ d, w.remote reads (rowUpdate userId authRole) = .resolved d none) ∧
      (statusOf out = some 200 → out.1 = .ok ⟨200, syncedBody authRole true⟩)) ∧
    (strictEq dbRole authRole = true →
      out.1 = .ok ⟨200, syncedBody authRole false⟩ ∧ out.2.trace = reads) ∧
    (∀ r, out.1 = .ok r → r.status = 200 →
      optProp r.body "role" = rowRoleAfter dbRole out.2.trace ∧
      (optProp r.body "updated" = .bool false ↔ strictEq dbRole authRole = true)) := by
  intro out userId reads dbRole authRole
  have hout := syncUserRoleHandler_authorized w req body data hmethod hjson hid hbearer hget
    huser hallowed
  have hrec := reconcileRoles_run w userId authUser dbUser dbError
    ⟨[.call (.getUser (secondWord (req.authorization.getD ""))) (.resolved data none)],
      0, [], []⟩ htarget hfound hrow hnoerr hdb
  have hauth : truthy authRole = true := truthy_authRoleOf _
  have hA : truthy dbRole = true → strictEq dbRole authRole = false →
      out.2.trace = reads ++ [.call (metadataOverwrite userId dbRole)
        (w.remote reads (metadataOverwrite userId dbRole))] ∧
      (statusOf out = some 200 ↔
        ∃ d, w.remote reads (metadataOverwrite userId dbRole) = .resolved d none) ∧
      (statusOf out = some 200 → out.1 = .ok ⟨200, syncedBody dbRole true⟩) := by
    intro h1 h2
    simp only [out, hout, userId, hrec, bindR_ok]
    simp only [dbRole, authRole] at h1 h2
    simp only [h1, h2, Bool.not_false, Bool.and_self, if_true, bind_run, await_run,
      List.singleton_append, List.cons_append, List.nil_append, reads, userId, dbRole]
    cases w.remote _ (metadataOverwrite (optProp body "userId") (optProp dbUser "role")) with
    | rejected e => simp
    | resolved d e => cases e <;> simp
  have hB : truthy dbRole = false →
      out.2.trace = reads ++ [.call (rowUpdate userId authRole)
        (w.remote reads (rowUpdate userId authRole))] ∧
      (statusOf out = some 200 ↔
        ∃ d, w.remote reads (rowUpdate userId authRole) = .resolved d none) ∧
      (statusOf out = some 200 → out.1 = .ok ⟨200, syncedBody authRole true⟩) := by
    intro h1
    simp only [out, hout, userId, hrec, bindR_ok]
    simp only [dbRole] at h1
    simp only [h1, Bool.false_and, Bool.false_eq_true, if_false, Bool.not_false, if_true,
      bind_run, await_run, List.singleton_append, List.cons_append, List.nil_append, reads,
      userId, authRole]
    cases w.remote _ (rowUpdate (optProp body "userId")
      (authRoleOf (optProp authUser "user"))) with
    | rejected e => simp
    | resolved d e => cases e <;> simp
  have hC : strictEq dbRole authRole = true →
      out.1 = .ok ⟨200, syncedBody authRole false⟩ ∧ out.2.trace = reads := by
    intro h1
    have h2 : truthy dbRole = true := by rw [strictEq_eq _ _ h1]; exact hauth
    simp only [out, hout, userId, hrec, bindR_ok]
    simp only [dbRole, authRole] at h1 h2
    simp [h1, h2, reads, userId, authRole]
  refine ⟨hA, hB, hC, ?_⟩
  intro r hr hstatus
  have h200 : statusOf out = some 200 := by
    rw [← hstatus]
    cases hx : out with
    | mk x s1 =>
      rw [hx] at hr
      simp only at hr
      subst hr
      rfl
  by_cases h1 : strictEq dbRole authRole = true
  · obtain ⟨hres, htrace⟩ := hC h1
    rw [hres] at hr
    simp only [Except.ok.injEq] at hr
    subst hr
    rw [htrace]
    refine ⟨?_, ?_⟩
    · rw [strictEq_eq _ _ h1]
      simp [syncedBody, optProp, lookupField, reads, rowRoleAfter, rowLookup]
    · simp [syncedBody, optProp, lookupField, h1]
  · have h1f : strictEq dbRole authRole = false := by simpa using h1
    by_cases h2 : truthy dbRole = true
    · obtain ⟨htrace, -, hres⟩ := hA h2 h1f
      have hres := hres h200
      rw [hres] at hr
      simp only [Except.ok.injEq] at hr
      subst hr
      rw [htrace]
      refine ⟨?_, ?_⟩
      · simp [syncedBody, optProp, lookupField, reads, rowRoleAfter, rowLookup,
          metadataOverwrite]
      · simp [syncedBody, optProp, lookupField, h1f]
    · have h2f : truthy dbRole = false := by simpa using h2
      obtain ⟨htrace, hiff, hres⟩ := hB h2f
      have hres := hres h200
      obtain ⟨d, hd⟩ := hiff.1 h200
      rw [hres] at hr
      simp only [Except.ok.injEq] at hr
      subst hr
      rw [htrace, hd]
      refine ⟨?_, ?_⟩
      · simp [syncedBody, optProp, lookupField, reads, rowRoleAfter, rowLookup, rowUpdate]
      · simp [syncedBody, optProp, lookupField, h1f]

/-- C22, witness: `u1` syncs their own role; the auth role is `viewer` and the row holds
`engineer`, so the answer is 200 with the role `engineer` and `updated` true. -/
theorem sync_reconciliation_witness :
    (bearerReq "POST" (.obj [("userId", .str "u1")])).method = "POST" ∧
      (bearerReq "POST" (.obj [("userId", .str "u1")])).json =
        .ok (.obj [("userId", .str "u1")]) ∧
      truthy (optProp (.obj [("userId", .str "u1")]) "userId") = true ∧
      noBearer (bearerReq "POST" (.obj [("userId", .str "u1")])).authorization = false ∧
      otherThanNoRows none = false ∧
      truthy (.obj [("id", .str "u1"), ("role", .str "engineer")]) = true ∧
      (run (syncUserRoleHandler (bearerReq "POST" (.obj [("userId", .str "u1")])))
        (syncWorld (.str "viewer") (.str "engineer"))).1 =
          .ok ⟨200, syncedBody (.str "engineer") true⟩ :=
  ⟨rfl, rfl, rfl, rfl, rfl, rfl,
    ((sync_reconciliation (syncWorld (.str "viewer") (.str "engineer"))
      (bearerReq "POST" (.obj [("userId", .str "u1")])) (.obj [("userId", .str "u1")])
      (.obj [("user", userRecord "u1" "viewer")])
      (.obj [("user", .obj [("id", .str "u1"), ("email", .str "u1@example.com"),
        ("user_metadata", .obj [("role", .str "viewer")])])])
      (.obj [("id", .str "u1"), ("role", .str "engineer")]) none
      rfl rfl rfl rfl rfl rfl (Or.inl rfl) rfl rfl rfl rfl rfl).1 rfl rfl).2.2
        (((sync_reconciliation (syncWorld (.str "viewer") (.str "engineer"))
          (bearerReq "POST" (.obj [("userId", .str "u1")])) (.obj [("userId", .str "u1")])
          (.obj [("user", userRecord "u1" "viewer")])
          (.obj [("user", .obj [("id", .str "u1"), ("email", .str "u1@example.com"),
            ("user_metadata", .obj [("role", .str "viewer")])])])
          (.obj [("id", .str "u1"), ("role", .str "engineer")]) none
          rfl rfl rfl rfl rfl rfl (Or.inl rfl) rfl rfl rfl rfl rfl).1 rfl rfl).2.1.mpr
            ⟨.null, rfl⟩)⟩

end Airfield
